import Mathlib

/-!
# RFNoC block controller (`host/lib/usrp/rfnoc/block_ctrl_base.cpp`)

A shallow embedding of the block controller: the settings-bus accessors, the
discovery sequence of the constructor, the flow-control and routing register
encoders and the packet-size policy kept in the property tree.

Conventions of the embedding.

* Machine integers are natural numbers; every narrowing conversion of the C++
  code is an explicit reduction modulo a power of two.  `boost::uint32_t` is 32
  bits, `boost::uint64_t` is 64 bits, `int` is 32 bits, and the width of
  `size_t` is a field of `Platform`.
* The control interface (`wb_iface`) is a log of bus accesses together with
  the answers of the device, which may depend on everything done before.
* Exceptions are values of `Exn` returned through `Except`.
* Console messages (`UHD_MSG`, `UHD_LOG`) are not part of the state.
-/

namespace Rfnoc

/-! ## Machine arithmetic -/

/-- Width of `size_t` on the data models the host library is built for. -/
inductive DataModel
  | ilp32
  | lp64
deriving DecidableEq

/-- Number of bits of a `size_t`. -/
def DataModel.size_bits : DataModel → Nat
  | .ilp32 => 32
  | .lp64 => 64

/-- What the C++ implementation contributes to the meaning of the code: the
width of `size_t`, and the value it happens to produce for `1 << n` when `n` is
at least the width of `int` (the language leaves that shift undefined). -/
structure Platform where
  model : DataModel
  shl_oob : Nat → Int

/-- The usual 64-bit host, with the shift count taken modulo 32. -/
def lp64 : Platform := ⟨DataModel.lp64, fun n => 2 ^ (n % 32)⟩

/-- A 32-bit host, where an oversized shift yields zero. -/
def ilp32 : Platform := ⟨DataModel.ilp32, fun _ => 0⟩

/-- Conversion to `boost::uint32_t`. -/
def to_uint32 (x : Nat) : Nat := x % 2 ^ 32

/-- Conversion to `boost::uint64_t`. -/
def to_uint64 (x : Nat) : Nat := x % 2 ^ 64

/-- Conversion of a signed value to `size_t`: reduction modulo `2 ^ size_bits`. -/
def to_size_t (P : Platform) (z : Int) : Nat := (z % 2 ^ P.model.size_bits).toNat

/-- Reduction of an integer to the range of a 32-bit `int`. -/
def wrap_int32 (z : Int) : Int := (z + 2 ^ 31) % 2 ^ 32 - 2 ^ 31

/-- Value of the C++ expression `1 << n`, whose operands are `int`s: the power
of two while it is representable, the sign bit for `n = 31` (the bit pattern
`0x80000000`, which the file relies on in `configure_flow_control_in`), and
whatever the platform produces beyond. -/
def int_one_shl (P : Platform) (n : Nat) : Int :=
  if n < 31 then 2 ^ n
  else if n = 31 then -(2 ^ 31)
  else wrap_int32 (P.shl_oob n)

/-! ## Collaborators that the controller is built on -/

/-- Exceptions raised by the controller and its collaborators. -/
inductive Exn
  | lookup_error
  | runtime_error
  | type_error
  | out_of_range
  | value_error
  | assertion_error
  | diverged
deriving DecidableEq

/-- One access on the control interface. -/
inductive BusOp
  | poke32 (addr data : Nat)
  | peek32 (addr : Nat)
  | peek64 (addr : Nat)
deriving DecidableEq

/-- Modelled from the spec: `wb_iface` (the settings-bus transport, whose class
is not among the sources).  `log` is the sequence of accesses made so far;
`rd32` and `rd64` are the device: the word it answers to a read of an address,
given everything that was done before. -/
structure wb_iface where
  rd32 : List BusOp → Nat → Nat
  rd64 : List BusOp → Nat → Nat
  log : List BusOp

/-- Modelled from the spec: `wb_iface::poke32`, which adds a write to the log. -/
def wb_iface.poke32 (i : wb_iface) (addr data : Nat) : wb_iface :=
  { i with log := i.log ++ [BusOp.poke32 addr data] }

/-- Modelled from the spec: `wb_iface::peek32`; the word read, and the interface
afterwards. -/
def wb_iface.peek32 (i : wb_iface) (addr : Nat) : Nat × wb_iface :=
  (to_uint32 (i.rd32 i.log addr), { i with log := i.log ++ [BusOp.peek32 addr] })

/-- Modelled from the spec: `wb_iface::peek64`; the word read, and the interface
afterwards. -/
def wb_iface.peek64 (i : wb_iface) (addr : Nat) : Nat × wb_iface :=
  (to_uint64 (i.rd64 i.log addr), { i with log := i.log ++ [BusOp.peek64 addr] })

/-- A path of the property tree, as its list of components: the path
`xbar/CE_0/noc_id` is `["xbar", "CE_0", "noc_id"]`. -/
abbrev fs_path := List String

/-- A typed property value: `boost::uint64_t`, `std::vector<size_t>`, `size_t`
or `double`. -/
inductive prop_value
  | u64 (v : Nat)
  | sizes (v : List Nat)
  | size (v : Nat)
  | dbl (v : Nat)
deriving DecidableEq

/-- Modelled from the spec: `property_tree` (not among the sources).  The tree
is kept as the list of its properties, each under its full path; a node exists
when it is an initial segment of the path of some property, since creating a
property creates the nodes above it and nothing here removes a node. -/
structure property_tree where
  nodes : List (fs_path × prop_value)
deriving DecidableEq

/-- Modelled from the spec: `property_tree::exists`. -/
def property_tree.node_exists (t : property_tree) (p : fs_path) : Bool :=
  t.nodes.any (fun e => p.isPrefixOf e.1)

/-- Modelled from the spec: `property_tree::create<T>(path).set(v)`, which fails
when a property is already stored at the path. -/
def property_tree.create (t : property_tree) (p : fs_path) (v : prop_value) :
    Except Exn property_tree :=
  if t.nodes.any (fun e => e.1 == p) then Except.error Exn.runtime_error
  else Except.ok ⟨t.nodes ++ [(p, v)]⟩

/-- Modelled from the spec: `property_tree::access<T>(path)`, the property
stored at the path; a missing node is a lookup error, a node without a property
a runtime error. -/
def property_tree.access (t : property_tree) (p : fs_path) : Except Exn prop_value :=
  match t.nodes.find? (fun e => e.1 == p) with
  | some e => Except.ok e.2
  | none => if t.node_exists p then Except.error Exn.runtime_error
            else Except.error Exn.lookup_error

/-- Modelled from the spec: `property_tree::access<size_t>(path).get()`. -/
def property_tree.get_size (t : property_tree) (p : fs_path) : Except Exn Nat :=
  match t.access p with
  | Except.ok (prop_value.size v) => Except.ok v
  | Except.ok _ => Except.error Exn.type_error
  | Except.error e => Except.error e

/-- Modelled from the spec: `property_tree::access<size_t>(path).set(v)`. -/
def property_tree.set_size (t : property_tree) (p : fs_path) (v : Nat) :
    Except Exn property_tree :=
  match t.access p with
  | Except.ok (prop_value.size _) =>
      Except.ok ⟨t.nodes.map (fun e => if e.1 == p then (p, prop_value.size v) else e)⟩
  | Except.ok _ => Except.error Exn.type_error
  | Except.error e => Except.error e

/-- Modelled from the spec: `property_tree::access<std::vector<size_t> >(path).get()`. -/
def property_tree.get_sizes (t : property_tree) (p : fs_path) : Except Exn (List Nat) :=
  match t.access p with
  | Except.ok (prop_value.sizes v) => Except.ok v
  | Except.ok _ => Except.error Exn.type_error
  | Except.error e => Except.error e

/-- Modelled from the spec: `property_tree::access<double>(path).get()`; the
rates that occur are whole numbers of hertz. -/
def property_tree.get_dbl (t : property_tree) (p : fs_path) : Except Exn Nat :=
  match t.access p with
  | Except.ok (prop_value.dbl v) => Except.ok v
  | Except.ok _ => Except.error Exn.type_error
  | Except.error e => Except.error e

/-- Modelled from the spec: `sid_t` (not among the sources), a 32-bit stream
identifier made of a 16-bit source address and a 16-bit destination address. -/
structure sid_t where
  src_address : Nat
  dst_address : Nat
deriving DecidableEq

/-- Modelled from the spec: `block_id_t` (not among the sources): device
number, block name and the index that tells blocks of one name apart. -/
structure block_id_t where
  device_no : Nat
  block_name : String
  block_count : Nat
deriving DecidableEq

/-- Modelled from the spec: `block_id_t::get_local`, the name and the index, as
in `CE_0`. -/
def block_id_t.get_local (b : block_id_t) : String :=
  b.block_name ++ "_" ++ toString b.block_count

/-- The constants of `block_ctrl_base.hpp`, which is not among the sources:
the settings registers, the read-back registers and the default packet size. -/
structure Header where
  SR_FLOW_CTRL_CYCS_PER_ACK : Nat
  SR_FLOW_CTRL_PKTS_PER_ACK : Nat
  SR_FLOW_CTRL_BUF_SIZE : Nat
  SR_FLOW_CTRL_ENABLE : Nat
  SR_FLOW_CTRL_CLR_SEQ : Nat
  SR_NEXT_DST : Nat
  SR_READBACK_REG_ID : Nat
  SR_READBACK_REG_BUFFALLOC0 : Nat
  SR_READBACK_REG_BUFFALLOC1 : Nat
  DEFAULT_PACKET_SIZE : Nat

/-! ## The controller -/

/-- `_sr_to_addr`: register number to `peek32`/`poke32` address. -/
def _sr_to_addr (reg : Nat) : Nat := to_uint32 (reg * 4)

/-- `_sr_to_addr64`: register number to `peek64` address. -/
def _sr_to_addr64 (reg : Nat) : Nat := to_uint32 (reg * 8)

/-- One line in the FPGA is 64 bits. -/
def BYTES_PER_LINE : Nat := 8

/-- The members of `block_ctrl_base`. -/
structure block_ctrl_base where
  _ctrl_sid : sid_t
  _ctrl_iface : wb_iface
  _tree : property_tree
  _transport_is_big_endian : Bool
  _block_id : block_id_t
  root_path : fs_path
  _upstream_blocks : List block_id_t

/-- `block_ctrl_base::sr_write`; both arguments are `boost::uint32_t`. -/
def sr_write (self : block_ctrl_base) (reg data : Nat) : block_ctrl_base :=
  { self with _ctrl_iface := self._ctrl_iface.poke32 (_sr_to_addr (to_uint32 reg)) (to_uint32 data) }

/-- `block_ctrl_base::sr_read64`. -/
def sr_read64 (self : block_ctrl_base) (reg : Nat) : Nat × block_ctrl_base :=
  let r := self._ctrl_iface.peek64 (_sr_to_addr64 (to_uint32 reg))
  (r.1, { self with _ctrl_iface := r.2 })

/-- `block_ctrl_base::sr_read32`. -/
def sr_read32 (self : block_ctrl_base) (reg : Nat) : Nat × block_ctrl_base :=
  let r := self._ctrl_iface.peek32 (_sr_to_addr (to_uint32 reg))
  (r.1, { self with _ctrl_iface := r.2 })

/-- `block_ctrl_base::configure_flow_control_in`.  In `(1<<31) | cycles` the
left operand is the `int` `1 << 31`; it is converted to `size_t` for the
bitwise or, and the result is narrowed to the 32-bit `cycles_word`. -/
def configure_flow_control_in (P : Platform) (H : Header) (self : block_ctrl_base)
    (cycles packets : Nat) (_block_port : Nat) : block_ctrl_base :=
  let cycles_word : Nat :=
    if cycles ≠ 0 then to_uint32 (to_size_t P (int_one_shl P 31) ||| cycles) else 0
  let self := sr_write self H.SR_FLOW_CTRL_CYCS_PER_ACK cycles_word
  let packets_word : Nat :=
    if packets ≠ 0 then to_uint32 (to_size_t P (int_one_shl P 31) ||| packets) else 0
  sr_write self H.SR_FLOW_CTRL_PKTS_PER_ACK packets_word

/-- `block_ctrl_base::configure_flow_control_out`.  The port and the SID are
unused. -/
def configure_flow_control_out (H : Header) (self : block_ctrl_base)
    (buf_size_pkts : Nat) (_block_port : Nat) (_sid : sid_t) : block_ctrl_base :=
  let self := sr_write self H.SR_FLOW_CTRL_BUF_SIZE
    (if buf_size_pkts = 0 then 0 else buf_size_pkts - 1)
  sr_write self H.SR_FLOW_CTRL_ENABLE (if buf_size_pkts ≠ 0 then 1 else 0)

/-- `block_ctrl_base::reset_flow_control`. -/
def reset_flow_control (H : Header) (self : block_ctrl_base) : block_ctrl_base :=
  sr_write self H.SR_FLOW_CTRL_CLR_SEQ 0x00C1EA12

/-- `block_ctrl_base::set_destination`.  The SID assembled from the control
SID and the port is a local object that is only logged; the one effect is the
write of the routing register. -/
def set_destination (H : Header) (self : block_ctrl_base)
    (next_address : Nat) (_output_block_port : Nat) : block_ctrl_base :=
  sr_write self H.SR_NEXT_DST (2 ^ 16 ||| to_uint32 next_address)

/-- `block_ctrl_base::get_fifo_size`: element `block_port` of the recorded
vector, through the bounds-checked `at`. -/
def get_fifo_size (self : block_ctrl_base) (block_port : Nat) : Except Exn Nat :=
  match self._tree.get_sizes (self.root_path ++ ["input_buffer_size"]) with
  | Except.ok v =>
      match v.get? block_port with
      | some x => Except.ok x
      | none => Except.error Exn.out_of_range
  | Except.error e => Except.error e

/-- `block_ctrl_base::get_address`; the port is not used yet. -/
def get_address (self : block_ctrl_base) (_block_port : Nat) : Nat :=
  self._ctrl_sid.dst_address

/-- `block_ctrl_base::get_clock_rate`. -/
def get_clock_rate (self : block_ctrl_base) : Except Exn Nat :=
  self._tree.get_dbl (self.root_path ++ ["clock_rate"])

/-- The path `_root_path / "bytes_per_packet/%d"` of the override of a port. -/
def bpp_path (self : block_ctrl_base) (out_block_port : Nat) : fs_path :=
  self.root_path ++ ["bytes_per_packet", toString out_block_port]

/-- `block_ctrl_base::set_bytes_per_output_packet`: the returned flag and the
controller afterwards. -/
def set_bytes_per_output_packet (self : block_ctrl_base) (bpp out_block_port : Nat) :
    Except Exn (Bool × block_ctrl_base) :=
  if bpp % BYTES_PER_LINE ≠ 0 then Except.ok (false, self)
  else if self._tree.node_exists (bpp_path self out_block_port) then
    match self._tree.set_size (bpp_path self out_block_port) bpp with
    | Except.ok t => Except.ok (true, { self with _tree := t })
    | Except.error e => Except.error e
  else
    match self._tree.create (bpp_path self out_block_port) (prop_value.size bpp) with
    | Except.ok t => Except.ok (true, { self with _tree := t })
    | Except.error e => Except.error e

/-- `block_ctrl_base::set_bytes_per_input_packet`. -/
def set_bytes_per_input_packet (self : block_ctrl_base) (_bpp _in_block_port : Nat) :
    Bool × block_ctrl_base :=
  (true, self)

/-- `block_ctrl_base::get_bytes_per_output_packet`. -/
def get_bytes_per_output_packet (self : block_ctrl_base) (out_block_port : Nat) :
    Except Exn Nat :=
  if self._tree.node_exists (bpp_path self out_block_port) then
    self._tree.get_size (bpp_path self out_block_port)
  else
    self._tree.get_size (self.root_path ++ ["bytes_per_packet", "default"])

/-- `block_ctrl_base::register_upstream_block`. -/
def register_upstream_block (self : block_ctrl_base) (upstream_block : block_id_t) :
    block_ctrl_base :=
  { self with _upstream_blocks := self._upstream_blocks ++ [upstream_block] }

/-! ## The constructor -/

/-- Buffer size of one port, `BYTES_PER_LINE * (1 << buf_size_log2)`: the shift
is done on `int`s, its result is converted to `size_t` and the product is taken
in `size_t`. -/
def buf_size_bytes (P : Platform) (buf_size_log2 : Nat) : Nat :=
  (BYTES_PER_LINE * to_size_t P (int_one_shl P buf_size_log2)) % 2 ^ P.model.size_bits

/-- The inner loop of the constructor: the eight bytes of one read-back word
give the sizes of the ports `port_offset .. port_offset + 7`. -/
def fill_buf_sizes (P : Platform) (value port_offset : Nat) (buf_sizes : List Nat) :
    List Nat :=
  (List.range 8).foldl
    (fun bs i => bs.set (i + port_offset) (buf_size_bytes P ((value >>> (i * 8)) &&& 0xFF)))
    buf_sizes

/-- The block name chosen from the NoC-ID. -/
def blockname_of (noc_id : Nat) : String :=
  if noc_id = 0xAAAABBBBCCCC0000 then "NullSrcSink"
  else if (noc_id >>> 48) &&& 0xFFFF ≠ 0xAAAA then "Radio"
  else "CE"

/-- The loop `while (_tree->exists("xbar/" + _block_id.get_local())) _block_id++`,
run for at most `fuel` tests of the condition. -/
def bump_block_id (t : property_tree) : Nat → block_id_t → Option block_id_t
  | 0, _ => none
  | fuel + 1, b =>
      if t.node_exists ["xbar", b.get_local] then
        bump_block_id t fuel { b with block_count := b.block_count + 1 }
      else some b

/-- The constructor `block_ctrl_base::block_ctrl_base`.  The loop over the
block index gets one test more than the tree has properties, which is always
enough (`bump_block_id_total`). -/
def block_ctrl_base.ctor (P : Platform) (H : Header) (ctrl_iface : wb_iface)
    (ctrl_sid : sid_t) (device_index : Nat) (tree : property_tree)
    (transport_is_big_endian : Bool) : Except Exn block_ctrl_base :=
  let self : block_ctrl_base :=
    { _ctrl_sid := ctrl_sid, _ctrl_iface := ctrl_iface, _tree := tree,
      _transport_is_big_endian := transport_is_big_endian,
      _block_id := ⟨0, "", 0⟩, root_path := [], _upstream_blocks := [] }
  let r := sr_read64 self H.SR_READBACK_REG_ID
  let noc_id := r.1
  let self := r.2
  let buf_sizes := List.replicate 16 0
  let r := sr_read64 self H.SR_READBACK_REG_BUFFALLOC0
  let buf_sizes := fill_buf_sizes P r.1 0 buf_sizes
  let self := r.2
  let r := sr_read64 self H.SR_READBACK_REG_BUFFALLOC1
  let buf_sizes := fill_buf_sizes P r.1 8 buf_sizes
  let self := r.2
  let blockname := blockname_of noc_id
  match bump_block_id self._tree (self._tree.nodes.length + 1) ⟨device_index, blockname, 0⟩ with
  | none => Except.error Exn.diverged
  | some block_id =>
      let root : fs_path := ["xbar", block_id.get_local]
      match self._tree.create (root ++ ["noc_id"]) (prop_value.u64 noc_id) with
      | Except.error e => Except.error e
      | Except.ok t1 =>
      match t1.create (root ++ ["input_buffer_size"]) (prop_value.sizes buf_sizes) with
      | Except.error e => Except.error e
      | Except.ok t2 =>
      match t2.create (root ++ ["bytes_per_packet", "default"])
          (prop_value.size H.DEFAULT_PACKET_SIZE) with
      | Except.error e => Except.error e
      | Except.ok t3 =>
      match t3.create (root ++ ["clock_rate"]) (prop_value.dbl 160000000) with
      | Except.error e => Except.error e
      | Except.ok t4 =>
          Except.ok { self with _block_id := block_id, root_path := root, _tree := t4 }

/-- A call of one of the mutating operations of a controller. -/
inductive Call
  | sr_write (reg data : Nat)
  | configure_flow_control_in (cycles packets block_port : Nat)
  | configure_flow_control_out (buf_size_pkts block_port : Nat) (sid : sid_t)
  | reset_flow_control
  | set_bytes_per_output_packet (bpp out_block_port : Nat)
  | set_bytes_per_input_packet (bpp in_block_port : Nat)
  | set_destination (next_address output_block_port : Nat)
  | register_upstream_block (upstream_block : block_id_t)

/-- The controller after one call; an exception leaves the call without
effect on the controller. -/
def apply_call (P : Platform) (H : Header) (self : block_ctrl_base) : Call → block_ctrl_base
  | .sr_write reg data => sr_write self reg data
  | .configure_flow_control_in c p b => configure_flow_control_in P H self c p b
  | .configure_flow_control_out n b s => configure_flow_control_out H self n b s
  | .reset_flow_control => reset_flow_control H self
  | .set_bytes_per_output_packet bpp port =>
      match set_bytes_per_output_packet self bpp port with
      | Except.ok r => r.2
      | Except.error _ => self
  | .set_bytes_per_input_packet bpp port => (set_bytes_per_input_packet self bpp port).2
  | .set_destination a port => set_destination H self a port
  | .register_upstream_block b => register_upstream_block self b

/-- The controller after a sequence of calls. -/
def run_calls (P : Platform) (H : Header) (self : block_ctrl_base) (calls : List Call) :
    block_ctrl_base :=
  calls.foldl (apply_call P H) self

/-- Whether a call is a `set_bytes_per_output_packet` on the given port that is
accepted by the line-size check. -/
def call_sets_port (port : Nat) : Call → Bool
  | .set_bytes_per_output_packet bpp q => bpp % BYTES_PER_LINE == 0 && q == port
  | _ => false

/-! ## Vocabulary of the statements -/

/-- The controller after the given accesses were added to the log of its
control interface, everything else being as before. -/
def pushed (self : block_ctrl_base) (ops : List BusOp) : block_ctrl_base :=
  { self with _ctrl_iface := { self._ctrl_iface with log := self._ctrl_iface.log ++ ops } }

/-- The bus access by which a settings register receives a word. -/
def reg_write (reg data : Nat) : BusOp :=
  BusOp.poke32 (_sr_to_addr (to_uint32 reg)) data

/-- A register map for the concrete evaluations; the general statements hold
for every map. -/
def sample_header : Header :=
  { SR_FLOW_CTRL_CYCS_PER_ACK := 0, SR_FLOW_CTRL_PKTS_PER_ACK := 1,
    SR_FLOW_CTRL_BUF_SIZE := 2, SR_FLOW_CTRL_ENABLE := 3,
    SR_FLOW_CTRL_CLR_SEQ := 4, SR_NEXT_DST := 8,
    SR_READBACK_REG_ID := 0, SR_READBACK_REG_BUFFALLOC0 := 1,
    SR_READBACK_REG_BUFFALLOC1 := 2, DEFAULT_PACKET_SIZE := 1456 }

/-- A device for the concrete evaluations: its first buffer-allocation word is
`0x0707`, the second one has a byte `31` and a byte `255`. -/
def sample_iface : wb_iface :=
  { rd32 := fun _ _ => 0,
    rd64 := fun _ a => if a = 8 then 0x0707 else if a = 16 then 0xFF1F else 0xAAAA000000000001,
    log := [] }

/-- A property tree in which the block `CE_0` is already present. -/
def sample_tree : property_tree :=
  ⟨[(["xbar", "CE_0", "noc_id"], prop_value.u64 3)]⟩

/-- The controller that the constructor builds on the sample device and tree
(`sample_ctrl_constructed`). -/
def sample_ctrl : block_ctrl_base :=
  { _ctrl_sid := ⟨0, 0x0210⟩,
    _ctrl_iface := { sample_iface with log := [BusOp.peek64 0, BusOp.peek64 8, BusOp.peek64 16] },
    _tree := ⟨[(["xbar", "CE_0", "noc_id"], prop_value.u64 3),
      (["xbar", "CE_1", "noc_id"], prop_value.u64 0xAAAA000000000001),
      (["xbar", "CE_1", "input_buffer_size"],
        prop_value.sizes [1024, 1024, 8, 8, 8, 8, 8, 8,
          18446744056529682432, 18446744056529682432, 8, 8, 8, 8, 8, 8]),
      (["xbar", "CE_1", "bytes_per_packet", "default"], prop_value.size 1456),
      (["xbar", "CE_1", "clock_rate"], prop_value.dbl 160000000)]⟩,
    _transport_is_big_endian := false,
    _block_id := ⟨0, "CE", 1⟩,
    root_path := ["xbar", "CE_1"],
    _upstream_blocks := [] }

/-- A controller state is reachable when the constructor built a controller
from some device and tree and a sequence of calls led from it to the state. -/
def Reachable (P : Platform) (H : Header) (st : block_ctrl_base) : Prop :=
  ∃ (iface : wb_iface) (sid : sid_t) (dev : Nat) (tree : property_tree) (be : Bool)
    (st0 : block_ctrl_base) (calls : List Call),
    block_ctrl_base.ctor P H iface sid dev tree be = Except.ok st0 ∧
    st = run_calls P H st0 calls

/-- The NoC-ID that the device answers to the first read of the constructor. -/
def noc_id_read (H : Header) (iface : wb_iface) : Nat :=
  to_uint64 (iface.rd64 iface.log (_sr_to_addr64 (to_uint32 H.SR_READBACK_REG_ID)))

/-- The word that the device answers to the constructor's read of
`SR_READBACK_REG_BUFFALLOC0`, its second access. -/
def buffalloc0_read (H : Header) (iface : wb_iface) : Nat :=
  to_uint64 (iface.rd64
    (iface.log ++ [BusOp.peek64 (_sr_to_addr64 (to_uint32 H.SR_READBACK_REG_ID))])
    (_sr_to_addr64 (to_uint32 H.SR_READBACK_REG_BUFFALLOC0)))

/-- The word that the device answers to the constructor's read of
`SR_READBACK_REG_BUFFALLOC1`, its third access. -/
def buffalloc1_read (H : Header) (iface : wb_iface) : Nat :=
  to_uint64 (iface.rd64
    (iface.log ++ [BusOp.peek64 (_sr_to_addr64 (to_uint32 H.SR_READBACK_REG_ID)),
      BusOp.peek64 (_sr_to_addr64 (to_uint32 H.SR_READBACK_REG_BUFFALLOC0))])
    (_sr_to_addr64 (to_uint32 H.SR_READBACK_REG_BUFFALLOC1)))

/-- Byte `i` of a read-back word. -/
def byte_of (value i : Nat) : Nat := (value >>> (i * 8)) &&& 0xFF

/-- The properties that the constructor stores under the root of the block. -/
def ctor_nodes (P : Platform) (H : Header) (iface : wb_iface) (root : fs_path) :
    List (fs_path × prop_value) :=
  [(root ++ ["noc_id"], prop_value.u64 (noc_id_read H iface)),
   (root ++ ["input_buffer_size"],
     prop_value.sizes (fill_buf_sizes P (buffalloc1_read H iface) 8
       (fill_buf_sizes P (buffalloc0_read H iface) 0 (List.replicate 16 0)))),
   (root ++ ["bytes_per_packet", "default"], prop_value.size H.DEFAULT_PACKET_SIZE),
   (root ++ ["clock_rate"], prop_value.dbl 160000000)]

/-- The controller that the constructor builds when its loop stops at the
block index `n`. -/
def constructed (P : Platform) (H : Header) (iface : wb_iface) (sid : sid_t) (dev : Nat)
    (tree : property_tree) (be : Bool) (n : Nat) : block_ctrl_base :=
  { _ctrl_sid := sid,
    _ctrl_iface :=
      { iface with
        log := iface.log ++
          [BusOp.peek64 (_sr_to_addr64 (to_uint32 H.SR_READBACK_REG_ID)),
           BusOp.peek64 (_sr_to_addr64 (to_uint32 H.SR_READBACK_REG_BUFFALLOC0)),
           BusOp.peek64 (_sr_to_addr64 (to_uint32 H.SR_READBACK_REG_BUFFALLOC1))] },
    _tree := ⟨tree.nodes ++ ctor_nodes P H iface
      ["xbar", block_id_t.get_local ⟨dev, blockname_of (noc_id_read H iface), n⟩]⟩,
    _transport_is_big_endian := be,
    _block_id := ⟨dev, blockname_of (noc_id_read H iface), n⟩,
    root_path := ["xbar", block_id_t.get_local ⟨dev, blockname_of (noc_id_read H iface), n⟩],
    _upstream_blocks := [] }

/-- The path `_root_path / "bytes_per_packet/default"` of the block-wide
default. -/
def default_bpp_path (self : block_ctrl_base) : fs_path :=
  self.root_path ++ ["bytes_per_packet", "default"]

/-- What holds of the packet-size properties of a controller in every state
that can be reached: a property at or below the path of a port override is a
`size_t` stored at that very path and is a multiple of the line size, and the
block-wide default is stored and is `DEFAULT_PACKET_SIZE`. -/
structure TreeInv (H : Header) (st : block_ctrl_base) : Prop where
  ports : ∀ (q : Nat) (e : fs_path × prop_value), e ∈ st._tree.nodes →
    bpp_path st q <+: e.1 →
    ∃ v, v % BYTES_PER_LINE = 0 ∧ e = (bpp_path st q, prop_value.size v)
  default_mem : ∃ e ∈ st._tree.nodes, e.1 = default_bpp_path st
  default_val : ∀ e ∈ st._tree.nodes, e.1 = default_bpp_path st →
    e.2 = prop_value.size H.DEFAULT_PACKET_SIZE

/-- The flag that a call returned, when it returned and did not raise. -/
def returned_flag (r : Except Exn (Bool × block_ctrl_base)) : Option Bool :=
  match r with
  | Except.ok x => some x.1
  | Except.error _ => none

/-- The buffer size that is recorded for a port in the property
`input_buffer_size` of the block, if there is one. -/
def recorded_buf_size (st : block_ctrl_base) (port : Nat) : Option Nat :=
  match st._tree.get_sizes (st.root_path ++ ["input_buffer_size"]) with
  | Except.ok v => v.get? port
  | Except.error _ => none

/-- The log2 line count of a port in the buffer-allocation words read at
discovery: byte `port mod 8` of the first word for the ports below 8 and of
the second word for the others. -/
def buf_size_log2_read (H : Header) (iface : wb_iface) (port : Nat) : Nat :=
  byte_of (if port < 8 then buffalloc0_read H iface else buffalloc1_read H iface) (port % 8)

/-- The bus access by which a 64-bit read-back register is read. -/
def reg_read64 (reg : Nat) : BusOp :=
  BusOp.peek64 (_sr_to_addr64 (to_uint32 reg))

/-! ## The transmit core (`host/lib/usrp/cores/tx_vita_core_3000.cpp`) -/

/-- The members of `tx_vita_core_3000_impl`; the tick rate is a whole number in
every use made of it here. -/
structure tx_vita_core_3000_impl where
  _iface : wb_iface
  _deframer_base : Nat
  _ctrl_base : Nat
  _tick_rate : Nat

/-- `REG_CTRL_ERROR_POLICY`, as the 32-bit address handed to `poke32`. -/
def REG_CTRL_ERROR_POLICY (self : tx_vita_core_3000_impl) : Nat :=
  to_uint32 (self._ctrl_base + 0)

/-- `REG_DEFRAMER_CYCLE_FC_UPS`, as the 32-bit address handed to `poke32`. -/
def REG_DEFRAMER_CYCLE_FC_UPS (self : tx_vita_core_3000_impl) : Nat :=
  to_uint32 (self._deframer_base + 0)

/-- `REG_DEFRAMER_PACKET_FC_UPS`, as the 32-bit address handed to `poke32`. -/
def REG_DEFRAMER_PACKET_FC_UPS (self : tx_vita_core_3000_impl) : Nat :=
  to_uint32 (self._deframer_base + 4)

/-- `tx_vita_core_3000_impl::configure_flow_control`.  In
`(1 << 31) | ((cycs_per_up) & 0xffffff)` the left operand is the `int`
`1 << 31`, converted to `size_t` for the bitwise or; the result is narrowed to
the 32-bit data word of `poke32`. -/
def tx_vita_core_3000_impl.configure_flow_control (P : Platform)
    (self : tx_vita_core_3000_impl) (cycs_per_up pkts_per_up : Nat) :
    tx_vita_core_3000_impl :=
  let self : tx_vita_core_3000_impl :=
    if cycs_per_up = 0 then
      { self with _iface := self._iface.poke32 (REG_DEFRAMER_CYCLE_FC_UPS self) 0 }
    else
      { self with _iface := (self._iface.poke32 (REG_DEFRAMER_CYCLE_FC_UPS self)
          (to_uint32 (to_size_t P (int_one_shl P 31) ||| (cycs_per_up &&& 0xffffff)))) }
  if pkts_per_up = 0 then
    { self with _iface := self._iface.poke32 (REG_DEFRAMER_PACKET_FC_UPS self) 0 }
  else
    { self with _iface := (self._iface.poke32 (REG_DEFRAMER_PACKET_FC_UPS self)
        (to_uint32 (to_size_t P (int_one_shl P 31) ||| (pkts_per_up &&& 0xffff)))) }

/-- `tx_vita_core_3000_impl::clear`. -/
def tx_vita_core_3000_impl.clear (P : Platform) (self : tx_vita_core_3000_impl) :
    tx_vita_core_3000_impl :=
  tx_vita_core_3000_impl.configure_flow_control P self 0 0

/-- `tx_vita_core_3000_impl::set_tick_rate`. -/
def tx_vita_core_3000_impl.set_tick_rate (self : tx_vita_core_3000_impl) (rate : Nat) :
    tx_vita_core_3000_impl :=
  { self with _tick_rate := rate }

/-- `tx_vita_core_3000_impl::set_underflow_policy`. -/
def tx_vita_core_3000_impl.set_underflow_policy (self : tx_vita_core_3000_impl)
    (policy : String) : Except Exn tx_vita_core_3000_impl :=
  if policy = "next_packet" then
    Except.ok { self with _iface := self._iface.poke32 (REG_CTRL_ERROR_POLICY self) (2 ^ 1) }
  else if policy = "next_burst" then
    Except.ok { self with _iface := self._iface.poke32 (REG_CTRL_ERROR_POLICY self) (2 ^ 2) }
  else if policy = "wait" then
    Except.ok { self with _iface := self._iface.poke32 (REG_CTRL_ERROR_POLICY self) (2 ^ 0) }
  else Except.error Exn.value_error

/-- The constructor of `tx_vita_core_3000_impl` (`tx_vita_core_3000::make`). -/
def tx_vita_core_3000_impl.ctor (P : Platform) (iface : wb_iface)
    (deframer_base ctrl_base : Nat) : Except Exn tx_vita_core_3000_impl :=
  let self : tx_vita_core_3000_impl :=
    { _iface := iface, _deframer_base := deframer_base, _ctrl_base := ctrl_base,
      _tick_rate := 0 }
  let self := tx_vita_core_3000_impl.set_tick_rate self 1
  let self := tx_vita_core_3000_impl.clear P self
  tx_vita_core_3000_impl.set_underflow_policy self "next_packet"

/-- The transmit core after the given accesses were added to the log of its
control interface, everything else being as before. -/
def tx_pushed (self : tx_vita_core_3000_impl) (ops : List BusOp) : tx_vita_core_3000_impl :=
  { self with _iface := { self._iface with log := self._iface.log ++ ops } }

/-- A transmit core for the concrete evaluations. -/
def sample_tx_core : tx_vita_core_3000_impl :=
  { _iface := sample_iface, _deframer_base := 0xA000, _ctrl_base := 0xB000, _tick_rate := 1 }

/-- A device for the concrete evaluations whose NoC-ID reads zero. -/
def plain_iface : wb_iface :=
  { rd32 := fun _ _ => 0, rd64 := fun _ _ => 0, log := [] }

/-- The block name that the constructor gives on a device and tree, if it
returns. -/
def constructed_block_name (P : Platform) (H : Header) (iface : wb_iface)
    (tree : property_tree) : Option String :=
  match block_ctrl_base.ctor P H iface ⟨0, 0⟩ 0 tree false with
  | Except.ok st => some st._block_id.block_name
  | Except.error _ => none

/-- Whether a bus access is a write. -/
def is_write : BusOp → Bool
  | BusOp.poke32 _ _ => true
  | _ => false

/-- The data words of the writes among bus accesses, in their order. -/
def poke_words : List BusOp → List Nat
  | [] => []
  | BusOp.poke32 _ d :: ops => d :: poke_words ops
  | _ :: ops => poke_words ops

/-- The bus accesses made between two states of a control interface. -/
def new_accesses (before after : wb_iface) : List BusOp :=
  after.log.drop before.log.length

/-- The data words written between two states of a control interface. -/
def written_words (before after : wb_iface) : List Nat :=
  poke_words (new_accesses before after)

/-- The transmit core after a call of `set_underflow_policy`.  The rejecting
branch of the method consists of the `throw` alone, so a call that raises
leaves the core as it found it. -/
def after_set_underflow_policy (self : tx_vita_core_3000_impl) (policy : String) :
    tx_vita_core_3000_impl :=
  match tx_vita_core_3000_impl.set_underflow_policy self policy with
  | Except.ok s => s
  | Except.error _ => self

/-- Value of a decimal numeral given by its characters, most significant first. -/
def numeral_value (cs : List Char) : Nat :=
  cs.foldl (fun a c => 10 * a + (c.toNat - 48)) 0

end Rfnoc

/-!
# The capture decoder (`tools/uhd_dump/uhd_dump.c`, `tools/uhd_dump/vrlp_log.c`)

The decoder overlays C structures on the bytes of captured packets and prints
what it finds.  A packet is its capture time and its bytes; what is printed is
the list of the `fprintf` calls made, each with its format and its arguments.
Words are read in the byte order of the host, which is little-endian: the
decoder compares the framing word with `0x504C5256` to find the bytes `VRLP`.
The decoder never looks at the captured length, and neither does the model:
`payload` gives the byte found at any offset from the start of the packet.
-/

namespace UhdDump

/-- A captured packet (`struct pbuf`): the byte at each offset of `payload`,
the sizes and the capture time. -/
structure pbuf where
  payload : Nat → Nat
  size : Nat
  orig_size : Nat
  tv_sec : Int
  tv_usec : Int

/-- The constants and the macro `VRLP_SEQID` of `uhd_dump.h`, which is not
among the sources. -/
structure DumpHeader where
  ETH_SIZE : Nat
  IP_SIZE : Nat
  UDP_SIZE : Nat
  VRLP_SIZE : Nat
  VRT_SIZE : Nat
  VITA_TIME_SIZE : Nat
  H2U : Nat
  U2H : Nat
  RADIO : Nat
  RADIO_CTRL : Nat
  SRC_FLOW_CTRL : Nat
  IF_DATA_WITH_SID : Nat
  EXT_CONTEXT : Nat
  TX_ACK : Nat
  TX_EOB : Nat
  TX_UNDERRUN : Nat
  TX_SEQ_ERROR : Nat
  TX_TIME_ERROR : Nat
  TX_MIDBURST_SEQ_ERROR : Nat
  VRLP_SEQID : Nat → Nat

/-- Modelled from the spec: the constants of `uhd_dump.h` with the values that
the spec gives: packet type `0x1` for IF data with SID and `0x4` for an
extension context, and a sequence id of twelve bits.  The spec is silent on the
rest, which is filled in for the concrete evaluations: the usual sizes of the
Ethernet, IP and UDP headers, eight bytes each for the VRLP framing, the VRT
header and the time field, and distinct codes. -/
def spec_header : DumpHeader :=
  { ETH_SIZE := 14, IP_SIZE := 20, UDP_SIZE := 8, VRLP_SIZE := 8, VRT_SIZE := 8,
    VITA_TIME_SIZE := 8, H2U := 0, U2H := 1, RADIO := 0, RADIO_CTRL := 1,
    SRC_FLOW_CTRL := 2, IF_DATA_WITH_SID := 1, EXT_CONTEXT := 4,
    TX_ACK := 0, TX_EOB := 1, TX_UNDERRUN := 2, TX_SEQ_ERROR := 4, TX_TIME_ERROR := 8,
    TX_MIDBURST_SEQ_ERROR := 32,
    VRLP_SEQID := fun x => x % 4096 }

/-! ## Reading the bytes of a packet -/

/-- The byte at an offset of the payload. -/
def u8 (p : pbuf) (off : Nat) : Nat := p.payload off % 256

/-- The 32-bit word at an offset, in the byte order of the host. -/
def u32 (p : pbuf) (off : Nat) : Nat :=
  u8 p off + 2 ^ 8 * u8 p (off + 1) + 2 ^ 16 * u8 p (off + 2) + 2 ^ 24 * u8 p (off + 3)

/-- The 64-bit word at an offset, in the byte order of the host. -/
def u64 (p : pbuf) (off : Nat) : Nat :=
  u32 p off + 2 ^ 32 * u32 p (off + 4)

/-- `swapint`: the four bytes of an `unsigned int` in the opposite order. -/
def swapint (nIntNumber : Nat) : Nat :=
  let n := nIntNumber % 2 ^ 32
  2 ^ 24 * (n % 256) + 2 ^ 16 * (n / 2 ^ 8 % 256) + 2 ^ 8 * (n / 2 ^ 16 % 256) + n / 2 ^ 24 % 256

/-- `swaplong`: the eight bytes of an `unsigned long` in the opposite order. -/
def swaplong (nLongNumber : Nat) : Nat :=
  let n := nLongNumber % 2 ^ 64
  2 ^ 32 * swapint (n % 2 ^ 32) + swapint (n / 2 ^ 32)

/-- Offset of the VRLP header, `ETH_SIZE+IP_SIZE+UDP_SIZE`. -/
def vrlp_offset (D : DumpHeader) : Nat := D.ETH_SIZE + D.IP_SIZE + D.UDP_SIZE

/-- Offset of the VRT header, `ETH_SIZE+IP_SIZE+UDP_SIZE+VRLP_SIZE`. -/
def vrt_offset (D : DumpHeader) : Nat := D.ETH_SIZE + D.IP_SIZE + D.UDP_SIZE + D.VRLP_SIZE

/-- Modelled from the spec: `ip_header->ip_src.s_addr`, the source address of
the IP header, twelve bytes into it. -/
def ip_src (D : DumpHeader) (p : pbuf) : Nat := u32 p (D.ETH_SIZE + 12)

/-- Modelled from the spec: `ip_header->ip_dst.s_addr`, sixteen bytes into the
IP header. -/
def ip_dst (D : DumpHeader) (p : pbuf) : Nat := u32 p (D.ETH_SIZE + 16)

/-- Modelled from the spec: `vrlp_header->vrlp_start`, the first four bytes of
the VRLP framing. -/
def vrlp_start (D : DumpHeader) (p : pbuf) : Nat := u32 p (vrlp_offset D)

/-- Modelled from the spec: `vrlp_header->vrlp_size`, the word after the
framing magic. -/
def vrlp_size (D : DumpHeader) (p : pbuf) : Nat := u32 p (vrlp_offset D + 4)

/-- Modelled from the spec: `vrt_header->vrt_type`, the first byte of the VRT
header. -/
def vrt_type (D : DumpHeader) (p : pbuf) : Nat := u8 p (vrt_offset D)

/-- Modelled from the spec: `vrt_header->vrt_count`, the second byte of the VRT
header. -/
def vrt_count (D : DumpHeader) (p : pbuf) : Nat := u8 p (vrt_offset D + 1)

/-- Modelled from the spec: `vrt_header->vrt_sid`, the second word of the VRT
header. -/
def vrt_sid (D : DumpHeader) (p : pbuf) : Nat := u32 p (vrt_offset D + 4)

/-- Modelled from the spec: `chdr_sid->src_device`, first byte of the SID. -/
def src_device (D : DumpHeader) (p : pbuf) : Nat := u8 p (vrt_offset D + 4)

/-- Modelled from the spec: `chdr_sid->src_endpoint`, second byte of the SID. -/
def src_endpoint (D : DumpHeader) (p : pbuf) : Nat := u8 p (vrt_offset D + 5)

/-- Modelled from the spec: `chdr_sid->dst_device`, third byte of the SID. -/
def dst_device (D : DumpHeader) (p : pbuf) : Nat := u8 p (vrt_offset D + 6)

/-- Modelled from the spec: `chdr_sid->dst_endpoint`, fourth byte of the SID. -/
def dst_endpoint (D : DumpHeader) (p : pbuf) : Nat := u8 p (vrt_offset D + 7)

/-- Modelled from the spec: `struct tx_response`, a 32-bit error code followed
by a 32-bit sequence id, both as found in the packet. -/
structure tx_response where
  error_code : Nat
  seq_id : Nat

/-- The `tx_response` overlaid at an offset of the payload. -/
def tx_response_at (p : pbuf) (off : Nat) : tx_response :=
  ⟨u32 p off, u32 p (off + 4)⟩

/-! ## What is printed -/

/-- An argument of a `fprintf` call: an integer, a string, or the time in
seconds elapsed between the origin (in microseconds) and a capture time. -/
inductive Arg
  | int (v : Int)
  | str (s : String)
  | elapsed (tv_sec tv_usec origin_ts_in_us : Int)
deriving DecidableEq

/-- The two output streams. -/
inductive Stream
  | stdout
  | stderr
deriving DecidableEq

/-- One `fprintf` call. -/
structure Print where
  stream : Stream
  format : String
  args : List Arg
deriving DecidableEq

/-- A call `fprintf(stdout, text)`. -/
def out (text : String) : Print := ⟨Stream.stdout, text, []⟩

/-- A call `fprintf(stdout, format, args...)`. -/
def outf (format : String) (args : List Arg) : Print := ⟨Stream.stdout, format, args⟩

/-- `print_direction`. -/
def print_direction (D : DumpHeader) (p : pbuf) (host_addr usrp_addr : Nat) : List Print :=
  if host_addr = ip_src D p ∧ usrp_addr = ip_dst D p then [out "Host->USRP"]
  else if host_addr = ip_dst D p ∧ usrp_addr = ip_src D p then [out "USRP->Host"]
  else [out "UNKNOWN"]

/-- `print_sid`. -/
def print_sid (D : DumpHeader) (p : pbuf) : List Print :=
  [outf "%02x.%02x->%02x.%02x"
    [Arg.int (src_device D p), Arg.int (src_endpoint D p),
     Arg.int (dst_device D p), Arg.int (dst_endpoint D p)]]

/-- `print_tx_response`.  The `switch` is a chain of comparisons; the case
labels of a C `switch` are distinct. -/
def print_tx_response (D : DumpHeader) (t : tx_response) : List Print :=
  [ (if swapint t.error_code = D.TX_ACK then out "ACK "
     else if swapint t.error_code = D.TX_EOB then out "EOB "
     else if swapint t.error_code = D.TX_UNDERRUN then out "Underrun "
     else if swapint t.error_code = D.TX_SEQ_ERROR then out "Sequence Error "
     else if swapint t.error_code = D.TX_TIME_ERROR then out "Time Error "
     else if swapint t.error_code = D.TX_MIDBURST_SEQ_ERROR then out "Mid-Burst Seq Errror "
     else out "Unknown Error "),
    outf "for SeqID = %04x" [Arg.int (swapint t.seq_id)] ]

/-- The table `reg_list` of `usrp3_regs.h`. -/
def reg_list : List (Nat × String) :=
  [(5, "SR_DACSYNC"), (6, "SR_LOOPBACK"), (7, "SR_TEST"), (8, "SR_SPI_DIVIDER"),
   (9, "SR_SPI_CONFIG"), (10, "SR_SPI_DATA"), (16, "SR_GPIO_IDLE"), (17, "SR_GPIO_RX"),
   (18, "SR_GPIO_TX"), (19, "SR_GPIO_FDX"), (20, "SR_GPIO_DDR"), (24, "SR_MISC_OUTS"),
   (32, "SR_READBACK"), (64, "SR_ERROR_POLICY"), (66, "SR_CYCLES"), (67, "SR_PACKETS"),
   (96, "SR_RX_CTRL_CMD"), (97, "SR_RX_CTRL_TIME_H"), (98, "SR_RX_CTRL_TIME_L"),
   (99, "SR_RX_CTRL_RX_HALT"), (100, "SR_RX_CTRL_MAXLEN"), (101, "SR_RX_CTRL_SID"),
   (102, "SR_RX_CTRL_WINDOW_SIZE"), (103, "SR_RX_CTRL_WINDOW_ENABLE"), (128, "SR_TIME_HI"),
   (129, "SR_TIME_LO"), (130, "SR_TIME_CTRL"), (144, "SR_RX_DSP_0"), (145, "SR_RX_DSP_1"),
   (146, "SR_RX_DSP_2"), (147, "SR_RX_DSP_3"), (184, "SR_TX_DSP_0"), (185, "SR_TX_DSP_1"),
   (186, "SR_TX_DSP_2"), (196, "SR_LEDS_IDLE"), (197, "SR_LEDS_RX"), (198, "SR_LEDS_TX"),
   (199, "SR_LEDS_FDX"), (200, "SR_LEDS_DDR"), (208, "SR_SWAP_IQ"), (209, "SR_MAG_CORR"),
   (210, "SR_PHASE_CORR"), (211, "SR_RX_DC_OFFSET_I"), (212, "SR_RX_DC_OFFSET_Q"),
   (999, "NOT FOUND")]

/-- The loop of `reg_addr_to_name` over a table: it stops at the entry of the
address or at the entry `999`. -/
def reg_name_in : List (Nat × String) → Nat → Option String
  | [], _ => none
  | e :: rest, addr => if e.1 ≠ addr ∧ e.1 ≠ 999 then reg_name_in rest addr else some e.2

/-- `reg_addr_to_name`; the table ends with the entry `999`, so the loop stops
inside it. -/
def reg_addr_to_name (addr : Nat) : String :=
  (reg_name_in reg_list addr).getD ""

/-- The block "Decode packet type" of `print_vita_header`, on the `vrt_type`
byte. -/
def vita_type (vrt_type : Nat) : Nat := (vrt_type &&& 0xf0) >>> 4

/-- What `print_vita_header` prints for the packet type. -/
def print_vita_type (D : DumpHeader) (type : Nat) : List Print :=
  if type = D.EXT_CONTEXT then [out "Context Ext "]
  else if type = D.IF_DATA_WITH_SID then [out "IF Data     "]
  else [outf "Bad Type %x " [Arg.int type]]

/-- The block "Look for Ettus propriatory SOB and EOB flags" of
`print_vita_header`, on the `vrt_type` byte. -/
def print_vita_burst (vrt_type : Nat) : List Print :=
  if vrt_type &&& 0x03 = 0x02 then [out "SOB "]
  else if vrt_type &&& 0x03 = 0x01 then [out "EOB "]
  else if vrt_type &&& 0x03 = 0x03 then [out "Bad "]
  else [out "    "]

/-- The value of `has_time` in `print_vita_header`, on the `vrt_count` byte. -/
def vita_has_time (vrt_count : Nat) : Nat :=
  if vrt_count &&& 0x30 = 0x10 then 1 else 0

/-- The block "Is there embeded VITA time?" of `print_vita_header`. -/
def print_vita_time (D : DumpHeader) (p : pbuf) : List Print :=
  if vrt_count D p &&& 0x30 = 0x10 then
    [outf "Time=%016lx " [Arg.int (swaplong (u64 p (vrt_offset D + D.VRT_SIZE)))]]
  else [out "                      "]

/-- The block "Print Payload" of `print_vita_header`, for the direction, type,
endpoint and `has_time` found before. -/
def print_vita_payload (D : DumpHeader) (p : pbuf) (direction type endpoint has_time : Nat) :
    List Print :=
  if endpoint = DumpHeader.RADIO D then
    if type = D.IF_DATA_WITH_SID then
      if direction = D.H2U then [out "TX IF Data "] else [out "RX IF Data "]
    else if type = D.EXT_CONTEXT then
      if direction = D.H2U then []
      else print_tx_response D
        (tx_response_at p (vrt_offset D + D.VRT_SIZE + D.VITA_TIME_SIZE * has_time))
    else []
  else if endpoint = D.RADIO_CTRL then
    [out "\t\t\t"] ++
    (if type = D.IF_DATA_WITH_SID then []
     else if type = D.EXT_CONTEXT then
       if direction = D.H2U then
         (if has_time ≠ 0 then
            [outf "Radio Ctrl (%s)=0x%08x"
              [Arg.str (reg_addr_to_name
                 (swapint (u32 p (vrt_offset D + D.VRT_SIZE + D.VITA_TIME_SIZE)))),
               Arg.int (swapint (u32 p (vrt_offset D + D.VRT_SIZE + D.VITA_TIME_SIZE + 4)))]]
          else
            [outf "Radio Ctrl (%s)=0x%08x"
              [Arg.str (reg_addr_to_name (swapint (u32 p (vrt_offset D + D.VRT_SIZE)))),
               Arg.int (swapint (u32 p (vrt_offset D + D.VRT_SIZE + 4)))]])
       else
         (if has_time ≠ 0 then
            [outf "Radio Response = 0x%016lx"
              [Arg.int (swaplong (u64 p (vrt_offset D + D.VRT_SIZE + D.VITA_TIME_SIZE)))]]
          else
            [outf "Radio Response = 0x%016lx"
              [Arg.int (swaplong (u64 p (vrt_offset D + D.VRT_SIZE)))]])
     else [])
  else if endpoint = D.SRC_FLOW_CTRL then
    if type = D.IF_DATA_WITH_SID then []
    else if type = D.EXT_CONTEXT then
      if direction = D.H2U then
        (if has_time ≠ 0 then
           [outf "Src Flow Ctrl = 0x%04x"
             [Arg.int (swapint (u32 p (vrt_offset D + D.VRT_SIZE + D.VITA_TIME_SIZE)))]]
         else
           [outf "Src Flow Ctrl = 0x%04x"
             [Arg.int (swapint (u32 p (vrt_offset D + D.VRT_SIZE)))]])
      else []
    else []
  else []

/-- The direction that `print_vita_header` finds for a packet. -/
def vita_direction (D : DumpHeader) (p : pbuf) (host_addr : Nat) : Nat :=
  if ip_src D p = host_addr then D.H2U else D.U2H

/-- The endpoint that `print_vita_header` finds for a packet: the test
`direction==U2H` of the second branch holds whenever the first test fails. -/
def vita_endpoint (D : DumpHeader) (p : pbuf) (host_addr : Nat) : Nat :=
  if vita_direction D p host_addr = D.H2U then dst_endpoint D p &&& 0x3
  else src_endpoint D p &&& 0x3

/-- `print_vita_header`: the packet type, the burst flag, the time, the
sequence id and the payload, in this order. -/
def print_vita_header (D : DumpHeader) (p : pbuf) (host_addr : Nat) : List Print :=
  print_vita_type D (vita_type (vrt_type D p))
    ++ print_vita_burst (vrt_type D p)
    ++ print_vita_time D p
    ++ [outf "SeqID=%04x " [Arg.int (D.VRLP_SEQID (vrlp_size D p))]]
    ++ print_vita_payload D p (vita_direction D p host_addr) (vita_type (vrt_type D p))
         (vita_endpoint D p host_addr) (vita_has_time (vrt_count D p))

/-- One turn of the loop that writes the packet-by-packet log in `main` of
`vrlp_log.c`, for the packet with the running number `x`. -/
def log_line (D : DumpHeader) (host_addr usrp_addr : Nat) (origin_ts_in_us : Int)
    (x : Nat) (p : pbuf) : List Print :=
  if vrlp_start D p ≠ 0x504C5256 then
    [outf "%8d %f NOT VRLP. %x\n"
      [Arg.int x, Arg.elapsed p.tv_sec p.tv_usec origin_ts_in_us, Arg.int (vrlp_start D p)]]
  else
    [outf "%8d %f \t" [Arg.int x, Arg.elapsed p.tv_sec p.tv_usec origin_ts_in_us]]
      ++ print_direction D p host_addr usrp_addr
      ++ [out "\t"]
      ++ print_sid D p
      ++ [out "\t"]
      ++ print_vita_header D p host_addr
      ++ [out "\n"]

/-- The loop that writes the packet-by-packet log in `main` of `vrlp_log.c`:
`x` packets were logged before, the remaining ones are given. -/
def packet_log (D : DumpHeader) (host_addr usrp_addr : Nat) (origin_ts_in_us : Int) :
    Nat → List pbuf → List Print
  | _, [] => []
  | x, p :: rest =>
      log_line D host_addr usrp_addr origin_ts_in_us (x + 1) p
        ++ packet_log D host_addr usrp_addr origin_ts_in_us (x + 1) rest

/-! ## Finding the two ends of the connection -/

/-- What `get_connection_endpoints` leaves behind: the two addresses, what it
printed, and the status with which it ended the program, if it did so. -/
structure endpoints where
  host_addr : Nat
  usrp_addr : Nat
  printed : List Print
  exit_status : Option Nat
deriving DecidableEq

/-- The scanning loop of `get_connection_endpoints` from the current packet on:
the two addresses, which are zero unless a branch of the loop set them and left
the loop, and what was printed.  The second test of the SID is the first one
once more, as in the source. -/
def get_connection_endpoints_loop (D : DumpHeader) (printed : List Print) :
    List pbuf → Nat × Nat × List Print
  | [] => (0, 0, printed)
  | p :: rest =>
      if vrlp_start D p ≠ 0x504C5256 then
        get_connection_endpoints_loop D
          (printed ++ [⟨Stream.stderr, "Current packet is not VRLP. Skipping. %x",
            [Arg.int (vrlp_start D p)]⟩]) rest
      else if src_device D p = 0 ∧ dst_device D p ≠ 0 then
        (ip_src D p, ip_dst D p, printed)
      else if src_device D p = 0 ∧ dst_device D p ≠ 0 then
        (ip_dst D p, ip_src D p, printed)
      else
        get_connection_endpoints_loop D
          (printed ++ [⟨Stream.stderr,
            "Malformed CHDR compatable VRT packet, SID is unexpected value: 0x%x",
            [Arg.int (vrt_sid D p)]⟩]) rest

/-- `get_connection_endpoints` on the packets of the capture. -/
def get_connection_endpoints (D : DumpHeader) (packets : List pbuf) : endpoints :=
  let r := get_connection_endpoints_loop D [] packets
  if r.1 = 0 then
    { host_addr := r.1, usrp_addr := r.2.1,
      printed := r.2.2 ++ [⟨Stream.stderr,
        "Could not identify Host/USRP direction in capture analysis, exiting.\n", []⟩],
      exit_status := some 2 }
  else
    { host_addr := r.1, usrp_addr := r.2.1, printed := r.2.2, exit_status := none }

/-! ## Vocabulary of the statements on the decoder -/

/-- The 32-bit word at an offset in the byte order of the wire (big-endian). -/
def be32 (p : pbuf) (off : Nat) : Nat :=
  2 ^ 24 * u8 p off + 2 ^ 16 * u8 p (off + 1) + 2 ^ 8 * u8 p (off + 2) + u8 p (off + 3)

/-- The burst flag as the wire format defines it on the low two bits of the
type byte: `10` start of burst, `01` end of burst, `11` invalid, `00` neither. -/
def burst_label_of_bits (low2 : Nat) : String :=
  if low2 = 2 then "SOB " else if low2 = 1 then "EOB " else if low2 = 3 then "Bad " else "    "

/-- The offset at which the wire format places the context payload: right
after the VRT header, or after the time field when the bits `[5:4]` of the
count byte are `01`. -/
def context_offset (D : DumpHeader) (p : pbuf) : Nat :=
  vrt_offset D + D.VRT_SIZE + (if vrt_count D p / 16 % 4 = 1 then D.VITA_TIME_SIZE else 0)

/-- The payload of a packet decoded at a given offset: the transmit response,
the radio control write, the radio response or the source flow control that is
found there, according to endpoint, type and direction. -/
def print_context_at (D : DumpHeader) (p : pbuf) (off direction type endpoint : Nat) :
    List Print :=
  if endpoint = DumpHeader.RADIO D then
    if type = D.IF_DATA_WITH_SID then
      if direction = D.H2U then [out "TX IF Data "] else [out "RX IF Data "]
    else if type = D.EXT_CONTEXT then
      if direction = D.H2U then [] else print_tx_response D (tx_response_at p off)
    else []
  else if endpoint = D.RADIO_CTRL then
    [out "\t\t\t"] ++
    (if type = D.IF_DATA_WITH_SID then []
     else if type = D.EXT_CONTEXT then
       if direction = D.H2U then
         [outf "Radio Ctrl (%s)=0x%08x"
           [Arg.str (reg_addr_to_name (swapint (u32 p off))),
            Arg.int (swapint (u32 p (off + 4)))]]
       else [outf "Radio Response = 0x%016lx" [Arg.int (swaplong (u64 p off))]]
     else [])
  else if endpoint = D.SRC_FLOW_CTRL then
    if type = D.IF_DATA_WITH_SID then []
    else if type = D.EXT_CONTEXT then
      if direction = D.H2U then [outf "Src Flow Ctrl = 0x%04x" [Arg.int (swapint (u32 p off))]]
      else []
    else []
  else []

/-- A packet with the given bytes, captured at the given time. -/
def packet_of_bytes (bytes : List Nat) (tv_sec tv_usec : Int) : pbuf :=
  { payload := fun i => bytes.getD i 0, size := bytes.length, orig_size := bytes.length,
    tv_sec := tv_sec, tv_usec := tv_usec }

/-- A captured transmit response for the concrete evaluations: sent by the
device `10.0.0.2` to the host `10.0.0.1`, VRLP framing, extension context with
the end-of-burst flag, time present, SID `02.00->00.00`, error code 2 and
sequence id 7. -/
def sample_response_packet : pbuf :=
  packet_of_bytes
    (List.replicate 26 0 ++ [10, 0, 0, 2, 10, 0, 0, 1] ++ List.replicate 8 0
      ++ [0x56, 0x52, 0x4C, 0x50, 0, 0, 0, 5]
      ++ [0x41, 0x10, 0, 0, 2, 0, 0, 0]
      ++ [0, 0, 0, 0, 0, 0, 1, 0]
      ++ [0, 0, 0, 2, 0, 0, 0, 7]) 100 250000

/-- A captured packet without the VRLP framing, for the concrete evaluations. -/
def sample_foreign_packet : pbuf :=
  packet_of_bytes
    (List.replicate 26 0 ++ [10, 0, 0, 2, 10, 0, 0, 1] ++ List.replicate 8 0
      ++ [0x50, 0x4C, 0x52, 0x56, 0, 0, 0, 5]
      ++ [0x41, 0x10, 0, 0, 2, 0, 0, 0]) 100 500000

/-- The foreign packet with other bytes everywhere but in the framing word. -/
def sample_foreign_packet_other : pbuf :=
  packet_of_bytes
    (List.replicate 42 0xEE ++ [0x50, 0x4C, 0x52, 0x56] ++ List.replicate 30 0x77) 100 500000

/-- A captured command for the concrete evaluations: sent by the host
`10.0.0.1` to the device `10.0.0.2`, VRLP framing, SID `00.00->02.00`. -/
def sample_command_packet : pbuf :=
  packet_of_bytes
    (List.replicate 26 0 ++ [10, 0, 0, 1, 10, 0, 0, 2] ++ List.replicate 8 0
      ++ [0x56, 0x52, 0x4C, 0x50, 0, 0, 0, 5]
      ++ [0x10, 0x00, 0, 0, 0, 0, 2, 0]
      ++ [0, 0, 0, 0, 0, 0, 0, 0]) 100 125000

end UhdDump

/-!
# The AD9361 transaction layer (`host/lib/usrp/ad9361_ctrl/ad9361_ctrl.cpp`)

Every request to the transceiver is stamped with the protocol version and a
sequence number, handed to the transport and checked against its reply.
-/

namespace Ad9361

open Rfnoc

/-- The constants of `ad9361_transaction.h`, which is not among the sources,
and the width in bits of the field `sequence` of a transaction. -/
structure TransactionHeader where
  AD9361_TRANSACTION_VERSION : Nat
  AD9361_TRANSACTION_MAX_ERROR_MSG : Nat
  AD9361_ACTION_ECHO : Nat
  AD9361_ACTION_INIT : Nat
  sequence_bits : Nat

/-- Modelled from the spec: `ad9361_transaction_t` of `ad9361_transaction.h`,
a request or a reply: the protocol version, the tag of the request, the action,
its value and the bytes of the error message that a reply carries. -/
structure ad9361_transaction_t where
  version : Nat
  sequence : Nat
  action : Nat
  value : Nat
  error_msg : List Nat
deriving DecidableEq

/-- `ad9361_ctrl_iface_type`, whose `transact` is pure virtual: what the
transport answers to a request may depend on the requests before it, and it
may raise instead of answering.  The requests handed over are logged. -/
structure ad9361_ctrl_iface_type where
  transact : List ad9361_transaction_t → ad9361_transaction_t →
    Except Exn ad9361_transaction_t
  log : List ad9361_transaction_t

/-- The members of `ad9361_ctrl_impl`; `_seq` is a `size_t`. -/
structure ad9361_ctrl_impl where
  _iface : ad9361_ctrl_iface_type
  _seq : Nat

/-- `strnlen`: the number of bytes before the first zero byte, at most
`maxlen`. -/
def strnlen (s : List Nat) (maxlen : Nat) : Nat :=
  ((s.take maxlen).takeWhile (fun b => b ≠ 0)).length

/-- The request as `do_transaction` hands it to the transport: the copy of the
caller's request with the version filled in and with `_seq`, converted to the
type of the field, as its sequence number. -/
def stamped (A : TransactionHeader) (self : ad9361_ctrl_impl)
    (request : ad9361_transaction_t) : ad9361_transaction_t :=
  { request with
    version := A.AD9361_TRANSACTION_VERSION,
    sequence := self._seq % 2 ^ A.sequence_bits }

/-- `ad9361_ctrl_impl::do_transaction`: the reply or the exception, and the
controller afterwards.  `_seq++` is done before the transport is called, so the
counter has moved on also when the call raises. -/
def do_transaction (P : Platform) (A : TransactionHeader) (self : ad9361_ctrl_impl)
    (request : ad9361_transaction_t) :
    Except Exn ad9361_transaction_t × ad9361_ctrl_impl :=
  let in_ := stamped A self request
  let self' : ad9361_ctrl_impl :=
    { _iface := { self._iface with log := self._iface.log ++ [in_] },
      _seq := (self._seq + 1) % 2 ^ P.model.size_bits }
  match self._iface.transact self._iface.log in_ with
  | Except.error e => (Except.error e, self')
  | Except.ok out =>
      if out.version ≠ in_.version then (Except.error Exn.assertion_error, self')
      else if out.sequence ≠ in_.sequence then (Except.error Exn.assertion_error, self')
      else if strnlen out.error_msg A.AD9361_TRANSACTION_MAX_ERROR_MSG ≠ 0 then
        (Except.error Exn.runtime_error, self')
      else (Except.ok out, self')

/-- The controller as the member initialisers of the constructor leave it,
before its first request. -/
def fresh (iface : ad9361_ctrl_iface_type) : ad9361_ctrl_impl :=
  { _iface := iface, _seq := 0 }

/-- The constructor of `ad9361_ctrl_impl`: an echo request and an
initialisation request; `request` stands for the content of the local variable,
of which only the action is assigned. -/
def ad9361_ctrl_impl.ctor (P : Platform) (A : TransactionHeader)
    (iface : ad9361_ctrl_iface_type) (request : ad9361_transaction_t) :
    Except Exn ad9361_ctrl_impl :=
  let self := fresh iface
  let r := do_transaction P A self { request with action := A.AD9361_ACTION_ECHO }
  match r.1 with
  | Except.error e => Except.error e
  | Except.ok _ =>
      let r := do_transaction P A r.2 { request with action := A.AD9361_ACTION_INIT }
      match r.1 with
      | Except.error e => Except.error e
      | Except.ok _ => Except.ok r.2

/-- The controller after a sequence of requests, each of which returned or
raised. -/
def run_requests (P : Platform) (A : TransactionHeader) (self : ad9361_ctrl_impl) :
    List ad9361_transaction_t → ad9361_ctrl_impl
  | [] => self
  | r :: rs => run_requests P A (do_transaction P A self r).2 rs

/-- Constants for the concrete evaluations, with a sequence field of 32 bits. -/
def sample_transaction_header : TransactionHeader :=
  { AD9361_TRANSACTION_VERSION := 4, AD9361_TRANSACTION_MAX_ERROR_MSG := 40,
    AD9361_ACTION_ECHO := 0, AD9361_ACTION_INIT := 1, sequence_bits := 32 }

/-- A transport that answers every request with the request itself. -/
def echo_iface : ad9361_ctrl_iface_type :=
  { transact := fun _ r => Except.ok r, log := [] }

/-- A transport that answers every request with the tag of the request before
it (a stale reply). -/
def stale_iface : ad9361_ctrl_iface_type :=
  { transact := fun _ r => Except.ok { r with sequence := r.sequence + 1 }, log := [] }

/-- A request for the concrete evaluations. -/
def sample_request : ad9361_transaction_t :=
  { version := 0, sequence := 0, action := 7, value := 0, error_msg := [] }

end Ad9361

/-!
# The Intel HEX checksum (`host/lib/usrp/b200/b200_iface.cpp`)

A record of a firmware image is a colon followed by pairs of hexadecimal
digits; `checksum` adds up the bytes that the pairs write.
-/

namespace B200

/-- The value of a hexadecimal digit, of either case. -/
def hex_digit_value (c : Char) : Option Nat :=
  if '0' ≤ c ∧ c ≤ '9' then some (c.toNat - 48)
  else if 'a' ≤ c ∧ c ≤ 'f' then some (c.toNat - 87)
  else if 'A' ≤ c ∧ c ≤ 'F' then some (c.toNat - 55)
  else none

/-- `std::string::substr(pos, n)` for a position within the string. -/
def substr (s : List Char) (pos n : Nat) : List Char :=
  (s.drop pos).take n

/-- `std::istringstream(text) >> std::hex >> val` on a piece of at most two
characters: what `val` holds afterwards.  Two hexadecimal digits are read as
the number they write.  On any other text the extraction stops early or fails,
and what it leaves in `val` is the parameter `other`. -/
def extract_hex (other : List Char → Nat → Nat) (text : List Char) (val : Nat) : Nat :=
  match text with
  | [a, b] =>
      match hex_digit_value a, hex_digit_value b with
      | some x, some y => 16 * x + y
      | _, _ => other text val
  | _ => other text val

/-- The loop of `checksum` and the test after it, for a bounded number of
tests of the loop condition: `i` is an `unsigned int` and is compared with the
`size_t` length, `sum` is an `unsigned char`.  The result is `none` when the
tests are used up before the loop is left. -/
def checksum_loop (other : List Char → Nat → Nat) (record : List Char) :
    Nat → Nat → Nat → Nat → Option Bool
  | 0, _, _, _ => none
  | fuel + 1, i, sum, val =>
      if i < record.length then
        checksum_loop other record fuel ((i + 2) % 2 ^ 32)
          ((sum + extract_hex other (substr record i 2) val) % 256)
          (extract_hex other (substr record i 2) val)
      else some (decide (sum = 0))

/-- `checksum(record)`; `val` is not initialised before the loop and starts
with the content `val0`. -/
def checksum (other : List Char → Nat → Nat) (val0 fuel : Nat) (record : List Char) :
    Option Bool :=
  checksum_loop other record fuel 1 0 val0

/-- The bytes that the successive pairs of hexadecimal digits write. -/
def byte_values : List Char → List Nat
  | a :: b :: rest =>
      (16 * (hex_digit_value a).getD 0 + (hex_digit_value b).getD 0) :: byte_values rest
  | _ => []

end B200

namespace Rfnoc

/-! ## Register encoders and settings-bus accessors -/

theorem sr_write_eq (self : block_ctrl_base) (reg data : Nat) :
    sr_write self reg data = pushed self [reg_write reg (to_uint32 data)] := rfl

theorem pushed_pushed (self : block_ctrl_base) (a b : List BusOp) :
    pushed (pushed self a) b = pushed self (a ++ b) := by
  simp [pushed, List.append_assoc]

theorem sample_ctrl_constructed :
    block_ctrl_base.ctor lp64 sample_header sample_iface ⟨0, 0x0210⟩ 0 sample_tree false
      = Except.ok sample_ctrl := by
  rfl

theorem or_mod_two_pow_eq (a b n : Nat) :
    (a ||| b) % 2 ^ n = a % 2 ^ n ||| b % 2 ^ n := by
  apply Nat.eq_of_testBit_eq
  intro i
  simp only [Nat.testBit_mod_two_pow, Nat.testBit_or]
  cases decide (i < n) <;> simp

theorem sign_bit_to_size_t (P : Platform) :
    to_size_t P (int_one_shl P 31) % 2 ^ 32 = 2 ^ 31 := by
  obtain ⟨m, f⟩ := P
  cases m <;> simp [to_size_t, int_one_shl, DataModel.size_bits]

theorem enable_word_eq (P : Platform) (c : Nat) :
    to_uint32 (to_size_t P (int_one_shl P 31) ||| c) = (2 ^ 31 ||| c) % 2 ^ 32 := by
  unfold to_uint32
  rw [or_mod_two_pow_eq, sign_bit_to_size_t, or_mod_two_pow_eq]
  norm_num

theorem enable_word_of_lt (c : Nat) (h : c < 2 ^ 32) :
    (2 ^ 31 ||| c) % 2 ^ 32 = 2 ^ 31 ||| c := by
  rw [or_mod_two_pow_eq, Nat.mod_eq_of_lt h]
  norm_num

/-- C1 (as amended): `configure_flow_control_out` makes exactly two register
writes, first `SR_FLOW_CTRL_BUF_SIZE` and then `SR_FLOW_CTRL_ENABLE`, and
changes nothing else, whatever the port and the SID.  The buffer-size word is
`0` for `N = 0` and otherwise `N - 1` reduced to the 32 bits of a register
word; the enable word is `0` for `N = 0` and `1` otherwise.  For every
`N ≤ 2 ^ 32` the buffer-size word is `N - 1` itself; `N = 0` writes `0, 0` and
`N = 1` writes `0, 1`. -/
theorem configure_flow_control_out_writes (H : Header) (self : block_ctrl_base)
    (N block_port : Nat) (sid : sid_t) :
    configure_flow_control_out H self N block_port sid
        = pushed self
            [reg_write H.SR_FLOW_CTRL_BUF_SIZE (if N = 0 then 0 else (N - 1) % 2 ^ 32),
             reg_write H.SR_FLOW_CTRL_ENABLE (if N = 0 then 0 else 1)]
      ∧ (N ≤ 2 ^ 32 →
          configure_flow_control_out H self N block_port sid
            = pushed self
                [reg_write H.SR_FLOW_CTRL_BUF_SIZE (if N = 0 then 0 else N - 1),
                 reg_write H.SR_FLOW_CTRL_ENABLE (if N = 0 then 0 else 1)])
      ∧ configure_flow_control_out H self 0 block_port sid
          = pushed self [reg_write H.SR_FLOW_CTRL_BUF_SIZE 0, reg_write H.SR_FLOW_CTRL_ENABLE 0]
      ∧ configure_flow_control_out H self 1 block_port sid
          = pushed self [reg_write H.SR_FLOW_CTRL_BUF_SIZE 0, reg_write H.SR_FLOW_CTRL_ENABLE 1] := by
  have key : ∀ n : Nat, configure_flow_control_out H self n block_port sid
      = pushed self
          [reg_write H.SR_FLOW_CTRL_BUF_SIZE (if n = 0 then 0 else (n - 1) % 2 ^ 32),
           reg_write H.SR_FLOW_CTRL_ENABLE (if n = 0 then 0 else 1)] := by
    intro n
    unfold configure_flow_control_out
    simp only [sr_write_eq, pushed_pushed, List.singleton_append]
    by_cases h : n = 0
    · subst h; simp [to_uint32]
    · simp [h, to_uint32]
  refine ⟨key N, ?_, ?_, ?_⟩
  · intro hN
    rw [key N]
    by_cases h : N = 0
    · simp [h]
    · have : (N - 1) % 2 ^ 32 = N - 1 := Nat.mod_eq_of_lt (by omega)
      simp only [if_neg h, this]
  · simpa using key 0
  · simpa using key 1

/-- Witness of C1: a buffer of five packets on the sample controller. -/
theorem configure_flow_control_out_writes_witness :
    configure_flow_control_out sample_header sample_ctrl 5 0 ⟨0, 0⟩
      = pushed sample_ctrl
          [reg_write sample_header.SR_FLOW_CTRL_BUF_SIZE (if 5 = 0 then 0 else 5 - 1),
           reg_write sample_header.SR_FLOW_CTRL_ENABLE (if 5 = 0 then 0 else 1)] :=
  (configure_flow_control_out_writes sample_header sample_ctrl 5 0 ⟨0, 0⟩).2.1 (by decide)

/-- C1 as stated fails where `size_t` is wider than a register word: for
`N = 2 ^ 32 + 1` the words written are `0` and `1`, not `N - 1 = 2 ^ 32` and
`1`. -/
theorem configure_flow_control_out_truncates :
    2 ^ 32 + 1 < 2 ^ lp64.model.size_bits
      ∧ (configure_flow_control_out sample_header sample_ctrl (2 ^ 32 + 1) 0 ⟨0, 0⟩)._ctrl_iface.log
          = sample_ctrl._ctrl_iface.log ++ [BusOp.poke32 8 0, BusOp.poke32 12 1]
      ∧ (configure_flow_control_out sample_header sample_ctrl (2 ^ 32 + 1) 0 ⟨0, 0⟩)._ctrl_iface.log
          ≠ sample_ctrl._ctrl_iface.log
              ++ [reg_write sample_header.SR_FLOW_CTRL_BUF_SIZE (2 ^ 32 + 1 - 1),
                  reg_write sample_header.SR_FLOW_CTRL_ENABLE 1] := by
  refine ⟨by decide, by decide, by decide⟩

theorem enable_bit_add (c : Nat) (h : c < 2 ^ 31) : 2 ^ 31 ||| c = 2 ^ 31 + c := by
  have := Nat.mul_add_lt_is_or h 1
  simpa using this.symm

/-- C2 (as amended): `configure_flow_control_in` makes exactly two register
writes, first `SR_FLOW_CTRL_CYCS_PER_ACK` and then `SR_FLOW_CTRL_PKTS_PER_ACK`,
and changes nothing else.  Each word is `0` for a cadence of `0` and otherwise
`(1<<31) | cadence` reduced to the 32 bits of a register word; for cadences
below `2 ^ 32` it is `(1<<31) | cadence` itself, and for cadences below
`2 ^ 31` this is the enable bit plus the cadence. -/
theorem configure_flow_control_in_writes (P : Platform) (H : Header)
    (self : block_ctrl_base) (cycles packets block_port : Nat) :
    configure_flow_control_in P H self cycles packets block_port
        = pushed self
            [reg_write H.SR_FLOW_CTRL_CYCS_PER_ACK
               (if cycles = 0 then 0 else (2 ^ 31 ||| cycles) % 2 ^ 32),
             reg_write H.SR_FLOW_CTRL_PKTS_PER_ACK
               (if packets = 0 then 0 else (2 ^ 31 ||| packets) % 2 ^ 32)]
      ∧ (cycles < 2 ^ 32 → packets < 2 ^ 32 →
          configure_flow_control_in P H self cycles packets block_port
            = pushed self
                [reg_write H.SR_FLOW_CTRL_CYCS_PER_ACK
                   (if cycles = 0 then 0 else 2 ^ 31 ||| cycles),
                 reg_write H.SR_FLOW_CTRL_PKTS_PER_ACK
                   (if packets = 0 then 0 else 2 ^ 31 ||| packets)])
      ∧ (cycles < 2 ^ 31 → packets < 2 ^ 31 →
          configure_flow_control_in P H self cycles packets block_port
            = pushed self
                [reg_write H.SR_FLOW_CTRL_CYCS_PER_ACK
                   (if cycles = 0 then 0 else 2 ^ 31 + cycles),
                 reg_write H.SR_FLOW_CTRL_PKTS_PER_ACK
                   (if packets = 0 then 0 else 2 ^ 31 + packets)]) := by
  have word : ∀ c : Nat,
      to_uint32 (if c ≠ 0 then to_uint32 (to_size_t P (int_one_shl P 31) ||| c) else 0)
        = if c = 0 then 0 else (2 ^ 31 ||| c) % 2 ^ 32 := by
    intro c
    by_cases h : c = 0
    · simp [h, to_uint32]
    · simp only [ne_eq, h, not_false_eq_true, if_true, if_false, enable_word_eq]
      simp [to_uint32]
  have key : configure_flow_control_in P H self cycles packets block_port
      = pushed self
          [reg_write H.SR_FLOW_CTRL_CYCS_PER_ACK
             (if cycles = 0 then 0 else (2 ^ 31 ||| cycles) % 2 ^ 32),
           reg_write H.SR_FLOW_CTRL_PKTS_PER_ACK
             (if packets = 0 then 0 else (2 ^ 31 ||| packets) % 2 ^ 32)] := by
    unfold configure_flow_control_in
    simp only [sr_write_eq, pushed_pushed, List.singleton_append, word]
  refine ⟨key, ?_, ?_⟩
  · intro hc hp
    rw [key, enable_word_of_lt cycles hc, enable_word_of_lt packets hp]
  · intro hc hp
    rw [key, enable_word_of_lt cycles (by omega), enable_word_of_lt packets (by omega),
      enable_bit_add cycles hc, enable_bit_add packets hp]

/-- Witness of C2: 1000 cycles and 4 packets per acknowledgement on the sample
controller. -/
theorem configure_flow_control_in_writes_witness :
    configure_flow_control_in lp64 sample_header sample_ctrl 1000 4 0
      = pushed sample_ctrl
          [reg_write sample_header.SR_FLOW_CTRL_CYCS_PER_ACK
             (if 1000 = 0 then 0 else 2 ^ 31 ||| 1000),
           reg_write sample_header.SR_FLOW_CTRL_PKTS_PER_ACK
             (if 4 = 0 then 0 else 2 ^ 31 ||| 4)] :=
  (configure_flow_control_in_writes lp64 sample_header sample_ctrl 1000 4 0).2.1
    (by decide) (by decide)

/-- C2 as stated fails where `size_t` is wider than a register word: a cadence
of `2 ^ 32` cycles is written as the bare enable bit `0x80000000`, whose value
field is `0`, and not as `(1<<31) | 2 ^ 32`. -/
theorem configure_flow_control_in_truncates :
    2 ^ 32 < 2 ^ lp64.model.size_bits
      ∧ (configure_flow_control_in lp64 sample_header sample_ctrl (2 ^ 32) 1 0)._ctrl_iface.log
          = sample_ctrl._ctrl_iface.log
              ++ [BusOp.poke32 0 0x80000000, BusOp.poke32 4 0x80000001]
      ∧ (configure_flow_control_in lp64 sample_header sample_ctrl (2 ^ 32) 1 0)._ctrl_iface.log
          ≠ sample_ctrl._ctrl_iface.log
              ++ [reg_write sample_header.SR_FLOW_CTRL_CYCS_PER_ACK (2 ^ 31 ||| 2 ^ 32),
                  reg_write sample_header.SR_FLOW_CTRL_PKTS_PER_ACK (2 ^ 31 ||| 1)] := by
  refine ⟨by decide, by decide, by decide⟩

/-- C8: the register number is turned into a bus address by multiplication
with the stride alone.  For every register number `r` and word `d` of 32 bits
and every controller, `sr_write` pokes address `4 * r` (modulo `2 ^ 32`) with
`d`, `sr_read32` peeks address `4 * r` and `sr_read64` peeks address `8 * r`,
and each of them makes this one access and changes nothing else. -/
theorem sr_address_is_stride (self : block_ctrl_base) (r d : Nat)
    (hr : r < 2 ^ 32) (hd : d < 2 ^ 32) :
    sr_write self r d = pushed self [BusOp.poke32 (4 * r % 2 ^ 32) d]
      ∧ (sr_read32 self r).2 = pushed self [BusOp.peek32 (4 * r % 2 ^ 32)]
      ∧ (sr_read64 self r).2 = pushed self [BusOp.peek64 (8 * r % 2 ^ 32)]
      ∧ (sr_read32 self r).1
          = to_uint32 (self._ctrl_iface.rd32 self._ctrl_iface.log (4 * r % 2 ^ 32))
      ∧ (sr_read64 self r).1
          = to_uint64 (self._ctrl_iface.rd64 self._ctrl_iface.log (8 * r % 2 ^ 32)) := by
  have h1 : to_uint32 r = r := Nat.mod_eq_of_lt hr
  have h2 : to_uint32 d = d := Nat.mod_eq_of_lt hd
  have a4 : _sr_to_addr r = 4 * r % 2 ^ 32 := by simp [_sr_to_addr, to_uint32, Nat.mul_comm]
  have a8 : _sr_to_addr64 r = 8 * r % 2 ^ 32 := by simp [_sr_to_addr64, to_uint32, Nat.mul_comm]
  refine ⟨?_, ?_, ?_, ?_, ?_⟩
  · rw [sr_write_eq, reg_write, h1, h2, a4]
  · simp only [sr_read32, wb_iface.peek32, h1, a4, pushed]
  · simp only [sr_read64, wb_iface.peek64, h1, a8, pushed]
  · simp only [sr_read32, wb_iface.peek32, h1, a4]
  · simp only [sr_read64, wb_iface.peek64, h1, a8]

/-- Witness of C8: register 8 and the word `0x10203` on the sample controller. -/
theorem sr_address_is_stride_witness :
    sr_write sample_ctrl 8 0x10203 = pushed sample_ctrl [BusOp.poke32 (4 * 8 % 2 ^ 32) 0x10203] :=
  (sr_address_is_stride sample_ctrl 8 0x10203 (by decide) (by decide)).1

/-- C9: for every next address (a 32-bit word) and every output port,
`set_destination` makes exactly one register write, of `(1<<16) | next_address`
to `SR_NEXT_DST`, and changes nothing else; for every `next_address < 2 ^ 16`
the word has bit 16 set and its low 16 bits are `next_address`. -/
theorem set_destination_writes (H : Header) (self : block_ctrl_base)
    (next_address output_block_port : Nat) (ha : next_address < 2 ^ 32) :
    set_destination H self next_address output_block_port
        = pushed self [reg_write H.SR_NEXT_DST (2 ^ 16 ||| next_address)]
      ∧ (next_address < 2 ^ 16 →
          (2 ^ 16 ||| next_address).testBit 16 = true
            ∧ (2 ^ 16 ||| next_address) % 2 ^ 16 = next_address) := by
  constructor
  · unfold set_destination
    rw [sr_write_eq]
    have h1 : to_uint32 next_address = next_address := Nat.mod_eq_of_lt ha
    have h2 : to_uint32 (2 ^ 16 ||| next_address) = 2 ^ 16 ||| next_address := by
      unfold to_uint32
      rw [or_mod_two_pow_eq, Nat.mod_eq_of_lt ha]
      norm_num
    rw [h1, h2]
  · intro h16
    constructor
    · rw [Nat.testBit_or, Nat.testBit_two_pow_self, Bool.true_or]
    · rw [or_mod_two_pow_eq, Nat.mod_self, Nat.zero_or, Nat.mod_eq_of_lt h16]

/-- Witness of C9: the next address `0x0220` on output port 0 of the sample
controller. -/
theorem set_destination_writes_witness :
    set_destination sample_header sample_ctrl 0x0220 0
      = pushed sample_ctrl [reg_write sample_header.SR_NEXT_DST (2 ^ 16 ||| 0x0220)] :=
  (set_destination_writes sample_header sample_ctrl 0x0220 0 (by decide)).1

/-- C10: `reset_flow_control` makes exactly one register write, of the fixed
word `0x00C1EA12` to `SR_FLOW_CTRL_CLR_SEQ`, whatever the state of the
controller, and changes nothing else: no other register, no property. -/
theorem reset_flow_control_writes (H : Header) (self : block_ctrl_base) :
    reset_flow_control H self = pushed self [reg_write H.SR_FLOW_CTRL_CLR_SEQ 0x00C1EA12]
      ∧ (reset_flow_control H self)._ctrl_iface.log
          = self._ctrl_iface.log ++ [reg_write H.SR_FLOW_CTRL_CLR_SEQ 0x00C1EA12]
      ∧ (reset_flow_control H self)._tree = self._tree := by
  refine ⟨?_, ?_, ?_⟩ <;> simp [reset_flow_control, sr_write_eq, pushed, to_uint32]

/-! ## Decimal rendering of port and block numbers -/

theorem numeral_value_snoc (cs : List Char) (c : Char) :
    numeral_value (cs ++ [c]) = 10 * numeral_value cs + (c.toNat - 48) := by
  simp [numeral_value, List.foldl_append]

theorem digitChar_value (k : Nat) (h : k < 10) : (Nat.digitChar k).toNat - 48 = k := by
  interval_cases k <;> rfl

theorem toDigitsCore_append (fuel : Nat) : ∀ (n : Nat) (ds : List Char),
    Nat.toDigitsCore 10 fuel n ds = Nat.toDigitsCore 10 fuel n [] ++ ds := by
  induction fuel with
  | zero => intro n ds; simp [Nat.toDigitsCore]
  | succ f ih =>
    intro n ds
    simp only [Nat.toDigitsCore]
    by_cases h : n / 10 = 0
    · simp [h]
    · simp only [h, if_false]
      rw [ih (n / 10) (Nat.digitChar (n % 10) :: ds), ih (n / 10) [Nat.digitChar (n % 10)]]
      simp

theorem numeral_value_toDigitsCore (fuel : Nat) : ∀ n : Nat, n < fuel →
    numeral_value (Nat.toDigitsCore 10 fuel n []) = n := by
  induction fuel with
  | zero => intro n h; omega
  | succ f ih =>
    intro n hn
    simp only [Nat.toDigitsCore]
    by_cases h : n / 10 = 0
    · simp only [h, if_true]
      have hlt : n < 10 := by omega
      have := numeral_value_snoc [] (Nat.digitChar (n % 10))
      simp only [List.nil_append] at this
      rw [this, digitChar_value _ (Nat.mod_lt _ (by decide))]
      simp [numeral_value]; omega
    · simp only [h, if_false]
      rw [toDigitsCore_append, numeral_value_snoc, ih (n / 10) (by omega),
        digitChar_value _ (Nat.mod_lt _ (by decide))]
      omega

theorem numeral_value_toString (n : Nat) : numeral_value (toString n).data = n := by
  show numeral_value (Nat.toDigits 10 n) = n
  exact numeral_value_toDigitsCore (n + 1) n (by omega)

theorem toString_nat_injective {p q : Nat} (h : toString p = toString q) : p = q := by
  have := congrArg (fun s : String => numeral_value s.data) h
  simpa [numeral_value_toString] using this

theorem toString_nat_ne_default (p : Nat) : toString p ≠ "default" := by
  intro h
  have h2 := congrArg (fun s : String => numeral_value s.data) h
  simp only [numeral_value_toString] at h2
  have h3 : p = 57896568 := by rw [h2]; decide
  subst h3
  revert h
  decide

/-! ## The property tree -/

theorem isPrefixOf_eq_true_iff (p q : fs_path) : p.isPrefixOf q = true ↔ p <+: q :=
  List.isPrefixOf_iff_prefix

theorem node_exists_iff (t : property_tree) (p : fs_path) :
    t.node_exists p = true ↔ ∃ e ∈ t.nodes, p <+: e.1 := by
  unfold property_tree.node_exists
  rw [List.any_eq_true]
  constructor
  · rintro ⟨e, he, h⟩
    exact ⟨e, he, (isPrefixOf_eq_true_iff _ _).mp h⟩
  · rintro ⟨e, he, h⟩
    exact ⟨e, he, (isPrefixOf_eq_true_iff _ _).mpr h⟩

theorem node_exists_eq_false_iff (t : property_tree) (p : fs_path) :
    t.node_exists p = false ↔ ∀ e ∈ t.nodes, ¬ p <+: e.1 := by
  rw [← Bool.not_eq_true, node_exists_iff]
  constructor
  · intro h e he hp
    exact h ⟨e, he, hp⟩
  · rintro h ⟨e, he, hp⟩
    exact h e he hp

theorem create_ok (t : property_tree) (p : fs_path) (v : prop_value)
    (h : ∀ e ∈ t.nodes, e.1 ≠ p) :
    t.create p v = Except.ok ⟨t.nodes ++ [(p, v)]⟩ := by
  unfold property_tree.create
  have : t.nodes.any (fun e => e.1 == p) = false := by
    rw [List.any_eq_false]
    intro e he
    simpa using h e he
  simp [this]

theorem get_local_injective (dev : Nat) (name : String) {n m : Nat}
    (h : block_id_t.get_local ⟨dev, name, n⟩ = block_id_t.get_local ⟨dev, name, m⟩) : n = m := by
  unfold block_id_t.get_local at h
  have h2 := congrArg String.data h
  simp only [String.data_append, List.append_assoc] at h2
  have h3 := List.append_cancel_left (List.append_cancel_left h2)
  exact toString_nat_injective (String.ext h3)

/-! ## The constructor builds a controller -/

theorem xbar_prefix_second {s : String} {q : fs_path} (h : ["xbar", s] <+: q) :
    q.get? 1 = some s := by
  obtain ⟨r, rfl⟩ := h
  rfl

theorem exists_free_index (t : property_tree) (dev : Nat) (name : String) :
    ∃ j, j < t.nodes.length + 1 ∧
      t.node_exists ["xbar", block_id_t.get_local ⟨dev, name, j⟩] = false := by
  by_contra hcon
  have hall : ∀ j, j < t.nodes.length + 1 →
      t.node_exists ["xbar", block_id_t.get_local ⟨dev, name, j⟩] = true := by
    intro j hj
    by_contra hne
    exact hcon ⟨j, hj, by simpa using hne⟩
  let names : List String :=
    (List.range (t.nodes.length + 1)).map (fun j => block_id_t.get_local ⟨dev, name, j⟩)
  let seconds : List String := t.nodes.filterMap (fun e => e.1.get? 1)
  have hnodup : names.Nodup := by
    apply List.Nodup.map _ (List.nodup_range _)
    intro a b hab
    exact get_local_injective dev name hab
  have hsub : names ⊆ seconds := by
    intro s hs
    obtain ⟨j, hj, rfl⟩ := List.mem_map.mp hs
    have hj2 : j < t.nodes.length + 1 := List.mem_range.mp hj
    obtain ⟨e, he, hp⟩ := (node_exists_iff _ _).mp (hall j hj2)
    exact List.mem_filterMap.mpr ⟨e, he, xbar_prefix_second hp⟩
  have h1 : names.length ≤ seconds.length :=
    (List.subperm_of_subset hnodup hsub).length_le
  have h2 : seconds.length ≤ t.nodes.length := List.length_filterMap_le _ _
  have h3 : names.length = t.nodes.length + 1 := by simp [names]
  omega

theorem bump_block_id_spec (t : property_tree) (dev : Nat) (name : String) :
    ∀ (fuel k : Nat),
      (∃ j, j < fuel ∧
        t.node_exists ["xbar", block_id_t.get_local ⟨dev, name, k + j⟩] = false) →
      ∃ n, bump_block_id t fuel ⟨dev, name, k⟩ = some ⟨dev, name, n⟩ ∧ k ≤ n ∧
        t.node_exists ["xbar", block_id_t.get_local ⟨dev, name, n⟩] = false ∧
        ∀ m, k ≤ m → m < n →
          t.node_exists ["xbar", block_id_t.get_local ⟨dev, name, m⟩] = true := by
  intro fuel
  induction fuel with
  | zero => rintro k ⟨j, hj, _⟩; omega
  | succ f ih =>
    rintro k ⟨j, hj, hfree⟩
    by_cases hk : t.node_exists ["xbar", block_id_t.get_local ⟨dev, name, k⟩] = true
    · have hj0 : j ≠ 0 := by
        rintro rfl
        rw [Nat.add_zero, hk] at hfree
        exact Bool.noConfusion hfree
      obtain ⟨n, hn, hkn, hfr, hocc⟩ := ih (k + 1) ⟨j - 1, by omega, by
        have : k + 1 + (j - 1) = k + j := by omega
        rw [this]; exact hfree⟩
      refine ⟨n, ?_, by omega, hfr, ?_⟩
      · simp only [bump_block_id, hk, if_true]
        exact hn
      · intro m hkm hmn
        by_cases hmk : m = k
        · subst hmk; exact hk
        · exact hocc m (by omega) hmn
    · refine ⟨k, ?_, le_refl k, by simpa using hk, ?_⟩
      · simp only [bump_block_id, hk]
        rfl
      · intro m hkm hmk
        omega

/-- The loop over the block index always ends within its budget of tests, on
the least index whose path is not in the tree yet. -/
theorem bump_block_id_total (t : property_tree) (dev : Nat) (name : String) :
    ∃ n, bump_block_id t (t.nodes.length + 1) ⟨dev, name, 0⟩ = some ⟨dev, name, n⟩ ∧
      t.node_exists ["xbar", block_id_t.get_local ⟨dev, name, n⟩] = false ∧
      ∀ m, m < n → t.node_exists ["xbar", block_id_t.get_local ⟨dev, name, m⟩] = true := by
  obtain ⟨j, hj, hfree⟩ := exists_free_index t dev name
  obtain ⟨n, hn, _, hfr, hocc⟩ :=
    bump_block_id_spec t dev name (t.nodes.length + 1) 0 ⟨j, hj, by simpa using hfree⟩
  exact ⟨n, hn, hfr, fun m hm => hocc m (Nat.zero_le m) hm⟩

theorem ne_of_not_prefix {t : property_tree} {root : fs_path} (sfx : fs_path)
    (h : t.node_exists root = false) : ∀ e ∈ t.nodes, e.1 ≠ root ++ sfx := by
  intro e he heq
  exact (node_exists_eq_false_iff _ _).mp h e he ⟨sfx, heq.symm⟩

/-- The constructor returns a controller for every device, tree and SID: the
loop stops at the least free block index `n`, and the controller is
`constructed ... n`. -/
theorem ctor_eq (P : Platform) (H : Header) (iface : wb_iface) (sid : sid_t) (dev : Nat)
    (tree : property_tree) (be : Bool) :
    ∃ n, block_ctrl_base.ctor P H iface sid dev tree be
          = Except.ok (constructed P H iface sid dev tree be n)
      ∧ tree.node_exists
          ["xbar", block_id_t.get_local ⟨dev, blockname_of (noc_id_read H iface), n⟩] = false
      ∧ ∀ m, m < n → tree.node_exists
          ["xbar", block_id_t.get_local ⟨dev, blockname_of (noc_id_read H iface), m⟩] = true := by
  obtain ⟨n, hn, hfree, hocc⟩ := bump_block_id_total tree dev (blockname_of (noc_id_read H iface))
  refine ⟨n, ?_, hfree, hocc⟩
  unfold block_ctrl_base.ctor
  simp only [sr_read64, wb_iface.peek64]
  unfold noc_id_read at hn
  rw [hn]
  simp only
  have hne := fun sfx => ne_of_not_prefix (t := tree) sfx hfree
  unfold noc_id_read at hne
  rw [create_ok tree _ _ (hne ["noc_id"])]
  simp only
  rw [create_ok _ _ _ (by
    intro e he
    rcases List.mem_append.mp he with h | h
    · exact hne ["input_buffer_size"] e h
    · simp only [List.mem_singleton] at h
      subst h
      simp)]
  simp only
  rw [create_ok _ _ _ (by
    intro e he
    simp only [List.mem_append, List.mem_singleton] at he
    rcases he with (h | h) | h
    · exact hne ["bytes_per_packet", "default"] e h
    · subst h; simp
    · subst h; simp)]
  simp only
  rw [create_ok _ _ _ (by
    intro e he
    simp only [List.mem_append, List.mem_singleton] at he
    rcases he with ((h | h) | h) | h
    · exact hne ["clock_rate"] e h
    · subst h; simp
    · subst h; simp
    · subst h; simp)]
  simp [constructed, ctor_nodes, noc_id_read, buffalloc0_read, buffalloc1_read]

/-! ## Paths of the packet-size properties -/

theorem bpp_path_prefix_iff (st : block_ctrl_base) (p q : Nat) :
    bpp_path st p <+: bpp_path st q ↔ p = q := by
  unfold bpp_path
  rw [List.prefix_append_right_inj]
  constructor
  · intro h
    simp only [List.cons_prefix_cons, true_and] at h
    exact toString_nat_injective h.1
  · rintro rfl
    exact List.prefix_refl _

theorem bpp_path_ne_default (st : block_ctrl_base) (q : Nat) :
    bpp_path st q ≠ default_bpp_path st := by
  unfold bpp_path default_bpp_path
  intro h
  have h2 := List.append_cancel_left h
  simp only [List.cons.injEq, true_and, and_true] at h2
  exact toString_nat_ne_default q h2

theorem bpp_path_not_prefix_default (st : block_ctrl_base) (q : Nat) :
    ¬ bpp_path st q <+: default_bpp_path st := by
  intro h
  exact bpp_path_ne_default st q (h.eq_of_length (by simp [bpp_path, default_bpp_path]))

/-! ## Reading and writing one property -/

theorem access_eq_ok (t : property_tree) (p : fs_path) (v : prop_value)
    (hmem : ∃ e ∈ t.nodes, e.1 = p) (hval : ∀ e ∈ t.nodes, e.1 = p → e.2 = v) :
    t.access p = Except.ok v := by
  unfold property_tree.access
  obtain ⟨e, he, hp⟩ := hmem
  have hsome : (t.nodes.find? (fun e => e.1 == p)).isSome := by
    rw [List.find?_isSome]
    exact ⟨e, he, by simpa using hp⟩
  obtain ⟨e', he'⟩ := Option.isSome_iff_exists.mp hsome
  rw [he']
  have h1 := List.find?_some he'
  have h2 := List.mem_of_find?_eq_some he'
  simp only [beq_iff_eq] at h1
  simp only [hval e' h2 h1]

theorem access_eq_ok_imp (t : property_tree) (p : fs_path) (v : prop_value)
    (h : t.access p = Except.ok v) : (p, v) ∈ t.nodes := by
  unfold property_tree.access at h
  cases hf : t.nodes.find? (fun e => e.1 == p) with
  | none =>
    rw [hf] at h
    simp only at h
    split at h <;> cases h
  | some e =>
    rw [hf] at h
    simp only [Except.ok.injEq] at h
    have h1 := List.find?_some hf
    have h2 := List.mem_of_find?_eq_some hf
    simp only [beq_iff_eq] at h1
    rw [← h, ← h1]
    exact h2

theorem set_size_eq_ok (t : property_tree) (p : fs_path) (v w : Nat)
    (h : t.access p = Except.ok (prop_value.size w)) :
    t.set_size p v
      = Except.ok ⟨t.nodes.map (fun e => if e.1 == p then (p, prop_value.size v) else e)⟩ := by
  simp only [property_tree.set_size, h]

theorem set_size_ok_inv (t t' : property_tree) (p : fs_path) (v : Nat)
    (h : t.set_size p v = Except.ok t') :
    (∃ w, t.access p = Except.ok (prop_value.size w)) ∧
      t' = ⟨t.nodes.map (fun e => if e.1 == p then (p, prop_value.size v) else e)⟩ := by
  unfold property_tree.set_size at h
  split at h
  · rename_i w hw
    exact ⟨⟨w, hw⟩, by simpa using h.symm⟩
  · cases h
  · cases h

theorem create_ok_inv (t t' : property_tree) (p : fs_path) (v : prop_value)
    (h : t.create p v = Except.ok t') :
    (∀ e ∈ t.nodes, e.1 ≠ p) ∧ t' = ⟨t.nodes ++ [(p, v)]⟩ := by
  unfold property_tree.create at h
  split at h
  · cases h
  · rename_i hany
    refine ⟨?_, by simpa using h.symm⟩
    intro e he heq
    apply hany
    rw [List.any_eq_true]
    exact ⟨e, he, by simpa using heq⟩

theorem get_size_after_set_size (t t' : property_tree) (p : fs_path) (v : Nat)
    (h : t.set_size p v = Except.ok t') :
    t'.node_exists p = true ∧ t'.get_size p = Except.ok v := by
  obtain ⟨⟨w, hw⟩, rfl⟩ := set_size_ok_inv t t' p v h
  have hmem := access_eq_ok_imp t p _ hw
  have hmem' : (p, prop_value.size v)
      ∈ t.nodes.map (fun e => if e.1 == p then (p, prop_value.size v) else e) :=
    List.mem_map.mpr ⟨(p, prop_value.size w), hmem, by simp⟩
  constructor
  · exact (node_exists_iff _ _).mpr ⟨_, hmem', List.prefix_refl p⟩
  · have hacc : property_tree.access
        ⟨t.nodes.map (fun e => if e.1 == p then (p, prop_value.size v) else e)⟩ p
          = Except.ok (prop_value.size v) := by
      apply access_eq_ok
      · exact ⟨_, hmem', rfl⟩
      · intro e' he' hp
        obtain ⟨e, _, rfl⟩ := List.mem_map.mp he'
        by_cases hep : e.1 = p
        · simp [hep]
        · simp only [beq_iff_eq, hep, if_false] at hp
    simp only [property_tree.get_size, hacc]

theorem get_size_after_create (t t' : property_tree) (p : fs_path) (v : Nat)
    (h : t.create p (prop_value.size v) = Except.ok t') :
    t'.node_exists p = true ∧ t'.get_size p = Except.ok v := by
  obtain ⟨hne, rfl⟩ := create_ok_inv t t' p _ h
  have hmem' : (p, prop_value.size v) ∈ t.nodes ++ [(p, prop_value.size v)] := by simp
  constructor
  · exact (node_exists_iff _ _).mpr ⟨_, hmem', List.prefix_refl p⟩
  · have hacc : property_tree.access ⟨t.nodes ++ [(p, prop_value.size v)]⟩ p
        = Except.ok (prop_value.size v) := by
      apply access_eq_ok
      · exact ⟨_, hmem', rfl⟩
      · intro e' he' hp
        rcases List.mem_append.mp he' with h1 | h1
        · exact absurd hp (hne e' h1)
        · simp only [List.mem_singleton] at h1
          rw [h1]
    simp only [property_tree.get_size, hacc]

/-- What `set_bytes_per_output_packet` returns, case by case. -/
theorem set_bpp_cases (self : block_ctrl_base) (bpp port : Nat) (b : Bool)
    (st' : block_ctrl_base) (h : set_bytes_per_output_packet self bpp port = Except.ok (b, st')) :
    (b = false ∧ bpp % BYTES_PER_LINE ≠ 0 ∧ st' = self) ∨
    (b = true ∧ bpp % BYTES_PER_LINE = 0 ∧ self._tree.node_exists (bpp_path self port) = true ∧
      ∃ t, self._tree.set_size (bpp_path self port) bpp = Except.ok t ∧
        st' = { self with _tree := t }) ∨
    (b = true ∧ bpp % BYTES_PER_LINE = 0 ∧ self._tree.node_exists (bpp_path self port) = false ∧
      ∃ t, self._tree.create (bpp_path self port) (prop_value.size bpp) = Except.ok t ∧
        st' = { self with _tree := t }) := by
  unfold set_bytes_per_output_packet at h
  by_cases h8 : bpp % BYTES_PER_LINE ≠ 0
  · rw [if_pos h8] at h
    simp only [Except.ok.injEq, Prod.mk.injEq] at h
    exact Or.inl ⟨h.1.symm, h8, h.2.symm⟩
  · rw [if_neg h8] at h
    have h8' : bpp % BYTES_PER_LINE = 0 := by simpa using h8
    by_cases hex : self._tree.node_exists (bpp_path self port) = true
    · rw [if_pos hex] at h
      cases hs : self._tree.set_size (bpp_path self port) bpp with
      | error e => rw [hs] at h; cases h
      | ok t =>
        rw [hs] at h
        simp only [Except.ok.injEq, Prod.mk.injEq] at h
        exact Or.inr (Or.inl ⟨h.1.symm, h8', hex, t, rfl, h.2.symm⟩)
    · rw [if_neg hex] at h
      cases hs : self._tree.create (bpp_path self port) (prop_value.size bpp) with
      | error e => rw [hs] at h; cases h
      | ok t =>
        rw [hs] at h
        simp only [Except.ok.injEq, Prod.mk.injEq] at h
        exact Or.inr (Or.inr ⟨h.1.symm, h8', by simpa using hex, t, rfl, h.2.symm⟩)

theorem get_bpp_after_set (self st' : block_ctrl_base) (bpp port : Nat)
    (h : set_bytes_per_output_packet self bpp port = Except.ok (true, st')) :
    get_bytes_per_output_packet st' port = Except.ok bpp := by
  rcases set_bpp_cases self bpp port true st' h with ⟨hb, _⟩ | ⟨_, _, _, t, ht, rfl⟩ |
    ⟨_, _, _, t, ht, rfl⟩
  · cases hb
  · obtain ⟨hex, hget⟩ := get_size_after_set_size _ _ _ _ ht
    unfold get_bytes_per_output_packet
    simp only [bpp_path] at hex hget ⊢
    simp only [hex, if_true, hget]
  · obtain ⟨hex, hget⟩ := get_size_after_create _ _ _ _ ht
    unfold get_bytes_per_output_packet
    simp only [bpp_path] at hex hget ⊢
    simp only [hex, if_true, hget]

/-! ## The invariant of the packet-size properties -/

theorem TreeInv_constructed (P : Platform) (H : Header) (iface : wb_iface) (sid : sid_t)
    (dev : Nat) (tree : property_tree) (be : Bool) (n : Nat)
    (hfree : tree.node_exists
      ["xbar", block_id_t.get_local ⟨dev, blockname_of (noc_id_read H iface), n⟩] = false) :
    TreeInv H (constructed P H iface sid dev tree be n) := by
  have hold := (node_exists_eq_false_iff _ _).mp hfree
  constructor
  · intro q e he hp
    exfalso
    simp only [constructed, ctor_nodes, List.mem_append, List.mem_cons, List.mem_singleton,
      List.not_mem_nil, or_false] at he
    rcases he with he | he | he | he | he
    · apply hold e he
      exact List.IsPrefix.trans ⟨_, rfl⟩ hp
    all_goals
      subst he
      simp [constructed, bpp_path, toString_nat_ne_default] at hp
  · refine ⟨(default_bpp_path (constructed P H iface sid dev tree be n),
      prop_value.size H.DEFAULT_PACKET_SIZE), ?_, rfl⟩
    simp [constructed, ctor_nodes, default_bpp_path]
  · intro e he hp
    simp only [constructed, ctor_nodes, List.mem_append, List.mem_cons, List.mem_singleton,
      List.not_mem_nil, or_false] at he
    rcases he with he | he | he | he | he
    · exfalso
      apply hold e he
      rw [hp]
      exact ⟨_, rfl⟩
    all_goals
      subst he
      simp [constructed, default_bpp_path] at hp ⊢

theorem TreeInv_set (H : Header) (self st' : block_ctrl_base) (bpp port : Nat) (b : Bool)
    (hinv : TreeInv H self)
    (h : set_bytes_per_output_packet self bpp port = Except.ok (b, st')) :
    TreeInv H st' := by
  rcases set_bpp_cases self bpp port b st' h with ⟨_, _, rfl⟩ | ⟨_, h8, _, t, ht, rfl⟩ |
    ⟨_, h8, _, t, ht, rfl⟩
  · exact hinv
  · obtain ⟨_, rfl⟩ := set_size_ok_inv _ _ _ _ ht
    constructor
    · intro q e' he' hp
      obtain ⟨e, he, rfl⟩ := List.mem_map.mp he'
      by_cases hep : e.1 = bpp_path self port
      · simp only [hep, beq_self_eq_true, if_true] at hp ⊢
        have hq : q = port := (bpp_path_prefix_iff self q port).mp hp
        subst hq
        exact ⟨bpp, h8, rfl⟩
      · simp only [beq_iff_eq, hep, if_false] at hp ⊢
        exact hinv.ports q e he hp
    · obtain ⟨e, he, hp⟩ := hinv.default_mem
      refine ⟨e, List.mem_map.mpr ⟨e, he, ?_⟩, hp⟩
      have : e.1 ≠ bpp_path self port := by
        rw [hp]; exact (bpp_path_ne_default self port).symm
      simp [this]
    · intro e' he' hp
      obtain ⟨e, he, rfl⟩ := List.mem_map.mp he'
      by_cases hep : e.1 = bpp_path self port
      · simp only [hep, beq_self_eq_true, if_true] at hp
        exact absurd hp (bpp_path_ne_default self port)
      · simp only [beq_iff_eq, hep, if_false] at hp ⊢
        exact hinv.default_val e he hp
  · obtain ⟨_, rfl⟩ := create_ok_inv _ _ _ _ ht
    constructor
    · intro q e he hp
      rcases List.mem_append.mp he with h1 | h1
      · exact hinv.ports q e h1 hp
      · simp only [List.mem_singleton] at h1
        subst h1
        have hq : q = port := (bpp_path_prefix_iff self q port).mp hp
        subst hq
        exact ⟨bpp, h8, rfl⟩
    · obtain ⟨e, he, hp⟩ := hinv.default_mem
      exact ⟨e, List.mem_append.mpr (Or.inl he), hp⟩
    · intro e he hp
      rcases List.mem_append.mp he with h1 | h1
      · exact hinv.default_val e h1 hp
      · simp only [List.mem_singleton] at h1
        subst h1
        exact absurd hp (bpp_path_ne_default self port)

/-- In a state that satisfies the invariant the call never raises: the flag
returned tells whether `bpp` is a multiple of the line size. -/
theorem set_bpp_total (H : Header) (self : block_ctrl_base) (bpp port : Nat)
    (hinv : TreeInv H self) :
    ∃ st', set_bytes_per_output_packet self bpp port
      = Except.ok (decide (bpp % BYTES_PER_LINE = 0), st') := by
  unfold set_bytes_per_output_packet
  by_cases h8 : bpp % BYTES_PER_LINE ≠ 0
  · rw [if_pos h8]
    exact ⟨self, by simp [h8]⟩
  · rw [if_neg h8]
    have h8' : bpp % BYTES_PER_LINE = 0 := by simpa using h8
    simp only [h8', decide_True]
    by_cases hex : self._tree.node_exists (bpp_path self port) = true
    · rw [if_pos hex]
      obtain ⟨e, he, hp⟩ := (node_exists_iff _ _).mp hex
      obtain ⟨v, _, rfl⟩ := hinv.ports port e he hp
      have hacc : ∃ w, self._tree.access (bpp_path self port)
          = Except.ok (prop_value.size w) := by
        have hsome : (self._tree.nodes.find? (fun e => e.1 == bpp_path self port)).isSome := by
          rw [List.find?_isSome]
          exact ⟨_, he, by simp⟩
        obtain ⟨e', he'⟩ := Option.isSome_iff_exists.mp hsome
        have h1 := List.find?_some he'
        have h2 := List.mem_of_find?_eq_some he'
        simp only [beq_iff_eq] at h1
        obtain ⟨w, _, hw⟩ := hinv.ports port e' h2 (by rw [h1])
        refine ⟨w, ?_⟩
        unfold property_tree.access
        rw [he', hw]
      obtain ⟨w, hw⟩ := hacc
      rw [set_size_eq_ok _ _ _ w hw]
      exact ⟨_, rfl⟩
    · rw [if_neg hex]
      have hex' : self._tree.node_exists (bpp_path self port) = false := by simpa using hex
      rw [create_ok _ _ _ (fun e he heq =>
        (node_exists_eq_false_iff _ _).mp hex' e he (by rw [heq]))]
      exact ⟨_, rfl⟩

theorem TreeInv_of_tree_eq (H : Header) (self st' : block_ctrl_base)
    (ht : st'._tree = self._tree) (hr : st'.root_path = self.root_path)
    (hinv : TreeInv H self) : TreeInv H st' := by
  obtain ⟨h1, h2, h3⟩ := hinv
  constructor
  · intro q e he hp
    simp only [bpp_path, ht, hr] at he hp ⊢
    exact h1 q e he hp
  · simp only [default_bpp_path, ht, hr] at h2 ⊢
    exact h2
  · intro e he hp
    simp only [default_bpp_path, ht, hr] at he hp h3 ⊢
    exact h3 e he hp

theorem TreeInv_apply_call (P : Platform) (H : Header) (self : block_ctrl_base) (c : Call)
    (hinv : TreeInv H self) : TreeInv H (apply_call P H self c) := by
  cases c with
  | set_bytes_per_output_packet bpp port =>
    obtain ⟨st', hs⟩ := set_bpp_total H self bpp port hinv
    simp only [apply_call, hs]
    exact TreeInv_set H self st' bpp port _ hinv hs
  | _ => exact TreeInv_of_tree_eq H self _ rfl rfl hinv

theorem TreeInv_run_calls (P : Platform) (H : Header) (calls : List Call) :
    ∀ self : block_ctrl_base, TreeInv H self → TreeInv H (run_calls P H self calls) := by
  induction calls with
  | nil => intro self h; exact h
  | cons c cs ih =>
    intro self h
    exact ih _ (TreeInv_apply_call P H self c h)

theorem TreeInv_of_reachable (P : Platform) (H : Header) (st : block_ctrl_base)
    (h : Reachable P H st) : TreeInv H st := by
  obtain ⟨iface, sid, dev, tree, be, st0, calls, hc, rfl⟩ := h
  obtain ⟨n, hn, hfree, _⟩ := ctor_eq P H iface sid dev tree be
  rw [hn] at hc
  cases hc
  exact TreeInv_run_calls P H calls _ (TreeInv_constructed P H iface sid dev tree be n hfree)

/-! ## The packet-size policy -/

theorem sample_ctrl_reachable : Reachable lp64 sample_header sample_ctrl :=
  ⟨sample_iface, ⟨0, 0x0210⟩, 0, sample_tree, false, sample_ctrl, [],
    sample_ctrl_constructed, rfl⟩

/-- C3: `set_bytes_per_output_packet(bpp, port)` returns `false` exactly when
`bpp` is not a multiple of the line size of 8 bytes, in every state and on
every port, and then it returns without raising and leaves the controller as
it was.  In every reachable state the call does not raise at all and its flag
is `true` exactly for the multiples of 8; so `bpp = 7` returns `false` and
`bpp = 16` returns `true`. -/
theorem set_bytes_per_output_packet_policy (P : Platform) (H : Header)
    (self : block_ctrl_base) (bpp port : Nat) :
    (returned_flag (set_bytes_per_output_packet self bpp port) = some false ↔ bpp % 8 ≠ 0)
      ∧ (bpp % 8 ≠ 0 → set_bytes_per_output_packet self bpp port = Except.ok (false, self))
      ∧ (Reachable P H self →
          returned_flag (set_bytes_per_output_packet self bpp port)
            = some (decide (bpp % 8 = 0)))
      ∧ returned_flag (set_bytes_per_output_packet self 7 port) = some false
      ∧ (Reachable P H self →
          returned_flag (set_bytes_per_output_packet self 16 port) = some true) := by
  have hfalse : ∀ b : Nat, b % 8 ≠ 0 →
      set_bytes_per_output_packet self b port = Except.ok (false, self) := by
    intro b hb
    unfold set_bytes_per_output_packet
    rw [if_pos (by simpa [BYTES_PER_LINE] using hb)]
  have hreach : ∀ b : Nat, Reachable P H self →
      returned_flag (set_bytes_per_output_packet self b port) = some (decide (b % 8 = 0)) := by
    intro b hr
    obtain ⟨st', hs⟩ := set_bpp_total H self b port (TreeInv_of_reachable P H self hr)
    rw [hs]
    rfl
  refine ⟨⟨?_, ?_⟩, hfalse bpp, hreach bpp, ?_, ?_⟩
  · intro h
    cases hs : set_bytes_per_output_packet self bpp port with
    | error e => rw [hs] at h; cases h
    | ok r =>
      obtain ⟨b, st'⟩ := r
      rw [hs] at h
      simp only [returned_flag, Option.some.injEq] at h
      subst h
      rcases set_bpp_cases self bpp port false st' hs with ⟨_, h8, _⟩ | ⟨hb, _⟩ | ⟨hb, _⟩
      · simpa [BYTES_PER_LINE] using h8
      · cases hb
      · cases hb
  · intro h
    rw [hfalse bpp h]
    rfl
  · rw [hfalse 7 (by decide)]
    rfl
  · intro hr
    exact hreach 16 hr

/-- Witness of C3: sixteen bytes per packet on port 3 of the sample
controller, which is reachable. -/
theorem set_bytes_per_output_packet_policy_witness :
    Reachable lp64 sample_header sample_ctrl
      ∧ returned_flag (set_bytes_per_output_packet sample_ctrl 16 3) = some true :=
  ⟨sample_ctrl_reachable,
    (set_bytes_per_output_packet_policy lp64 sample_header sample_ctrl 16 3).2.2.2.2
      sample_ctrl_reachable⟩

/-- C4: round trip of the packet size.  For every state, port `p` and `bpp`
that is a multiple of 8, once `set_bytes_per_output_packet(bpp, p)` has
returned `true`, `get_bytes_per_output_packet(p)` returns `bpp`.  The call does
return `true` when `p` has no override (a property is added to the tree) and,
in a reachable state, when `p` has one (the tree keeps its size, the last
write wins). -/
theorem bytes_per_output_packet_round_trip (P : Platform) (H : Header)
    (self : block_ctrl_base) (bpp p : Nat) (h8 : bpp % 8 = 0) :
    (∀ st', set_bytes_per_output_packet self bpp p = Except.ok (true, st') →
        get_bytes_per_output_packet st' p = Except.ok bpp)
      ∧ (self._tree.node_exists (bpp_path self p) = false →
          ∃ st', set_bytes_per_output_packet self bpp p = Except.ok (true, st')
            ∧ st'._tree.nodes = self._tree.nodes ++ [(bpp_path self p, prop_value.size bpp)]
            ∧ get_bytes_per_output_packet st' p = Except.ok bpp)
      ∧ (Reachable P H self → self._tree.node_exists (bpp_path self p) = true →
          ∃ st', set_bytes_per_output_packet self bpp p = Except.ok (true, st')
            ∧ st'._tree.nodes.length = self._tree.nodes.length
            ∧ get_bytes_per_output_packet st' p = Except.ok bpp) := by
  have h8' : bpp % BYTES_PER_LINE = 0 := h8
  refine ⟨fun st' h => get_bpp_after_set self st' bpp p h, ?_, ?_⟩
  · intro hex
    have hs : set_bytes_per_output_packet self bpp p
        = Except.ok (true, { self with
            _tree := ⟨self._tree.nodes ++ [(bpp_path self p, prop_value.size bpp)]⟩ }) := by
      unfold set_bytes_per_output_packet
      rw [if_neg (by simp [h8']), if_neg (by simp [hex]),
        create_ok _ _ _ (fun e he heq =>
          (node_exists_eq_false_iff _ _).mp hex e he (by rw [heq]))]
    exact ⟨_, hs, rfl, get_bpp_after_set self _ bpp p hs⟩
  · intro hr hex
    obtain ⟨st', hs⟩ := set_bpp_total H self bpp p (TreeInv_of_reachable P H self hr)
    simp only [h8', decide_True] at hs
    refine ⟨st', hs, ?_, get_bpp_after_set self st' bpp p hs⟩
    rcases set_bpp_cases self bpp p true st' hs with ⟨hb, _⟩ | ⟨_, _, _, t, ht, rfl⟩ |
      ⟨_, _, hno, _⟩
    · cases hb
    · obtain ⟨_, rfl⟩ := set_size_ok_inv _ _ _ _ ht
      simp
    · rw [hex] at hno
      cases hno

/-- Witness of C4: port 3 of the sample controller is given 16 bytes per
packet and reads back 16. -/
theorem bytes_per_output_packet_round_trip_witness :
    get_bytes_per_output_packet
        (apply_call lp64 sample_header sample_ctrl (Call.set_bytes_per_output_packet 16 3)) 3
      = Except.ok 16 :=
  (bytes_per_output_packet_round_trip lp64 sample_header sample_ctrl 16 3 (by decide)).1
    _ (by rfl)

/-! ## Ports without an override -/

theorem no_override_apply_call (P : Platform) (H : Header) (self : block_ctrl_base)
    (c : Call) (p : Nat) (hc : call_sets_port p c = false)
    (hno : self._tree.node_exists (bpp_path self p) = false) :
    (apply_call P H self c)._tree.node_exists (bpp_path (apply_call P H self c) p) = false := by
  cases c with
  | set_bytes_per_output_packet bpp q =>
    simp only [apply_call]
    cases hs : set_bytes_per_output_packet self bpp q with
    | error e => exact hno
    | ok r =>
      obtain ⟨b, st'⟩ := r
      simp only
      have hold := (node_exists_eq_false_iff _ _).mp hno
      rcases set_bpp_cases self bpp q b st' hs with ⟨_, _, rfl⟩ | ⟨_, h8, _, t, ht, rfl⟩ |
        ⟨_, h8, _, t, ht, rfl⟩
      · exact hno
      · have hqp : q ≠ p := by
          intro h
          simp [call_sets_port, h8, h] at hc
        obtain ⟨_, rfl⟩ := set_size_ok_inv _ _ _ _ ht
        rw [node_exists_eq_false_iff]
        intro e' he' hp
        obtain ⟨e, he, rfl⟩ := List.mem_map.mp he'
        by_cases hep : e.1 = bpp_path self q
        · simp only [hep, beq_self_eq_true, if_true] at hp
          exact hqp ((bpp_path_prefix_iff self p q).mp hp).symm
        · simp only [beq_iff_eq, hep, if_false] at hp
          exact hold e he hp
      · have hqp : q ≠ p := by
          intro h
          simp [call_sets_port, h8, h] at hc
        obtain ⟨_, rfl⟩ := create_ok_inv _ _ _ _ ht
        rw [node_exists_eq_false_iff]
        intro e he hp
        rcases List.mem_append.mp he with h1 | h1
        · exact hold e h1 hp
        · simp only [List.mem_singleton] at h1
          subst h1
          exact hqp ((bpp_path_prefix_iff self p q).mp hp).symm
  | _ => exact hno

theorem no_override_run_calls (P : Platform) (H : Header) (p : Nat) (calls : List Call) :
    ∀ self : block_ctrl_base, (∀ c ∈ calls, call_sets_port p c = false) →
      self._tree.node_exists (bpp_path self p) = false →
      (run_calls P H self calls)._tree.node_exists (bpp_path (run_calls P H self calls) p)
        = false := by
  induction calls with
  | nil => intro self _ h; exact h
  | cons c cs ih =>
    intro self hall h
    exact ih _ (fun d hd => hall d (List.mem_cons_of_mem c hd))
      (no_override_apply_call P H self c p (hall c (List.mem_cons_self c cs)) h)

theorem get_default_of_no_override (H : Header) (st : block_ctrl_base) (p : Nat)
    (hinv : TreeInv H st) (hno : st._tree.node_exists (bpp_path st p) = false) :
    get_bytes_per_output_packet st p = Except.ok H.DEFAULT_PACKET_SIZE := by
  have hacc : st._tree.access (default_bpp_path st)
      = Except.ok (prop_value.size H.DEFAULT_PACKET_SIZE) :=
    access_eq_ok _ _ _ hinv.default_mem hinv.default_val
  unfold get_bytes_per_output_packet
  rw [hno]
  simp only [Bool.false_eq_true, if_false]
  unfold default_bpp_path at hacc
  simp only [property_tree.get_size, hacc]

theorem no_override_constructed (P : Platform) (H : Header) (iface : wb_iface) (sid : sid_t)
    (dev : Nat) (tree : property_tree) (be : Bool) (n p : Nat)
    (hfree : tree.node_exists
      ["xbar", block_id_t.get_local ⟨dev, blockname_of (noc_id_read H iface), n⟩] = false) :
    (constructed P H iface sid dev tree be n)._tree.node_exists
      (bpp_path (constructed P H iface sid dev tree be n) p) = false := by
  rw [node_exists_eq_false_iff]
  intro e he hp
  obtain ⟨v, _, rfl⟩ := (TreeInv_constructed P H iface sid dev tree be n hfree).ports p e he hp
  have hold := (node_exists_eq_false_iff _ _).mp hfree
  simp only [constructed, ctor_nodes, List.mem_append, List.mem_cons, List.mem_singleton,
    List.not_mem_nil, or_false] at he
  rcases he with he | he | he | he | he
  · exact hold _ he ⟨_, rfl⟩
  all_goals
    simp [constructed, bpp_path, toString_nat_ne_default] at he

/-- C5: the constructor returns a controller, and on every output port `p` on
which no `set_bytes_per_output_packet` call with an accepted size (a multiple
of 8, which is when the call succeeds) was made since, whatever else was
called, `get_bytes_per_output_packet(p)` returns the block-wide default
`DEFAULT_PACKET_SIZE` stored at `bytes_per_packet/default`. -/
theorem get_bytes_per_output_packet_default (P : Platform) (H : Header) (iface : wb_iface)
    (sid : sid_t) (dev : Nat) (tree : property_tree) (be : Bool) :
    ∃ st0, block_ctrl_base.ctor P H iface sid dev tree be = Except.ok st0
      ∧ st0._tree.get_size (st0.root_path ++ ["bytes_per_packet", "default"])
          = Except.ok H.DEFAULT_PACKET_SIZE
      ∧ ∀ (calls : List Call) (p : Nat), (∀ c ∈ calls, call_sets_port p c = false) →
          get_bytes_per_output_packet (run_calls P H st0 calls) p
            = Except.ok H.DEFAULT_PACKET_SIZE := by
  obtain ⟨n, hn, hfree, _⟩ := ctor_eq P H iface sid dev tree be
  have hinv := TreeInv_constructed P H iface sid dev tree be n hfree
  refine ⟨_, hn, ?_, ?_⟩
  · have hacc := access_eq_ok _ _ _ hinv.default_mem hinv.default_val
    unfold default_bpp_path at hacc
    simp only [property_tree.get_size, hacc]
  · intro calls p hall
    exact get_default_of_no_override H _ p (TreeInv_run_calls P H calls _ hinv)
      (no_override_run_calls P H p calls _ hall
        (no_override_constructed P H iface sid dev tree be n p hfree))

/-- Witness of C5: after an accepted size on port 3, a refused size on port 5
and a flow-control call, port 5 of the sample controller still reads the
default. -/
theorem get_bytes_per_output_packet_default_witness :
    get_bytes_per_output_packet
        (run_calls lp64 sample_header sample_ctrl
          [Call.set_bytes_per_output_packet 16 3, Call.set_bytes_per_output_packet 7 5,
           Call.reset_flow_control]) 5
      = Except.ok sample_header.DEFAULT_PACKET_SIZE := by
  obtain ⟨st0, h0, _, hget⟩ :=
    get_bytes_per_output_packet_default lp64 sample_header sample_iface ⟨0, 0x0210⟩ 0
      sample_tree false
  rw [sample_ctrl_constructed] at h0
  cases h0
  exact hget _ 5 (by decide)

/-! ## Buffer sizes found at discovery -/

theorem fill_buf_sizes_get (P : Platform) (v0 v1 p : Nat) (hp : p < 16) :
    (fill_buf_sizes P v1 8 (fill_buf_sizes P v0 0 (List.replicate 16 0))).get? p
      = some (buf_size_bytes P (byte_of (if p < 8 then v0 else v1) (p % 8))) := by
  simp only [fill_buf_sizes, byte_of, List.range, List.range.loop, List.foldl, List.replicate,
    List.set]
  interval_cases p <;> rfl

theorem fill_buf_sizes_length (P : Platform) (v0 v1 : Nat) :
    (fill_buf_sizes P v1 8 (fill_buf_sizes P v0 0 (List.replicate 16 0))).length = 16 := by
  simp [fill_buf_sizes, List.range, List.range.loop, List.foldl, List.replicate, List.set]

theorem buf_size_bytes_small (P : Platform) (v : Nat) (h30 : v ≤ 30)
    (hfit : v + 3 < P.model.size_bits) : buf_size_bytes P v = 8 * 2 ^ v := by
  have hlt : (2 : Nat) ^ (v + 3) < 2 ^ P.model.size_bits :=
    Nat.pow_lt_pow_right (by decide) hfit
  have hv : (2 : Nat) ^ v < 2 ^ P.model.size_bits :=
    Nat.pow_lt_pow_right (by decide) (by omega)
  have hshl : int_one_shl P v = ((2 ^ v : Nat) : Int) := by
    unfold int_one_shl
    rw [if_pos (by omega)]
    push_cast
    rfl
  have hsz : to_size_t P (int_one_shl P v) = 2 ^ v := by
    unfold to_size_t
    rw [hshl]
    have : ((2 ^ v : Nat) : Int) % 2 ^ P.model.size_bits = ((2 ^ v % 2 ^ P.model.size_bits : Nat) : Int) := by
      push_cast
      rfl
    rw [this, Int.toNat_natCast, Nat.mod_eq_of_lt hv]
  unfold buf_size_bytes
  rw [hsz, BYTES_PER_LINE, Nat.mod_eq_of_lt]
  have : 8 * 2 ^ v = 2 ^ (v + 3) := by rw [pow_succ, pow_succ, pow_succ]; ring
  rw [this]
  exact hlt

theorem buf_size_bytes_lt (P : Platform) (v : Nat) : buf_size_bytes P v < 2 ^ 64 := by
  unfold buf_size_bytes
  have h1 : BYTES_PER_LINE * to_size_t P (int_one_shl P v) % 2 ^ P.model.size_bits
      < 2 ^ P.model.size_bits := Nat.mod_lt _ (by positivity)
  have h2 : (2 : Nat) ^ P.model.size_bits ≤ 2 ^ 64 := by
    apply Nat.pow_le_pow_right (by decide)
    cases P.model <;> simp [DataModel.size_bits]
  omega

theorem get_sizes_constructed (P : Platform) (H : Header) (iface : wb_iface) (sid : sid_t)
    (dev : Nat) (tree : property_tree) (be : Bool) (n : Nat)
    (hfree : tree.node_exists
      ["xbar", block_id_t.get_local ⟨dev, blockname_of (noc_id_read H iface), n⟩] = false) :
    (constructed P H iface sid dev tree be n)._tree.get_sizes
        ((constructed P H iface sid dev tree be n).root_path ++ ["input_buffer_size"])
      = Except.ok (fill_buf_sizes P (buffalloc1_read H iface) 8
          (fill_buf_sizes P (buffalloc0_read H iface) 0 (List.replicate 16 0))) := by
  have hold := (node_exists_eq_false_iff _ _).mp hfree
  have hacc : (constructed P H iface sid dev tree be n)._tree.access
      ((constructed P H iface sid dev tree be n).root_path ++ ["input_buffer_size"])
      = Except.ok (prop_value.sizes (fill_buf_sizes P (buffalloc1_read H iface) 8
          (fill_buf_sizes P (buffalloc0_read H iface) 0 (List.replicate 16 0)))) := by
    apply access_eq_ok
    · exact ⟨((constructed P H iface sid dev tree be n).root_path ++ ["input_buffer_size"],
        prop_value.sizes (fill_buf_sizes P (buffalloc1_read H iface) 8
          (fill_buf_sizes P (buffalloc0_read H iface) 0 (List.replicate 16 0)))),
        by simp [constructed, ctor_nodes], rfl⟩
    · intro e he hp
      simp only [constructed, ctor_nodes, List.mem_append, List.mem_cons, List.mem_singleton,
        List.not_mem_nil, or_false] at he
      rcases he with he | he | he | he | he
      · exfalso
        apply hold e he
        rw [hp]
        exact ⟨_, rfl⟩
      all_goals
        subst he
        simp [constructed] at hp ⊢
  simp only [property_tree.get_sizes, hacc]

/-! ## Properties that a call leaves alone -/

theorem access_map_frame (t : property_tree) (p p' : fs_path) (x v : prop_value)
    (hne : p' ≠ p) (h : t.access p' = Except.ok v) :
    property_tree.access ⟨t.nodes.map (fun e => if e.1 == p then (p, x) else e)⟩ p'
      = Except.ok v := by
  unfold property_tree.access at h ⊢
  cases hf : t.nodes.find? (fun e => e.1 == p') with
  | none =>
    rw [hf] at h
    simp only at h
    split at h <;> cases h
  | some e =>
    rw [hf] at h
    simp only [Except.ok.injEq] at h
    have hpred : ((fun e : fs_path × prop_value => e.1 == p')
        ∘ fun e => if e.1 == p then (p, x) else e) = fun e => e.1 == p' := by
      funext e
      by_cases hep : e.1 = p
      · simp [hep]
      · simp [hep]
    have he1 : e.1 = p' := by simpa using List.find?_some hf
    have hfe : (if e.1 == p then (p, x) else e) = e := by
      have : e.1 ≠ p := by rw [he1]; exact hne
      simp [this]
    simp only [List.find?_map, hpred, hf, Option.map_some', hfe, h]

theorem access_append_frame (t : property_tree) (p p' : fs_path) (x v : prop_value)
    (h : t.access p' = Except.ok v) :
    property_tree.access ⟨t.nodes ++ [(p, x)]⟩ p' = Except.ok v := by
  unfold property_tree.access at h ⊢
  cases hf : t.nodes.find? (fun e => e.1 == p') with
  | none =>
    rw [hf] at h
    simp only at h
    split at h <;> cases h
  | some e =>
    rw [hf] at h
    simp only [List.find?_append, hf, Option.or]
    exact h

theorem access_after_set_bpp (self st' : block_ctrl_base) (bpp q : Nat) (b : Bool)
    (p' : fs_path) (v : prop_value) (hne : p' ≠ bpp_path self q)
    (h : set_bytes_per_output_packet self bpp q = Except.ok (b, st'))
    (hacc : self._tree.access p' = Except.ok v) :
    st'._tree.access p' = Except.ok v := by
  rcases set_bpp_cases self bpp q b st' h with ⟨_, _, rfl⟩ | ⟨_, _, _, t, ht, rfl⟩ |
    ⟨_, _, _, t, ht, rfl⟩
  · exact hacc
  · obtain ⟨_, rfl⟩ := set_size_ok_inv _ _ _ _ ht
    exact access_map_frame _ _ _ _ _ hne hacc
  · obtain ⟨_, rfl⟩ := create_ok_inv _ _ _ _ ht
    exact access_append_frame _ _ _ _ _ hacc

theorem root_path_apply_call (P : Platform) (H : Header) (self : block_ctrl_base) (c : Call) :
    (apply_call P H self c).root_path = self.root_path := by
  cases c with
  | set_bytes_per_output_packet bpp q =>
    simp only [apply_call]
    cases hs : set_bytes_per_output_packet self bpp q with
    | error e => rfl
    | ok r =>
      obtain ⟨b, st'⟩ := r
      rcases set_bpp_cases self bpp q b st' hs with ⟨_, _, rfl⟩ | ⟨_, _, _, t, _, rfl⟩ |
        ⟨_, _, _, t, _, rfl⟩ <;> rfl
  | _ => rfl

theorem get_fifo_size_apply_call (P : Platform) (H : Header) (self : block_ctrl_base)
    (c : Call) (k x : Nat) (h : get_fifo_size self k = Except.ok x) :
    get_fifo_size (apply_call P H self c) k = Except.ok x := by
  have hroot := root_path_apply_call P H self c
  cases hacc : self._tree.access (self.root_path ++ ["input_buffer_size"]) with
  | error e =>
    simp [get_fifo_size, property_tree.get_sizes, hacc] at h
  | ok v =>
    have hacc' : (apply_call P H self c)._tree.access
        ((apply_call P H self c).root_path ++ ["input_buffer_size"]) = Except.ok v := by
      rw [hroot]
      cases c with
      | set_bytes_per_output_packet bpp q =>
        simp only [apply_call]
        cases hs : set_bytes_per_output_packet self bpp q with
        | error e => exact hacc
        | ok r =>
          obtain ⟨b, st'⟩ := r
          exact access_after_set_bpp self st' bpp q b _ v
            (by simp [bpp_path]) hs hacc
      | _ => exact hacc
    unfold get_fifo_size property_tree.get_sizes at h ⊢
    rw [hacc] at h
    rw [hacc']
    exact h

theorem get_fifo_size_run_calls (P : Platform) (H : Header) (k x : Nat) (calls : List Call) :
    ∀ self : block_ctrl_base, get_fifo_size self k = Except.ok x →
      get_fifo_size (run_calls P H self calls) k = Except.ok x := by
  induction calls with
  | nil => intro self h; exact h
  | cons c cs ih =>
    intro self h
    exact ih _ (get_fifo_size_apply_call P H self c k x h)

theorem get_fifo_size_constructed (P : Platform) (H : Header) (iface : wb_iface) (sid : sid_t)
    (dev : Nat) (tree : property_tree) (be : Bool) (n p : Nat) (hp : p < 16)
    (hfree : tree.node_exists
      ["xbar", block_id_t.get_local ⟨dev, blockname_of (noc_id_read H iface), n⟩] = false) :
    get_fifo_size (constructed P H iface sid dev tree be n) p
      = Except.ok (buf_size_bytes P
          (byte_of (if p < 8 then buffalloc0_read H iface else buffalloc1_read H iface)
            (p % 8))) := by
  unfold get_fifo_size
  rw [get_sizes_constructed P H iface sid dev tree be n hfree]
  simp only [fill_buf_sizes_get P _ _ p hp]

theorem recorded_buf_size_constructed (P : Platform) (H : Header) (iface : wb_iface)
    (sid : sid_t) (dev : Nat) (tree : property_tree) (be : Bool) (n p : Nat) (hp : p < 16)
    (hfree : tree.node_exists
      ["xbar", block_id_t.get_local ⟨dev, blockname_of (noc_id_read H iface), n⟩] = false) :
    recorded_buf_size (constructed P H iface sid dev tree be n) p
      = some (buf_size_bytes P (buf_size_log2_read H iface p)) := by
  unfold recorded_buf_size buf_size_log2_read
  rw [get_sizes_constructed P H iface sid dev tree be n hfree]
  simp only [fill_buf_sizes_get P _ _ p hp]

/-- C6 (as amended): the constructor returns a controller, and for every pair
of words read from the two buffer-allocation registers and every port `p` in
0..15 the size it records for `p` is `BYTES_PER_LINE * (1 << v)` in the
arithmetic of the code, where `v` is byte `p mod 8` of the first word for
`p < 8` and of the second word for `p >= 8`.  This size is `8 * 2 ^ v` bytes
for every `v ≤ 30` for which `8 * 2 ^ v` fits a `size_t` (every `v ≤ 30` where
`size_t` has 64 bits, every `v ≤ 28` where it has 32). -/
theorem input_buffer_size_recorded (P : Platform) (H : Header) (iface : wb_iface)
    (sid : sid_t) (dev : Nat) (tree : property_tree) (be : Bool) :
    ∃ st, block_ctrl_base.ctor P H iface sid dev tree be = Except.ok st
      ∧ ∀ p, p < 16 →
          buf_size_log2_read H iface p < 256
          ∧ recorded_buf_size st p = some (buf_size_bytes P (buf_size_log2_read H iface p))
          ∧ (buf_size_log2_read H iface p ≤ 30 →
              buf_size_log2_read H iface p + 3 < P.model.size_bits →
              recorded_buf_size st p = some (8 * 2 ^ buf_size_log2_read H iface p)) := by
  obtain ⟨n, hn, hfree, _⟩ := ctor_eq P H iface sid dev tree be
  refine ⟨_, hn, ?_⟩
  intro p hp
  have hrec := recorded_buf_size_constructed P H iface sid dev tree be n p hp hfree
  refine ⟨?_, hrec, ?_⟩
  · unfold buf_size_log2_read byte_of
    exact Nat.lt_of_le_of_lt Nat.and_le_right (by decide)
  · intro h30 hfit
    rw [hrec, buf_size_bytes_small P _ h30 hfit]

/-- Witness of C6: port 0 of the sample device has the log2 line count 7. -/
theorem input_buffer_size_recorded_witness :
    recorded_buf_size sample_ctrl 0
      = some (8 * 2 ^ buf_size_log2_read sample_header sample_iface 0) := by
  obtain ⟨st, h0, hall⟩ :=
    input_buffer_size_recorded lp64 sample_header sample_iface ⟨0, 0x0210⟩ 0 sample_tree false
  rw [sample_ctrl_constructed] at h0
  cases h0
  exact (hall 0 (by decide)).2.2 (by decide) (by decide)

/-- C6 as stated fails for the large byte values: on the 64-bit host, port 8
of the sample device has the byte `31`, and the size recorded for it is
`0xFFFFFFFC00000000`, not `8 * 2 ^ 31`; port 9 has the byte `255`, and what is
recorded is not `8 * 2 ^ 255`, which no `size_t` holds. -/
theorem input_buffer_size_overflows :
    block_ctrl_base.ctor lp64 sample_header sample_iface ⟨0, 0x0210⟩ 0 sample_tree false
        = Except.ok sample_ctrl
      ∧ buf_size_log2_read sample_header sample_iface 8 = 31
      ∧ recorded_buf_size sample_ctrl 8 = some 0xFFFFFFFC00000000
      ∧ recorded_buf_size sample_ctrl 8 ≠ some (8 * 2 ^ 31)
      ∧ buf_size_log2_read sample_header sample_iface 9 = 255
      ∧ recorded_buf_size sample_ctrl 9 ≠ some (8 * 2 ^ 255) := by
  refine ⟨sample_ctrl_constructed, by decide, by decide, by decide, by decide, by decide⟩

/-- C7: when the first buffer-allocation register reads `0x0707`, the
constructor returns a controller in which the size recorded for port 0 and for
port 1 is exactly 1024 bytes (`2 ^ 7 * 8`), and `get_fifo_size(0)` and
`get_fifo_size(1)` return 1024, right after construction and after any
sequence of calls. -/
theorem fifo_size_of_0x0707 (P : Platform) (H : Header) (iface : wb_iface)
    (sid : sid_t) (dev : Nat) (tree : property_tree) (be : Bool)
    (h0707 : buffalloc0_read H iface = 0x0707) :
    ∃ st, block_ctrl_base.ctor P H iface sid dev tree be = Except.ok st
      ∧ recorded_buf_size st 0 = some 1024 ∧ recorded_buf_size st 1 = some 1024
      ∧ get_fifo_size st 0 = Except.ok 1024 ∧ get_fifo_size st 1 = Except.ok 1024
      ∧ ∀ calls : List Call,
          get_fifo_size (run_calls P H st calls) 0 = Except.ok 1024
            ∧ get_fifo_size (run_calls P H st calls) 1 = Except.ok 1024 := by
  obtain ⟨n, hn, hfree, _⟩ := ctor_eq P H iface sid dev tree be
  have hfit : 7 + 3 < P.model.size_bits := by
    cases P.model <;> simp [DataModel.size_bits]
  have hsize : buf_size_bytes P 7 = 1024 := by
    rw [buf_size_bytes_small P 7 (by decide) hfit]
    rfl
  have hb0 : buf_size_log2_read H iface 0 = 7 := by
    simp only [buf_size_log2_read, h0707, Nat.lt_add_one, Nat.one_lt_ofNat, Nat.zero_lt_succ,
      Nat.ofNat_pos, if_true]
    decide
  have hb1 : buf_size_log2_read H iface 1 = 7 := by
    simp only [buf_size_log2_read, h0707, Nat.lt_add_one, Nat.one_lt_ofNat, Nat.zero_lt_succ,
      Nat.ofNat_pos, if_true]
    decide
  have hr0 := recorded_buf_size_constructed P H iface sid dev tree be n 0 (by decide) hfree
  have hr1 := recorded_buf_size_constructed P H iface sid dev tree be n 1 (by decide) hfree
  have hg0 := get_fifo_size_constructed P H iface sid dev tree be n 0 (by decide) hfree
  have hg1 := get_fifo_size_constructed P H iface sid dev tree be n 1 (by decide) hfree
  rw [hb0, hsize] at hr0
  rw [hb1, hsize] at hr1
  have hg0' : get_fifo_size (constructed P H iface sid dev tree be n) 0 = Except.ok 1024 := by
    rw [hg0]
    have := hb0
    unfold buf_size_log2_read at this
    rw [this, hsize]
  have hg1' : get_fifo_size (constructed P H iface sid dev tree be n) 1 = Except.ok 1024 := by
    rw [hg1]
    have := hb1
    unfold buf_size_log2_read at this
    rw [this, hsize]
  exact ⟨_, hn, hr0, hr1, hg0', hg1', fun calls =>
    ⟨get_fifo_size_run_calls P H 0 1024 calls _ hg0',
     get_fifo_size_run_calls P H 1 1024 calls _ hg1'⟩⟩

/-- Witness of C7: the sample device reads `0x0707`, and the controller built
on it reports 1024 bytes for the ports 0 and 1. -/
theorem fifo_size_of_0x0707_witness :
    buffalloc0_read sample_header sample_iface = 0x0707
      ∧ get_fifo_size sample_ctrl 0 = Except.ok 1024
      ∧ get_fifo_size sample_ctrl 1 = Except.ok 1024 := by
  have h : buffalloc0_read sample_header sample_iface = 0x0707 := by decide
  obtain ⟨st, h0, _, _, hg0, hg1, _⟩ :=
    fifo_size_of_0x0707 lp64 sample_header sample_iface ⟨0, 0x0210⟩ 0 sample_tree false h
  rw [sample_ctrl_constructed] at h0
  cases h0
  exact ⟨h, hg0, hg1⟩

/-! ## Block identity, discovery accesses and block index -/

theorem upper_bits_eq (noc : Nat) (h : noc < 2 ^ 64) :
    (noc >>> 48) &&& 0xFFFF = noc / 2 ^ 48 := by
  have h1 : noc / 2 ^ 48 < 2 ^ 16 := by
    apply Nat.div_lt_of_lt_mul
    calc noc < 2 ^ 64 := h
      _ = 2 ^ 48 * 2 ^ 16 := by norm_num
  have h2 : (0xFFFF : Nat) = 2 ^ 16 - 1 := by norm_num
  rw [Nat.shiftRight_eq_div_pow, h2, Nat.and_pow_two_sub_one_eq_mod, Nat.mod_eq_of_lt h1]

theorem noc_id_read_lt (H : Header) (iface : wb_iface) : noc_id_read H iface < 2 ^ 64 :=
  Nat.mod_lt _ (by decide)

theorem blockname_of_eq (noc : Nat) (h : noc < 2 ^ 64) :
    blockname_of noc =
      if noc = 0xAAAABBBBCCCC0000 then "NullSrcSink"
      else if noc / 2 ^ 48 = 0xAAAA then "CE" else "Radio" := by
  unfold blockname_of
  rw [upper_bits_eq noc h]
  by_cases h1 : noc = 0xAAAABBBBCCCC0000
  · simp [h1]
  · by_cases h2 : noc / 2 ^ 48 = 0xAAAA
    · simp [h1, h2]
    · simp [h1, h2]

/-- C11 (as amended): for every 64-bit identity read at attach the constructor
returns a controller whose block name is `NullSrcSink` when the identity is
`0xAAAABBBBCCCC0000`, the generic `CE` for every other identity whose upper 16
bits are `0xAAAA`, and `Radio` for every identity whose upper 16 bits are not
`0xAAAA`; the name enters the root path `xbar/<name>_<n>` and nothing else. -/
theorem block_name_classification (P : Platform) (H : Header) (iface : wb_iface)
    (sid : sid_t) (dev : Nat) (tree : property_tree) (be : Bool) :
    ∃ st, block_ctrl_base.ctor P H iface sid dev tree be = Except.ok st
      ∧ st._block_id.block_name =
          (if noc_id_read H iface = 0xAAAABBBBCCCC0000 then "NullSrcSink"
           else if noc_id_read H iface / 2 ^ 48 = 0xAAAA then "CE" else "Radio")
      ∧ st._block_id.device_no = dev
      ∧ st.root_path = ["xbar", st._block_id.block_name ++ "_" ++ toString st._block_id.block_count]
      ∧ st._ctrl_sid = sid := by
  obtain ⟨n, hn, _, _⟩ := ctor_eq P H iface sid dev tree be
  refine ⟨_, hn, ?_, rfl, rfl, rfl⟩
  exact blockname_of_eq _ (noc_id_read_lt H iface)

/-- C11 as stated fails in both directions: the identity
`0xAAAA000000000001`, whose upper 16 bits are `0xAAAA`, gets the generic name
`CE`, and the identity `0`, whose upper 16 bits are not `0xAAAA`, gets the name
`Radio` and not `CE`. -/
theorem block_name_classification_inverted :
    noc_id_read sample_header sample_iface = 0xAAAA000000000001
      ∧ noc_id_read sample_header sample_iface / 2 ^ 48 = 0xAAAA
      ∧ constructed_block_name lp64 sample_header sample_iface sample_tree = some "CE"
      ∧ noc_id_read sample_header plain_iface / 2 ^ 48 ≠ 0xAAAA
      ∧ constructed_block_name lp64 sample_header plain_iface sample_tree = some "Radio"
      ∧ constructed_block_name lp64 sample_header plain_iface sample_tree ≠ some "CE" := by
  refine ⟨by decide, by decide, by rfl, by decide, by rfl, ?_⟩
  have h : constructed_block_name lp64 sample_header plain_iface sample_tree = some "Radio" := by
    rfl
  rw [h]
  decide

/-- C18: on attach the constructor makes exactly three accesses on the
settings bus, all of them 64-bit reads, in the order `SR_READBACK_REG_ID`,
`SR_READBACK_REG_BUFFALLOC0`, `SR_READBACK_REG_BUFFALLOC1`, and no register
write: the writes in the log are those that were there before. -/
theorem ctor_bus_accesses (P : Platform) (H : Header) (iface : wb_iface)
    (sid : sid_t) (dev : Nat) (tree : property_tree) (be : Bool) :
    ∃ st, block_ctrl_base.ctor P H iface sid dev tree be = Except.ok st
      ∧ st._ctrl_iface.log = iface.log ++
          [reg_read64 H.SR_READBACK_REG_ID, reg_read64 H.SR_READBACK_REG_BUFFALLOC0,
           reg_read64 H.SR_READBACK_REG_BUFFALLOC1]
      ∧ st._ctrl_iface.log.length = iface.log.length + 3
      ∧ st._ctrl_iface.log.filter is_write = iface.log.filter is_write := by
  obtain ⟨n, hn, _, _⟩ := ctor_eq P H iface sid dev tree be
  refine ⟨_, hn, rfl, ?_, ?_⟩
  · simp [constructed]
  · simp [constructed, is_write]

/-- C19: for every property tree the loop over the block index ends, with any
budget of at least one test more than the tree has properties, on the least
index `n` for which `xbar/<name>_n` does not exist in the tree; this holds for
every name, and the constructor returns a controller with this index whose
root path is that one, so the root path is neither the path of an existing
property nor above one. -/
theorem block_index_is_least_free (P : Platform) (H : Header) (iface : wb_iface)
    (sid : sid_t) (dev : Nat) (tree : property_tree) (be : Bool) :
    (∀ name : String, ∃ n,
        (∀ fuel, tree.nodes.length + 1 ≤ fuel →
          bump_block_id tree fuel ⟨dev, name, 0⟩ = some ⟨dev, name, n⟩)
        ∧ tree.node_exists ["xbar", block_id_t.get_local ⟨dev, name, n⟩] = false
        ∧ ∀ m, m < n → tree.node_exists ["xbar", block_id_t.get_local ⟨dev, name, m⟩] = true)
      ∧ ∃ n st, block_ctrl_base.ctor P H iface sid dev tree be = Except.ok st
          ∧ st._block_id = ⟨dev, blockname_of (noc_id_read H iface), n⟩
          ∧ st.root_path = ["xbar", block_id_t.get_local st._block_id]
          ∧ tree.node_exists st.root_path = false
          ∧ (∀ m, m < n → tree.node_exists
              ["xbar", block_id_t.get_local ⟨dev, blockname_of (noc_id_read H iface), m⟩] = true)
          ∧ (∀ e ∈ tree.nodes, ¬ st.root_path <+: e.1) := by
  constructor
  · intro name
    obtain ⟨j, hj, hfree⟩ := exists_free_index tree dev name
    obtain ⟨n, _, _, hfr, hocc⟩ :=
      bump_block_id_spec tree dev name (tree.nodes.length + 1) 0 ⟨j, hj, by simpa using hfree⟩
    refine ⟨n, ?_, hfr, fun m hm => hocc m (Nat.zero_le m) hm⟩
    intro fuel hfuel
    obtain ⟨n', hn', _, hfr', hocc'⟩ :=
      bump_block_id_spec tree dev name fuel 0 ⟨j, by omega, by simpa using hfree⟩
    have hnn : n' = n := by
      rcases Nat.lt_trichotomy n' n with h | h | h
      · have := hocc n' (Nat.zero_le _) h
        rw [hfr'] at this
        cases this
      · exact h
      · have := hocc' n (Nat.zero_le _) h
        rw [hfr] at this
        cases this
    rw [hn', hnn]
  · obtain ⟨n, hn, hfree, hocc⟩ := ctor_eq P H iface sid dev tree be
    exact ⟨n, _, hn, rfl, rfl, hfree, hocc, (node_exists_eq_false_iff _ _).mp hfree⟩

/-- Witness of C19: on the sample tree, where `CE_0` exists, a budget of 2
tests and a budget of 7 tests end on the same block index. -/
theorem block_index_is_least_free_witness :
    bump_block_id sample_tree 2 ⟨0, "CE", 0⟩ = bump_block_id sample_tree 7 ⟨0, "CE", 0⟩ := by
  obtain ⟨n, hfuel, _, _⟩ :=
    (block_index_is_least_free lp64 sample_header sample_iface ⟨0, 0x0210⟩ 0 sample_tree
      false).1 "CE"
  rw [hfuel 2 (by decide), hfuel 7 (by decide)]

/-! ## The flow-control words of the transmit core -/

theorem tx_enable_word (P : Platform) (v n : Nat) (hn : n ≤ 31)
    (hmask : ∀ x : Nat, x &&& (2 ^ n - 1) = x % 2 ^ n) :
    to_uint32 (to_size_t P (int_one_shl P 31) ||| (v &&& (2 ^ n - 1))) = 2 ^ 31 + v % 2 ^ n := by
  have hlt : v % 2 ^ n < 2 ^ 31 :=
    Nat.lt_of_lt_of_le (Nat.mod_lt _ (by positivity)) (Nat.pow_le_pow_right (by decide) hn)
  rw [enable_word_eq, hmask, enable_word_of_lt _ (by omega), enable_bit_add _ hlt]

/-- C17 (as amended): `configure_flow_control` of the transmit core makes
exactly two writes, first to the cycle register and then to the packet
register, and changes nothing else.  The cycle word is `0` for
`cycs_per_up = 0` and otherwise bit 31 plus `cycs_per_up` reduced to its low 24
bits; the packet word is `0` for `pkts_per_up = 0` and otherwise bit 31 plus
`pkts_per_up` reduced to its low 16 bits.  For `cycs_per_up < 2 ^ 24` and
`pkts_per_up < 2 ^ 16` the value fields are the cadences themselves.  `clear`
writes `0` to both registers. -/
theorem tx_configure_flow_control_writes (P : Platform) (self : tx_vita_core_3000_impl)
    (cycs_per_up pkts_per_up : Nat) :
    tx_vita_core_3000_impl.configure_flow_control P self cycs_per_up pkts_per_up
        = tx_pushed self
            [BusOp.poke32 (REG_DEFRAMER_CYCLE_FC_UPS self)
               (if cycs_per_up = 0 then 0 else 2 ^ 31 + cycs_per_up % 2 ^ 24),
             BusOp.poke32 (REG_DEFRAMER_PACKET_FC_UPS self)
               (if pkts_per_up = 0 then 0 else 2 ^ 31 + pkts_per_up % 2 ^ 16)]
      ∧ (cycs_per_up < 2 ^ 24 → pkts_per_up < 2 ^ 16 →
          tx_vita_core_3000_impl.configure_flow_control P self cycs_per_up pkts_per_up
            = tx_pushed self
                [BusOp.poke32 (REG_DEFRAMER_CYCLE_FC_UPS self)
                   (if cycs_per_up = 0 then 0 else 2 ^ 31 + cycs_per_up),
                 BusOp.poke32 (REG_DEFRAMER_PACKET_FC_UPS self)
                   (if pkts_per_up = 0 then 0 else 2 ^ 31 + pkts_per_up)]
            ∧ (2 ^ 31 + cycs_per_up).testBit 31 = true
            ∧ (2 ^ 31 + cycs_per_up) % 2 ^ 31 = cycs_per_up
            ∧ (2 ^ 31 + pkts_per_up).testBit 31 = true
            ∧ (2 ^ 31 + pkts_per_up) % 2 ^ 31 = pkts_per_up)
      ∧ tx_vita_core_3000_impl.clear P self
          = tx_pushed self
              [BusOp.poke32 (REG_DEFRAMER_CYCLE_FC_UPS self) 0,
               BusOp.poke32 (REG_DEFRAMER_PACKET_FC_UPS self) 0] := by
  have hc : to_uint32 (to_size_t P (int_one_shl P 31) ||| (cycs_per_up &&& 0xffffff))
      = 2 ^ 31 + cycs_per_up % 2 ^ 24 :=
    tx_enable_word P cycs_per_up 24 (by decide) (fun x => Nat.and_pow_two_sub_one_eq_mod x 24)
  have hp : to_uint32 (to_size_t P (int_one_shl P 31) ||| (pkts_per_up &&& 0xffff))
      = 2 ^ 31 + pkts_per_up % 2 ^ 16 :=
    tx_enable_word P pkts_per_up 16 (by decide) (fun x => Nat.and_pow_two_sub_one_eq_mod x 16)
  have key : ∀ c p : Nat,
      to_uint32 (to_size_t P (int_one_shl P 31) ||| (c &&& 0xffffff)) = 2 ^ 31 + c % 2 ^ 24 →
      to_uint32 (to_size_t P (int_one_shl P 31) ||| (p &&& 0xffff)) = 2 ^ 31 + p % 2 ^ 16 →
      tx_vita_core_3000_impl.configure_flow_control P self c p
        = tx_pushed self
            [BusOp.poke32 (REG_DEFRAMER_CYCLE_FC_UPS self)
               (if c = 0 then 0 else 2 ^ 31 + c % 2 ^ 24),
             BusOp.poke32 (REG_DEFRAMER_PACKET_FC_UPS self)
               (if p = 0 then 0 else 2 ^ 31 + p % 2 ^ 16)] := by
    intro c p h1 h2
    unfold tx_vita_core_3000_impl.configure_flow_control
    by_cases hc0 : c = 0 <;> by_cases hp0 : p = 0 <;>
      simp [hc0, hp0, h1, h2, tx_pushed, wb_iface.poke32, REG_DEFRAMER_CYCLE_FC_UPS,
        REG_DEFRAMER_PACKET_FC_UPS]
  refine ⟨key _ _ hc hp, ?_, ?_⟩
  · intro hclt hplt
    refine ⟨?_, ?_, ?_, ?_, ?_⟩
    · rw [key _ _ hc hp, Nat.mod_eq_of_lt hclt, Nat.mod_eq_of_lt hplt]
    · rw [Nat.testBit_two_pow_add_eq, Nat.testBit_lt_two_pow (by omega)]
      rfl
    · rw [Nat.add_mod, Nat.mod_self, Nat.zero_add, Nat.mod_mod, Nat.mod_eq_of_lt (by omega)]
    · rw [Nat.testBit_two_pow_add_eq, Nat.testBit_lt_two_pow (by omega)]
      rfl
    · rw [Nat.add_mod, Nat.mod_self, Nat.zero_add, Nat.mod_mod, Nat.mod_eq_of_lt (by omega)]
  · unfold tx_vita_core_3000_impl.clear
    have := key 0 0 (by simp [to_uint32, to_size_t, int_one_shl]; cases P.model <;> rfl)
      (by simp [to_uint32, to_size_t, int_one_shl]; cases P.model <;> rfl)
    simpa using this

/-- Witness of C17: 1000 cycles and 4 packets per update on the sample core. -/
theorem tx_configure_flow_control_writes_witness :
    tx_vita_core_3000_impl.configure_flow_control lp64 sample_tx_core 1000 4
      = tx_pushed sample_tx_core
          [BusOp.poke32 (REG_DEFRAMER_CYCLE_FC_UPS sample_tx_core)
             (if 1000 = 0 then 0 else 2 ^ 31 + 1000),
           BusOp.poke32 (REG_DEFRAMER_PACKET_FC_UPS sample_tx_core)
             (if 4 = 0 then 0 else 2 ^ 31 + 4)] :=
  ((tx_configure_flow_control_writes lp64 sample_tx_core 1000 4).2.1
    (by decide) (by decide)).1

/-- C17 as stated fails beyond the masks: a cadence of `2 ^ 24` cycles and of
`2 ^ 16` packets is written as the bare bit 31 in both registers, so the value
fields are `0` and not the cadences. -/
theorem tx_configure_flow_control_masks :
    (tx_vita_core_3000_impl.configure_flow_control lp64 sample_tx_core (2 ^ 24) (2 ^ 16))._iface.log
        = sample_tx_core._iface.log
            ++ [BusOp.poke32 0xA000 0x80000000, BusOp.poke32 0xA004 0x80000000]
      ∧ (0x80000000 : Nat) % 2 ^ 31 ≠ 2 ^ 24
      ∧ (0x80000000 : Nat) % 2 ^ 31 ≠ 2 ^ 16 := by
  refine ⟨by decide, by decide, by decide⟩

/-! ## What a packet-size call leaves as it was -/

theorem node_exists_map_eq (t : property_tree) (p p' : fs_path) (x : prop_value) :
    property_tree.node_exists
        ⟨t.nodes.map (fun e => if e.1 == p then (p, x) else e)⟩ p'
      = t.node_exists p' := by
  unfold property_tree.node_exists
  rw [List.any_map]
  congr 1
  funext e
  by_cases hep : e.1 = p
  · simp [hep]
  · simp [hep]

theorem access_map_eq (t : property_tree) (p p' : fs_path) (x : prop_value) (hne : p' ≠ p) :
    property_tree.access ⟨t.nodes.map (fun e => if e.1 == p then (p, x) else e)⟩ p'
      = t.access p' := by
  have hpred : ((fun e : fs_path × prop_value => e.1 == p')
      ∘ fun e => if e.1 == p then (p, x) else e) = fun e => e.1 == p' := by
    funext e
    by_cases hep : e.1 = p
    · simp [hep]
    · simp [hep]
  unfold property_tree.access
  rw [node_exists_map_eq]
  simp only [List.find?_map, hpred]
  cases hf : t.nodes.find? (fun e => e.1 == p') with
  | none => rfl
  | some e =>
    have he1 : e.1 = p' := by simpa using List.find?_some hf
    have hfe : (if e.1 == p then (p, x) else e) = e := by
      have : e.1 ≠ p := by rw [he1]; exact hne
      simp [this]
    simp only [Option.map_some', hfe]

theorem node_exists_append_eq (t : property_tree) (p p' : fs_path) (x : prop_value)
    (h : ¬ p' <+: p) :
    property_tree.node_exists ⟨t.nodes ++ [(p, x)]⟩ p' = t.node_exists p' := by
  unfold property_tree.node_exists
  have hfalse : p'.isPrefixOf p = false := by
    rw [← Bool.not_eq_true, isPrefixOf_eq_true_iff]
    exact h
  simp [List.any_append, hfalse]

theorem access_append_eq (t : property_tree) (p p' : fs_path) (x : prop_value)
    (h : ¬ p' <+: p) :
    property_tree.access ⟨t.nodes ++ [(p, x)]⟩ p' = t.access p' := by
  have hne : ¬ p = p' := fun heq => h (by rw [heq])
  unfold property_tree.access
  rw [node_exists_append_eq t p p' x h]
  have hfind : (t.nodes ++ [(p, x)]).find? (fun e => e.1 == p')
      = t.nodes.find? (fun e => e.1 == p') := by
    rw [List.find?_append]
    have : [(p, x)].find? (fun e => e.1 == p') = none := by
      simp only [List.find?]
      have hb : (p == p') = false := by simpa using hne
      rw [hb]
    rw [this]
    cases t.nodes.find? (fun e => e.1 == p') <;> rfl
  rw [hfind]

/-- A call of `set_bytes_per_output_packet` on a port changes neither what is
stored at, nor the existence of, any path that is not at or above the path of
the override of that port. -/
theorem frame_after_set_bpp (self st' : block_ctrl_base) (bpp p : Nat) (b : Bool)
    (p' : fs_path) (hp' : ¬ p' <+: bpp_path self p)
    (h : set_bytes_per_output_packet self bpp p = Except.ok (b, st')) :
    st'._tree.access p' = self._tree.access p'
      ∧ st'._tree.node_exists p' = self._tree.node_exists p' := by
  have hne : p' ≠ bpp_path self p := fun heq => hp' (by rw [heq])
  rcases set_bpp_cases self bpp p b st' h with ⟨_, _, rfl⟩ | ⟨_, _, _, t, ht, rfl⟩ |
    ⟨_, _, _, t, ht, rfl⟩
  · exact ⟨rfl, rfl⟩
  · obtain ⟨_, rfl⟩ := set_size_ok_inv _ _ _ _ ht
    exact ⟨access_map_eq _ _ _ _ hne, node_exists_map_eq _ _ _ _⟩
  · obtain ⟨_, rfl⟩ := create_ok_inv _ _ _ _ ht
    exact ⟨access_append_eq _ _ _ _ hp', node_exists_append_eq _ _ _ _ hp'⟩

theorem state_after_set_bpp (self st' : block_ctrl_base) (bpp p : Nat) (b : Bool)
    (h : set_bytes_per_output_packet self bpp p = Except.ok (b, st')) :
    st'.root_path = self.root_path ∧ st'._ctrl_iface = self._ctrl_iface
      ∧ st'._ctrl_sid = self._ctrl_sid ∧ st'._block_id = self._block_id
      ∧ st'._transport_is_big_endian = self._transport_is_big_endian
      ∧ st'._upstream_blocks = self._upstream_blocks := by
  rcases set_bpp_cases self bpp p b st' h with ⟨_, _, rfl⟩ | ⟨_, _, _, t, _, rfl⟩ |
    ⟨_, _, _, t, _, rfl⟩ <;> exact ⟨rfl, rfl, rfl, rfl, rfl, rfl⟩

theorem leaf_not_prefix_bpp (self : block_ctrl_base) (leaf : String) (p : Nat)
    (h : leaf ≠ "bytes_per_packet") : ¬ (self.root_path ++ [leaf]) <+: bpp_path self p := by
  unfold bpp_path
  rw [List.prefix_append_right_inj]
  intro hp
  simp only [List.cons_prefix_cons] at hp
  exact h hp.1

theorem get_bpp_frame (self st' : block_ctrl_base) (bpp p q : Nat) (b : Bool) (hq : q ≠ p)
    (h : set_bytes_per_output_packet self bpp p = Except.ok (b, st')) :
    get_bytes_per_output_packet st' q = get_bytes_per_output_packet self q := by
  have hroot := (state_after_set_bpp self st' bpp p b h).1
  have h1 := frame_after_set_bpp self st' bpp p b (bpp_path self q)
    (fun hp => hq ((bpp_path_prefix_iff self q p).mp hp)) h
  have h2 := frame_after_set_bpp self st' bpp p b (default_bpp_path self)
    (fun hp => bpp_path_ne_default self p
      (hp.eq_of_length (by simp [bpp_path, default_bpp_path])).symm) h
  unfold get_bytes_per_output_packet property_tree.get_size
  unfold default_bpp_path at h2
  simp only [bpp_path, hroot] at h1 ⊢
  rw [h1.1, h1.2, h2.1]

/-- In a state that satisfies the invariant, a port that has an override reads
a multiple of the line size. -/
theorem override_is_multiple (H : Header) (st : block_ctrl_base) (p : Nat)
    (hinv : TreeInv H st) (hex : st._tree.node_exists (bpp_path st p) = true) :
    ∃ w, w % BYTES_PER_LINE = 0 ∧
      st._tree.access (bpp_path st p) = Except.ok (prop_value.size w) ∧
      get_bytes_per_output_packet st p = Except.ok w := by
  obtain ⟨e, he, hp⟩ := (node_exists_iff _ _).mp hex
  obtain ⟨v, _, rfl⟩ := hinv.ports p e he hp
  have hsome : (st._tree.nodes.find? (fun e => e.1 == bpp_path st p)).isSome := by
    rw [List.find?_isSome]
    exact ⟨_, he, by simp⟩
  obtain ⟨e', he'⟩ := Option.isSome_iff_exists.mp hsome
  have h1 := List.find?_some he'
  have h2 := List.mem_of_find?_eq_some he'
  simp only [beq_iff_eq] at h1
  obtain ⟨w, hw8, hw⟩ := hinv.ports p e' h2 (by rw [h1])
  have hacc : st._tree.access (bpp_path st p) = Except.ok (prop_value.size w) := by
    unfold property_tree.access
    rw [he', hw]
  refine ⟨w, hw8, hacc, ?_⟩
  unfold get_bytes_per_output_packet
  rw [if_pos hex]
  simp only [property_tree.get_size, hacc]

theorem access_leaf_apply_call (P : Platform) (H : Header) (self : block_ctrl_base)
    (c : Call) (leaf : String) (hleaf : leaf ≠ "bytes_per_packet") :
    (apply_call P H self c)._tree.access ((apply_call P H self c).root_path ++ [leaf])
      = self._tree.access (self.root_path ++ [leaf]) := by
  rw [root_path_apply_call]
  cases c with
  | set_bytes_per_output_packet bpp q =>
    simp only [apply_call]
    cases hs : set_bytes_per_output_packet self bpp q with
    | error e => rfl
    | ok r =>
      obtain ⟨b, st'⟩ := r
      exact (frame_after_set_bpp self st' bpp q b _ (leaf_not_prefix_bpp self leaf q hleaf) hs).1
  | _ => rfl

theorem get_fifo_size_run_calls_eq (P : Platform) (H : Header) (k : Nat) (calls : List Call) :
    ∀ self : block_ctrl_base,
      get_fifo_size (run_calls P H self calls) k = get_fifo_size self k := by
  induction calls with
  | nil => intro self; rfl
  | cons c cs ih =>
    intro self
    have hstep : get_fifo_size (apply_call P H self c) k = get_fifo_size self k := by
      unfold get_fifo_size property_tree.get_sizes
      rw [access_leaf_apply_call P H self c "input_buffer_size" (by decide)]
    exact (ih _).trans hstep

/-- C22: `get_fifo_size(p)` is an accessor: it yields a value or an error and no
new controller state.  The constructor returns a controller, and right after
construction and after any sequence of calls `get_fifo_size(p)` returns, for
every `p < 16`, the size that the constructor recorded for port `p`, and for
every `p >= 16` it raises the out-of-range error and returns no value. -/
theorem get_fifo_size_is_accessor (P : Platform) (H : Header) (iface : wb_iface)
    (sid : sid_t) (dev : Nat) (tree : property_tree) (be : Bool) :
    ∃ st, block_ctrl_base.ctor P H iface sid dev tree be = Except.ok st
      ∧ ∀ (calls : List Call) (p : Nat),
          (p < 16 →
            recorded_buf_size st p = some (buf_size_bytes P (buf_size_log2_read H iface p))
              ∧ get_fifo_size (run_calls P H st calls) p
                  = Except.ok (buf_size_bytes P (buf_size_log2_read H iface p)))
            ∧ (16 ≤ p →
                get_fifo_size (run_calls P H st calls) p = Except.error Exn.out_of_range) := by
  obtain ⟨n, hn, hfree, _⟩ := ctor_eq P H iface sid dev tree be
  refine ⟨_, hn, fun calls p => ⟨fun hp => ⟨?_, ?_⟩, fun hp => ?_⟩⟩
  · exact recorded_buf_size_constructed P H iface sid dev tree be n p hp hfree
  · rw [get_fifo_size_run_calls_eq]
    exact get_fifo_size_constructed P H iface sid dev tree be n p hp hfree
  · rw [get_fifo_size_run_calls_eq]
    unfold get_fifo_size
    rw [get_sizes_constructed P H iface sid dev tree be n hfree]
    have hnone : (fill_buf_sizes P (buffalloc1_read H iface) 8
        (fill_buf_sizes P (buffalloc0_read H iface) 0 (List.replicate 16 0))).get? p = none := by
      rw [List.get?_eq_none]
      rw [fill_buf_sizes_length]
      exact hp
    simp only [hnone]

/-- Witness of C22: on the sample controller, after a packet-size call,
port 1 reports its 1024 bytes and port 16 is out of range. -/
theorem get_fifo_size_is_accessor_witness :
    get_fifo_size
        (run_calls lp64 sample_header sample_ctrl [Call.set_bytes_per_output_packet 16 1]) 1
        = Except.ok 1024
      ∧ get_fifo_size
        (run_calls lp64 sample_header sample_ctrl [Call.set_bytes_per_output_packet 16 1]) 16
        = Except.error Exn.out_of_range := by
  obtain ⟨st, h0, hall⟩ :=
    get_fifo_size_is_accessor lp64 sample_header sample_iface ⟨0, 0x0210⟩ 0 sample_tree false
  rw [sample_ctrl_constructed] at h0
  cases h0
  exact ⟨((hall [Call.set_bytes_per_output_packet 16 1] 1).1 (by decide)).2,
    (hall [Call.set_bytes_per_output_packet 16 1] 16).2 (by decide)⟩

/-- C25: in every state that is reached from a freshly constructed controller
by a sequence of calls (of `set_bytes_per_output_packet` or of any other
method), every property stored at or below the path of a port override is a
`size_t` at that very path and a multiple of 8, and for every port `p` that has
an override `get_bytes_per_output_packet(p)` returns a multiple of 8. -/
theorem stored_overrides_are_multiples (P : Platform) (H : Header) (st : block_ctrl_base)
    (hr : Reachable P H st) :
    (∀ (p : Nat) (e : fs_path × prop_value), e ∈ st._tree.nodes → bpp_path st p <+: e.1 →
        ∃ v, v % 8 = 0 ∧ e = (bpp_path st p, prop_value.size v))
      ∧ ∀ p : Nat, st._tree.node_exists (bpp_path st p) = true →
          ∃ w, w % 8 = 0 ∧ get_bytes_per_output_packet st p = Except.ok w := by
  have hinv := TreeInv_of_reachable P H st hr
  refine ⟨fun p e he hp => hinv.ports p e he hp, fun p hex => ?_⟩
  obtain ⟨w, hw, _, hget⟩ := override_is_multiple H st p hinv hex
  exact ⟨w, hw, hget⟩

/-- Witness of C25: after two packet-size calls on the sample controller,
port 2 has an override and reads a multiple of 8. -/
theorem stored_overrides_are_multiples_witness :
    (match get_bytes_per_output_packet
        (run_calls lp64 sample_header sample_ctrl
          [Call.set_bytes_per_output_packet 24 2, Call.set_bytes_per_output_packet 7 2]) 2 with
      | Except.ok w => w % 8 = 0
      | Except.error _ => False) := by
  obtain ⟨w, hw, hget⟩ :=
    (stored_overrides_are_multiples lp64 sample_header
      (run_calls lp64 sample_header sample_ctrl
        [Call.set_bytes_per_output_packet 24 2, Call.set_bytes_per_output_packet 7 2])
      ⟨sample_iface, ⟨0, 0x0210⟩, 0, sample_tree, false, sample_ctrl, _,
        sample_ctrl_constructed, rfl⟩).2 2 (by decide)
  rw [hget]
  exact hw

/-- C26: when `set_bytes_per_output_packet(bpp, p)` returns `false`, the
controller afterwards is the controller before, in every member, and
`get_bytes_per_output_packet(q)` gives for every port `q` what it gave before
the call. -/
theorem rejected_packet_size_changes_nothing (self st' : block_ctrl_base) (bpp p : Nat)
    (h : set_bytes_per_output_packet self bpp p = Except.ok (false, st')) :
    st' = self
      ∧ ∀ q : Nat, get_bytes_per_output_packet st' q = get_bytes_per_output_packet self q := by
  have hst : st' = self := by
    rcases set_bpp_cases self bpp p false st' h with ⟨_, _, rfl⟩ | ⟨hb, _⟩ | ⟨hb, _⟩
    · rfl
    · cases hb
    · cases hb
  exact ⟨hst, fun q => by rw [hst]⟩

/-- Witness of C26: 7 bytes per packet are rejected on port 3 of the sample
controller, which stays as it was. -/
theorem rejected_packet_size_changes_nothing_witness :
    set_bytes_per_output_packet sample_ctrl 7 3
        = Except.ok (false,
            apply_call lp64 sample_header sample_ctrl (Call.set_bytes_per_output_packet 7 3))
      ∧ get_bytes_per_output_packet
          (apply_call lp64 sample_header sample_ctrl (Call.set_bytes_per_output_packet 7 3)) 3
        = get_bytes_per_output_packet sample_ctrl 3 :=
  ⟨rfl, (rejected_packet_size_changes_nothing sample_ctrl
    (apply_call lp64 sample_header sample_ctrl (Call.set_bytes_per_output_packet 7 3))
    7 3 rfl).2 3⟩


/-- C27: frame of a successful `set_bytes_per_output_packet(bpp, p)`.  For
every port `q` other than `p`, `get_bytes_per_output_packet(q)` gives after the
call what it gave before; every property that is not at or above the path of
the override of `p` is stored as before, so the block-wide default, the
recorded input buffer sizes (and with them `get_fifo_size`), `noc_id` and
`clock_rate` are unchanged; and so is every member of the controller other
than the tree. -/
theorem set_bytes_per_output_packet_frame (self st' : block_ctrl_base) (bpp p : Nat)
    (h : set_bytes_per_output_packet self bpp p = Except.ok (true, st')) :
    (∀ q : Nat, q ≠ p →
        get_bytes_per_output_packet st' q = get_bytes_per_output_packet self q)
      ∧ (∀ p' : fs_path, ¬ p' <+: bpp_path self p →
          st'._tree.access p' = self._tree.access p')
      ∧ st'._tree.get_size (default_bpp_path st') = self._tree.get_size (default_bpp_path self)
      ∧ st'._tree.get_sizes (st'.root_path ++ ["input_buffer_size"])
          = self._tree.get_sizes (self.root_path ++ ["input_buffer_size"])
      ∧ (∀ k : Nat, get_fifo_size st' k = get_fifo_size self k)
      ∧ st'._tree.access (st'.root_path ++ ["noc_id"])
          = self._tree.access (self.root_path ++ ["noc_id"])
      ∧ get_clock_rate st' = get_clock_rate self
      ∧ st'.root_path = self.root_path ∧ st'._ctrl_iface = self._ctrl_iface
      ∧ st'._ctrl_sid = self._ctrl_sid ∧ st'._block_id = self._block_id
      ∧ st'._transport_is_big_endian = self._transport_is_big_endian
      ∧ st'._upstream_blocks = self._upstream_blocks := by
  have hst := state_after_set_bpp self st' bpp p true h
  have hroot := hst.1
  have hleaf : ∀ leaf : String, leaf ≠ "bytes_per_packet" →
      st'._tree.access (st'.root_path ++ [leaf]) = self._tree.access (self.root_path ++ [leaf]) :=
    fun leaf hl => by
      rw [hroot]
      exact (frame_after_set_bpp self st' bpp p true _ (leaf_not_prefix_bpp self leaf p hl) h).1
  have hdef : st'._tree.access (default_bpp_path st') = self._tree.access (default_bpp_path self) := by
    unfold default_bpp_path
    rw [hroot]
    exact (frame_after_set_bpp self st' bpp p true _
      (fun hp => bpp_path_ne_default self p
        (hp.eq_of_length (by simp [bpp_path, default_bpp_path])).symm) h).1
  have hsizes : st'._tree.get_sizes (st'.root_path ++ ["input_buffer_size"])
      = self._tree.get_sizes (self.root_path ++ ["input_buffer_size"]) := by
    unfold property_tree.get_sizes
    rw [hleaf "input_buffer_size" (by decide)]
  refine ⟨fun q hq => get_bpp_frame self st' bpp p q true hq h,
    fun p' hp' => (frame_after_set_bpp self st' bpp p true p' hp' h).1, ?_, hsizes, ?_,
    hleaf "noc_id" (by decide), ?_, hst⟩
  · unfold property_tree.get_size
    rw [hdef]
  · intro k
    unfold get_fifo_size
    rw [hsizes]
  · unfold get_clock_rate property_tree.get_dbl
    rw [hleaf "clock_rate" (by decide)]

/-- Witness of C27: 16 bytes per packet on port 3 of the sample controller
leave port 5, the clock rate and the size of port 0 as they were. -/
theorem set_bytes_per_output_packet_frame_witness :
    get_bytes_per_output_packet
        (apply_call lp64 sample_header sample_ctrl (Call.set_bytes_per_output_packet 16 3)) 5
        = get_bytes_per_output_packet sample_ctrl 5
      ∧ get_fifo_size
        (apply_call lp64 sample_header sample_ctrl (Call.set_bytes_per_output_packet 16 3)) 0
        = get_fifo_size sample_ctrl 0
      ∧ get_clock_rate
        (apply_call lp64 sample_header sample_ctrl (Call.set_bytes_per_output_packet 16 3))
        = get_clock_rate sample_ctrl := by
  have h := set_bytes_per_output_packet_frame sample_ctrl
    (apply_call lp64 sample_header sample_ctrl (Call.set_bytes_per_output_packet 16 3)) 16 3 rfl
  exact ⟨h.1 5 (by decide), h.2.2.2.2.1 0, h.2.2.2.2.2.2.1⟩

/-! ## Arguments that the register traffic does not depend on -/

/-- C28: the register traffic of the controller does not depend on the port,
on the SID argument or on the control SID of the controller.  For a fixed
`next_address`, `set_destination` makes the same one write, and leaves the same
controller but for the control SID, for every output port and every control
SID; for a fixed buffer size, `configure_flow_control_out` makes the same two
writes and leaves the same controller for every block port and SID; and
`get_address` returns the same address for every port. -/
theorem register_traffic_ignores_port_and_sid (H : Header) (self : block_ctrl_base)
    (next_address buf_size_pkts port port' : Nat) (sid sid' csid : sid_t) :
    new_accesses self._ctrl_iface
        (set_destination H { self with _ctrl_sid := csid } next_address port')._ctrl_iface
        = new_accesses self._ctrl_iface (set_destination H self next_address port)._ctrl_iface
      ∧ new_accesses self._ctrl_iface (set_destination H self next_address port)._ctrl_iface
        = [reg_write H.SR_NEXT_DST (2 ^ 16 ||| next_address % 2 ^ 32)]
      ∧ set_destination H { self with _ctrl_sid := csid } next_address port'
        = { set_destination H self next_address port with _ctrl_sid := csid }
      ∧ configure_flow_control_out H self buf_size_pkts port' sid'
        = configure_flow_control_out H self buf_size_pkts port sid
      ∧ new_accesses self._ctrl_iface
          (configure_flow_control_out H { self with _ctrl_sid := csid }
            buf_size_pkts port' sid')._ctrl_iface
        = new_accesses self._ctrl_iface
          (configure_flow_control_out H self buf_size_pkts port sid)._ctrl_iface
      ∧ (new_accesses self._ctrl_iface
          (configure_flow_control_out H self buf_size_pkts port sid)._ctrl_iface).length = 2
      ∧ get_address self port = get_address self port' := by
  have hor : to_uint32 (2 ^ 16 ||| to_uint32 next_address) = 2 ^ 16 ||| next_address % 2 ^ 32 := by
    unfold to_uint32
    rw [or_mod_two_pow_eq, Nat.mod_mod]
    norm_num
  refine ⟨rfl, ?_, rfl, rfl, rfl, ?_, rfl⟩
  · simp only [set_destination, sr_write_eq, pushed, new_accesses, List.drop_left, hor]
  · simp only [configure_flow_control_out, sr_write_eq, pushed, new_accesses,
      List.append_assoc, List.drop_left]
    rfl

/-! ## The two flow-control encoders side by side -/

theorem configure_flow_control_in_eq (P : Platform) (H : Header) (self : block_ctrl_base)
    (cycles packets block_port : Nat) :
    configure_flow_control_in P H self cycles packets block_port
      = pushed self
          [reg_write H.SR_FLOW_CTRL_CYCS_PER_ACK
             (if cycles = 0 then 0 else (2 ^ 31 ||| cycles) % 2 ^ 32),
           reg_write H.SR_FLOW_CTRL_PKTS_PER_ACK
             (if packets = 0 then 0 else (2 ^ 31 ||| packets) % 2 ^ 32)] := by
  have word : ∀ c : Nat,
      to_uint32 (if c ≠ 0 then to_uint32 (to_size_t P (int_one_shl P 31) ||| c) else 0)
        = if c = 0 then 0 else (2 ^ 31 ||| c) % 2 ^ 32 := by
    intro c
    by_cases h : c = 0
    · simp [h, to_uint32]
    · simp only [ne_eq, h, not_false_eq_true, if_true, if_false, enable_word_eq]
      simp [to_uint32]
  unfold configure_flow_control_in
  simp only [sr_write_eq, pushed_pushed, List.singleton_append, word]

theorem tx_configure_flow_control_eq (P : Platform) (self : tx_vita_core_3000_impl)
    (c p : Nat) :
    tx_vita_core_3000_impl.configure_flow_control P self c p
      = tx_pushed self
          [BusOp.poke32 (REG_DEFRAMER_CYCLE_FC_UPS self)
             (if c = 0 then 0 else 2 ^ 31 + c % 2 ^ 24),
           BusOp.poke32 (REG_DEFRAMER_PACKET_FC_UPS self)
             (if p = 0 then 0 else 2 ^ 31 + p % 2 ^ 16)] := by
  have h1 : to_uint32 (to_size_t P (int_one_shl P 31) ||| (c &&& 0xffffff))
      = 2 ^ 31 + c % 2 ^ 24 :=
    tx_enable_word P c 24 (by decide) (fun x => Nat.and_pow_two_sub_one_eq_mod x 24)
  have h2 : to_uint32 (to_size_t P (int_one_shl P 31) ||| (p &&& 0xffff))
      = 2 ^ 31 + p % 2 ^ 16 :=
    tx_enable_word P p 16 (by decide) (fun x => Nat.and_pow_two_sub_one_eq_mod x 16)
  unfold tx_vita_core_3000_impl.configure_flow_control
  by_cases hc0 : c = 0 <;> by_cases hp0 : p = 0 <;>
    simp [hc0, hp0, h1, h2, tx_pushed, wb_iface.poke32, REG_DEFRAMER_CYCLE_FC_UPS,
      REG_DEFRAMER_PACKET_FC_UPS]

theorem new_accesses_pushed (self : block_ctrl_base) (ops : List BusOp) :
    new_accesses self._ctrl_iface (pushed self ops)._ctrl_iface = ops := by
  simp [new_accesses, pushed]

theorem new_accesses_tx_pushed (self : tx_vita_core_3000_impl) (ops : List BusOp) :
    new_accesses self._iface (tx_pushed self ops)._iface = ops := by
  simp [new_accesses, tx_pushed]

theorem in_word_small (c : Nat) (h : c < 2 ^ 31) :
    (if c = 0 then 0 else (2 ^ 31 ||| c) % 2 ^ 32) = if c = 0 then 0 else 2 ^ 31 + c := by
  rw [enable_word_of_lt c (by omega), enable_bit_add c h]

/-- C29: the two flow-control encoders agree on their common range.  For every
`cycles < 2 ^ 24` and `packets < 2 ^ 16`, `block_ctrl_base::configure_flow_control_in`
and `configure_flow_control` of the transmit core each make two writes, the
cycle register first and the packet register second, and both write the same
pair of words: `0` for a cadence of `0`, bit 31 plus the cadence otherwise.
Outside that range they differ, because only the transmit core masks: for
`2 ^ 24` cycles the block controller writes `2 ^ 31 + 2 ^ 24` and the transmit
core the bare bit 31, and likewise for `2 ^ 16` packets. -/
theorem flow_control_encoders_agree (P : Platform) (H : Header) (self : block_ctrl_base)
    (core : tx_vita_core_3000_impl) (block_port : Nat) :
    (∀ cycles packets : Nat, cycles < 2 ^ 24 → packets < 2 ^ 16 →
        new_accesses self._ctrl_iface
            (configure_flow_control_in P H self cycles packets block_port)._ctrl_iface
          = [reg_write H.SR_FLOW_CTRL_CYCS_PER_ACK (if cycles = 0 then 0 else 2 ^ 31 + cycles),
             reg_write H.SR_FLOW_CTRL_PKTS_PER_ACK (if packets = 0 then 0 else 2 ^ 31 + packets)]
        ∧ new_accesses core._iface
            (tx_vita_core_3000_impl.configure_flow_control P core cycles packets)._iface
          = [BusOp.poke32 (REG_DEFRAMER_CYCLE_FC_UPS core)
               (if cycles = 0 then 0 else 2 ^ 31 + cycles),
             BusOp.poke32 (REG_DEFRAMER_PACKET_FC_UPS core)
               (if packets = 0 then 0 else 2 ^ 31 + packets)]
        ∧ written_words self._ctrl_iface
            (configure_flow_control_in P H self cycles packets block_port)._ctrl_iface
          = written_words core._iface
            (tx_vita_core_3000_impl.configure_flow_control P core cycles packets)._iface)
      ∧ written_words self._ctrl_iface
            (configure_flow_control_in P H self (2 ^ 24) (2 ^ 16) block_port)._ctrl_iface
          = [2 ^ 31 + 2 ^ 24, 2 ^ 31 + 2 ^ 16]
      ∧ written_words core._iface
            (tx_vita_core_3000_impl.configure_flow_control P core (2 ^ 24) (2 ^ 16))._iface
          = [2 ^ 31, 2 ^ 31] := by
  refine ⟨fun cycles packets hc hp => ?_, ?_, ?_⟩
  · have h1 : new_accesses self._ctrl_iface
          (configure_flow_control_in P H self cycles packets block_port)._ctrl_iface
        = [reg_write H.SR_FLOW_CTRL_CYCS_PER_ACK (if cycles = 0 then 0 else 2 ^ 31 + cycles),
           reg_write H.SR_FLOW_CTRL_PKTS_PER_ACK
             (if packets = 0 then 0 else 2 ^ 31 + packets)] := by
      rw [configure_flow_control_in_eq, new_accesses_pushed,
        in_word_small cycles (by omega), in_word_small packets (by omega)]
    have h2 : new_accesses core._iface
          (tx_vita_core_3000_impl.configure_flow_control P core cycles packets)._iface
        = [BusOp.poke32 (REG_DEFRAMER_CYCLE_FC_UPS core)
             (if cycles = 0 then 0 else 2 ^ 31 + cycles),
           BusOp.poke32 (REG_DEFRAMER_PACKET_FC_UPS core)
             (if packets = 0 then 0 else 2 ^ 31 + packets)] := by
      rw [tx_configure_flow_control_eq, new_accesses_tx_pushed,
        Nat.mod_eq_of_lt hc, Nat.mod_eq_of_lt hp]
    refine ⟨h1, h2, ?_⟩
    unfold written_words
    rw [h1, h2]
    rfl
  · unfold written_words
    rw [configure_flow_control_in_eq, new_accesses_pushed]
    simp only [poke_words, reg_write]
    have h1 : (if (2 : Nat) ^ 24 = 0 then 0 else (2 ^ 31 ||| 2 ^ 24) % 2 ^ 32)
        = 2 ^ 31 + 2 ^ 24 := by decide
    have h2 : (if (2 : Nat) ^ 16 = 0 then 0 else (2 ^ 31 ||| 2 ^ 16) % 2 ^ 32)
        = 2 ^ 31 + 2 ^ 16 := by decide
    rw [h1, h2]
  · unfold written_words
    rw [tx_configure_flow_control_eq, new_accesses_tx_pushed]
    simp only [poke_words]
    have h1 : (if (2 : Nat) ^ 24 = 0 then 0 else 2 ^ 31 + 2 ^ 24 % 2 ^ 24) = 2 ^ 31 := by decide
    have h2 : (if (2 : Nat) ^ 16 = 0 then 0 else 2 ^ 31 + 2 ^ 16 % 2 ^ 16) = 2 ^ 31 := by decide
    rw [h1, h2]

/-- Witness of C29: 1000 cycles and 4 packets are encoded alike by the sample
controller and the sample transmit core. -/
theorem flow_control_encoders_agree_witness :
    written_words sample_ctrl._ctrl_iface
        (configure_flow_control_in lp64 sample_header sample_ctrl 1000 4 0)._ctrl_iface
      = written_words sample_tx_core._iface
        (tx_vita_core_3000_impl.configure_flow_control lp64 sample_tx_core 1000 4)._iface :=
  ((flow_control_encoders_agree lp64 sample_header sample_ctrl sample_tx_core 0).1 1000 4
    (by decide) (by decide)).2.2

/-! ## The underflow policy of the transmit core -/

/-- C30: `set_underflow_policy` raises, and then a value error, exactly when
the policy string is none of `"next_packet"`, `"next_burst"` and `"wait"`, and
a call that raises makes no bus access.  Each accepted policy makes exactly one
access, a write to the error-policy register, of the word with the single bit
1, 2 and 0 set respectively, and changes nothing else; the three words are
pairwise different. -/
theorem set_underflow_policy_words (self : tx_vita_core_3000_impl) (policy : String) :
    (tx_vita_core_3000_impl.set_underflow_policy self policy = Except.error Exn.value_error
        ↔ policy ≠ "next_packet" ∧ policy ≠ "next_burst" ∧ policy ≠ "wait")
      ∧ ((∃ e, tx_vita_core_3000_impl.set_underflow_policy self policy = Except.error e)
        ↔ policy ≠ "next_packet" ∧ policy ≠ "next_burst" ∧ policy ≠ "wait")
      ∧ ((policy ≠ "next_packet" ∧ policy ≠ "next_burst" ∧ policy ≠ "wait") →
          after_set_underflow_policy self policy = self
            ∧ new_accesses self._iface (after_set_underflow_policy self policy)._iface = [])
      ∧ tx_vita_core_3000_impl.set_underflow_policy self "next_packet"
          = Except.ok (tx_pushed self [BusOp.poke32 (REG_CTRL_ERROR_POLICY self) (2 ^ 1)])
      ∧ tx_vita_core_3000_impl.set_underflow_policy self "next_burst"
          = Except.ok (tx_pushed self [BusOp.poke32 (REG_CTRL_ERROR_POLICY self) (2 ^ 2)])
      ∧ tx_vita_core_3000_impl.set_underflow_policy self "wait"
          = Except.ok (tx_pushed self [BusOp.poke32 (REG_CTRL_ERROR_POLICY self) (2 ^ 0)])
      ∧ (∀ i : Nat, ((2 : Nat) ^ 1).testBit i = decide (i = 1)
          ∧ ((2 : Nat) ^ 2).testBit i = decide (i = 2)
          ∧ ((2 : Nat) ^ 0).testBit i = decide (i = 0))
      ∧ ((2 : Nat) ^ 1 ≠ 2 ^ 2 ∧ (2 : Nat) ^ 1 ≠ 2 ^ 0 ∧ (2 : Nat) ^ 2 ≠ 2 ^ 0) := by
  have hiff : tx_vita_core_3000_impl.set_underflow_policy self policy
        = Except.error Exn.value_error
      ↔ policy ≠ "next_packet" ∧ policy ≠ "next_burst" ∧ policy ≠ "wait" := by
    unfold tx_vita_core_3000_impl.set_underflow_policy
    by_cases h1 : policy = "next_packet"
    · simp [h1]
    · by_cases h2 : policy = "next_burst"
      · simp [h2]
      · by_cases h3 : policy = "wait"
        · simp [h3]
        · simp [h1, h2, h3]
  refine ⟨hiff, ⟨?_, fun h => ⟨_, hiff.mpr h⟩⟩, ?_, rfl, rfl, rfl, ?_, by decide⟩
  · rintro ⟨e, he⟩
    unfold tx_vita_core_3000_impl.set_underflow_policy at he
    by_cases h1 : policy = "next_packet"
    · simp [h1] at he
    · by_cases h2 : policy = "next_burst"
      · simp [h2] at he
      · by_cases h3 : policy = "wait"
        · simp [h3] at he
        · exact ⟨h1, h2, h3⟩
  · intro h
    have hs := hiff.mpr h
    have hself : after_set_underflow_policy self policy = self := by
      unfold after_set_underflow_policy
      rw [hs]
    rw [hself]
    exact ⟨rfl, by simp [new_accesses]⟩
  · intro i
    refine ⟨?_, ?_, ?_⟩
    · rw [Nat.testBit_two_pow]
      simp [eq_comm]
    · rw [Nat.testBit_two_pow]
      simp [eq_comm]
    · rw [Nat.testBit_two_pow]
      simp [eq_comm]

/-- Witness of C30: the policy `"never"` is rejected and the sample core makes
no access. -/
theorem set_underflow_policy_words_witness :
    tx_vita_core_3000_impl.set_underflow_policy sample_tx_core "never"
        = Except.error Exn.value_error
      ∧ new_accesses sample_tx_core._iface
          (after_set_underflow_policy sample_tx_core "never")._iface = [] :=
  ⟨(set_underflow_policy_words sample_tx_core "never").1.mpr (by decide),
    ((set_underflow_policy_words sample_tx_core "never").2.2.1 (by decide)).2⟩

end Rfnoc

namespace UhdDump

/-! ## Reading the header bytes -/

theorem u8_lt (p : pbuf) (off : Nat) : u8 p off < 256 :=
  Nat.mod_lt _ (by decide)

theorem and_three (t : Nat) : t &&& 0x03 = t % 4 :=
  Nat.and_pow_two_sub_one_eq_mod t 2

set_option maxRecDepth 100000 in
theorem vita_type_byte : ∀ t : Fin 256, vita_type t = t / 16 := by
  decide

set_option maxRecDepth 100000 in
theorem vita_has_time_byte : ∀ c : Fin 256,
    ((c : Nat) &&& 0x30 = 0x10 ↔ (c : Nat) / 16 % 4 = 1) := by
  decide

theorem vrt_count_bits (D : DumpHeader) (p : pbuf) :
    (vrt_count D p &&& 0x30 = 0x10 ↔ vrt_count D p / 16 % 4 = 1) :=
  vita_has_time_byte ⟨vrt_count D p, u8_lt p _⟩

theorem vrt_type_nibble (D : DumpHeader) (p : pbuf) :
    vita_type (vrt_type D p) = vrt_type D p / 16 :=
  vita_type_byte ⟨vrt_type D p, u8_lt p _⟩

theorem print_vita_type_length (D : DumpHeader) (type : Nat) :
    (print_vita_type D type).length = 1 := by
  unfold print_vita_type
  split
  · rfl
  · split <;> rfl

theorem print_vita_burst_eq (t : Nat) :
    print_vita_burst t = [out (burst_label_of_bits (t % 4))] := by
  unfold print_vita_burst burst_label_of_bits
  rw [and_three]
  have h : t % 4 < 4 := Nat.mod_lt _ (by decide)
  interval_cases t % 4 <;> rfl

/-- C12: for every value of the VRT type byte, `print_vita_header` prints for
the burst flag exactly one of four labels, chosen by the low two bits alone:
`10` gives `SOB`, `01` gives `EOB`, `11` gives `Bad` and `00` gives the blank
label; the four labels are distinct, and the byte with its upper six bits
cleared gives the same label. -/
theorem burst_flag_from_low_bits (D : DumpHeader) (p : pbuf) (host_addr : Nat)
    (t : Fin 256) :
    print_vita_burst t = [out (burst_label_of_bits (t % 4))]
      ∧ print_vita_burst t = print_vita_burst (t % 4)
      ∧ burst_label_of_bits 2 = "SOB " ∧ burst_label_of_bits 1 = "EOB "
      ∧ burst_label_of_bits 3 = "Bad " ∧ burst_label_of_bits 0 = "    "
      ∧ ["SOB ", "EOB ", "Bad ", "    "].Nodup
      ∧ (print_vita_header D p host_addr).get? 1
          = some (out (burst_label_of_bits (vrt_type D p % 4))) := by
  refine ⟨print_vita_burst_eq t, ?_, rfl, rfl, rfl, rfl, by decide, ?_⟩
  · rw [print_vita_burst_eq, print_vita_burst_eq, Nat.mod_mod]
  · unfold print_vita_header
    have hlen := print_vita_type_length D (vita_type (vrt_type D p))
    rw [List.append_assoc, List.append_assoc, List.append_assoc, List.get?_eq_getElem?,
      List.getElem?_append_right (by omega), hlen, print_vita_burst_eq]
    simp

/-- C14: for every value of the VRT type byte, `print_vita_header` takes the
packet type from the high nibble alone: the type is the byte divided by 16,
clearing the low nibble does not change it, and what is printed for it depends
on no other bit.  With the type codes of the spec, nibble `0x4` is printed as an
extension context, nibble `0x1` as IF data, and each of the other 14 nibbles
as a bad type. -/
theorem packet_type_from_high_nibble (D : DumpHeader) (p : pbuf) (host_addr : Nat)
    (t : Fin 256) :
    vita_type t = t / 16
      ∧ vita_type (16 * (t / 16)) = vita_type t
      ∧ (print_vita_header D p host_addr).head?
          = (print_vita_type D (vrt_type D p / 16)).head?
      ∧ (print_vita_header D p host_addr).take 1 = print_vita_type D (vrt_type D p / 16)
      ∧ print_vita_type spec_header (vita_type t)
          = (if (t : Nat) / 16 = 4 then [out "Context Ext "]
             else if (t : Nat) / 16 = 1 then [out "IF Data     "]
             else [outf "Bad Type %x " [Arg.int ((t : Nat) / 16)]]) := by
  have h16 : 16 * ((t : Nat) / 16) < 256 := by
    have := t.isLt
    omega
  refine ⟨vita_type_byte t, ?_, ?_, ?_, ?_⟩
  · have h1 := vita_type_byte ⟨16 * ((t : Nat) / 16), h16⟩
    have h2 := vita_type_byte t
    simp only at h1
    rw [h1, h2]
    omega
  · unfold print_vita_header
    rw [vrt_type_nibble]
    have hlen := print_vita_type_length D (vrt_type D p / 16)
    cases hx : print_vita_type D (vrt_type D p / 16) with
    | nil => rw [hx] at hlen; cases hlen
    | cons a l => rfl
  · unfold print_vita_header
    rw [vrt_type_nibble]
    have hlen := print_vita_type_length D (vrt_type D p / 16)
    rw [List.append_assoc, List.append_assoc, List.append_assoc, List.take_append_eq_append_take,
      hlen, Nat.sub_self, List.take_zero, List.append_nil, List.take_of_length_le (by omega)]
  · rw [vita_type_byte t]
    rfl

/-! ## The time field and the place of the payload -/

theorem vita_has_time_eq (D : DumpHeader) (p : pbuf) :
    vita_has_time (vrt_count D p) = if vrt_count D p / 16 % 4 = 1 then 1 else 0 := by
  unfold vita_has_time
  by_cases h : vrt_count D p / 16 % 4 = 1
  · rw [if_pos ((vrt_count_bits D p).mpr h), if_pos h]
  · rw [if_neg (fun h' => h ((vrt_count_bits D p).mp h')), if_neg h]

theorem print_vita_payload_eq (D : DumpHeader) (p : pbuf) (direction type endpoint : Nat) :
    print_vita_payload D p direction type endpoint (vita_has_time (vrt_count D p))
      = print_context_at D p (context_offset D p) direction type endpoint := by
  rw [vita_has_time_eq]
  unfold print_vita_payload print_context_at context_offset
  by_cases h : vrt_count D p / 16 % 4 = 1
  · simp only [if_pos h, Nat.mul_one, ne_eq, one_ne_zero, not_false_eq_true, if_true,
      Nat.add_assoc]
  · simp only [if_neg h, Nat.mul_zero, Nat.add_zero, ne_eq, not_true_eq_false, if_false]

/-- C13: for every value of the VRT count byte, `print_vita_header` takes the
packet to carry a 64-bit time field exactly when the bits `[5:4]` of the byte
are `01`; the time is then read right after the VRT header, and the context
payload (transmit response, radio control, radio response, source flow
control) is decoded `VRT_SIZE + VITA_TIME_SIZE` past the VRT header when the
time field is present and `VRT_SIZE` past it otherwise. -/
theorem time_field_and_payload_offset (D : DumpHeader) (p : pbuf) (host_addr : Nat)
    (c : Fin 256) :
    (vita_has_time c = 1 ↔ (c : Nat) / 16 % 4 = 1)
      ∧ (vita_has_time c = 0 ↔ (c : Nat) / 16 % 4 ≠ 1)
      ∧ print_vita_time D p
          = (if vrt_count D p / 16 % 4 = 1 then
               [outf "Time=%016lx " [Arg.int (swaplong (u64 p (vrt_offset D + D.VRT_SIZE)))]]
             else [out "                      "])
      ∧ context_offset D p
          = (if vita_has_time (vrt_count D p) = 1 then vrt_offset D + D.VRT_SIZE + D.VITA_TIME_SIZE
             else vrt_offset D + D.VRT_SIZE)
      ∧ print_vita_header D p host_addr
          = print_vita_type D (vita_type (vrt_type D p))
              ++ print_vita_burst (vrt_type D p)
              ++ print_vita_time D p
              ++ [outf "SeqID=%04x " [Arg.int (D.VRLP_SEQID (vrlp_size D p))]]
              ++ print_context_at D p (context_offset D p) (vita_direction D p host_addr)
                   (vita_type (vrt_type D p)) (vita_endpoint D p host_addr) := by
  have hbits := vita_has_time_byte c
  refine ⟨?_, ?_, ?_, ?_, ?_⟩
  · unfold vita_has_time
    by_cases h : (c : Nat) &&& 0x30 = 0x10
    · simp [h, hbits.mp h]
    · have h2 : ¬ (c : Nat) / 16 % 4 = 1 := fun h' => h (hbits.mpr h')
      simp [h, h2]
  · unfold vita_has_time
    by_cases h : (c : Nat) &&& 0x30 = 0x10
    · simp [h, hbits.mp h]
    · have h2 : ¬ (c : Nat) / 16 % 4 = 1 := fun h' => h (hbits.mpr h')
      simp [h, h2]
  · unfold print_vita_time
    by_cases h : vrt_count D p / 16 % 4 = 1
    · rw [if_pos ((vrt_count_bits D p).mpr h), if_pos h]
    · rw [if_neg (fun h' => h ((vrt_count_bits D p).mp h')), if_neg h]
  · rw [vita_has_time_eq]
    unfold context_offset
    by_cases h : vrt_count D p / 16 % 4 = 1
    · simp [h, Nat.add_assoc]
    · simp [h]
  · unfold print_vita_header
    rw [print_vita_payload_eq]

/-! ## The framing word -/

theorem log_line_foreign (D : DumpHeader) (host_addr usrp_addr : Nat) (origin : Int)
    (x : Nat) (p : pbuf) (h : vrlp_start D p ≠ 0x504C5256) :
    log_line D host_addr usrp_addr origin x p
      = [outf "%8d %f NOT VRLP. %x\n"
          [Arg.int x, Arg.elapsed p.tv_sec p.tv_usec origin, Arg.int (vrlp_start D p)]] := by
  unfold log_line
  rw [if_pos h]

theorem swapint_u32 (p : pbuf) (off : Nat) : swapint (u32 p off) = be32 p off := by
  unfold swapint u32 be32
  have h0 := u8_lt p off
  have h1 := u8_lt p (off + 1)
  have h2 := u8_lt p (off + 2)
  have h3 := u8_lt p (off + 3)
  norm_num
  omega

/-- C16: `print_tx_response` prints two things for every 32-bit error code: a
label for the byte-swapped code and then the byte-swapped sequence id.  The
byte-swapped code is the big-endian word of the wire.  With distinct values of
the six codes, each of `TX_ACK`, `TX_EOB`, `TX_UNDERRUN`, `TX_SEQ_ERROR`,
`TX_TIME_ERROR` and `TX_MIDBURST_SEQ_ERROR` has its own label, the six labels
and the label of an unknown error are distinct, and every other value gets the
label of an unknown error. -/
theorem tx_response_labels (D : DumpHeader) (t : tx_response)
    (hcodes : [D.TX_ACK, D.TX_EOB, D.TX_UNDERRUN, D.TX_SEQ_ERROR, D.TX_TIME_ERROR,
      D.TX_MIDBURST_SEQ_ERROR].Nodup) :
    (print_tx_response D t).length = 2
      ∧ (print_tx_response D t).get? 1
          = some (outf "for SeqID = %04x" [Arg.int (swapint t.seq_id)])
      ∧ (swapint t.error_code = D.TX_ACK →
          (print_tx_response D t).head? = some (out "ACK "))
      ∧ (swapint t.error_code = D.TX_EOB →
          (print_tx_response D t).head? = some (out "EOB "))
      ∧ (swapint t.error_code = D.TX_UNDERRUN →
          (print_tx_response D t).head? = some (out "Underrun "))
      ∧ (swapint t.error_code = D.TX_SEQ_ERROR →
          (print_tx_response D t).head? = some (out "Sequence Error "))
      ∧ (swapint t.error_code = D.TX_TIME_ERROR →
          (print_tx_response D t).head? = some (out "Time Error "))
      ∧ (swapint t.error_code = D.TX_MIDBURST_SEQ_ERROR →
          (print_tx_response D t).head? = some (out "Mid-Burst Seq Errror "))
      ∧ (swapint t.error_code ∉ [D.TX_ACK, D.TX_EOB, D.TX_UNDERRUN, D.TX_SEQ_ERROR,
            D.TX_TIME_ERROR, D.TX_MIDBURST_SEQ_ERROR] →
          (print_tx_response D t).head? = some (out "Unknown Error "))
      ∧ ["ACK ", "EOB ", "Underrun ", "Sequence Error ", "Time Error ",
          "Mid-Burst Seq Errror ", "Unknown Error "].Nodup
      ∧ (∀ (p : pbuf) (off : Nat),
          swapint (tx_response_at p off).error_code = be32 p off
            ∧ swapint (tx_response_at p off).seq_id = be32 p (off + 4)) := by
  simp only [List.nodup_cons, List.mem_cons, List.mem_singleton, List.not_mem_nil, or_false,
    not_or, List.nodup_nil, and_true] at hcodes
  obtain ⟨⟨a1, a2, a3, a4, a5⟩, ⟨b2, b3, b4, b5⟩, ⟨c3, c4, c5⟩, ⟨d4, d5⟩, e5, _⟩ := hcodes
  refine ⟨rfl, rfl, ?_, ?_, ?_, ?_, ?_, ?_, ?_, by decide, ?_⟩
  · intro h
    simp [print_tx_response, h]
  · intro h
    simp [print_tx_response, h, Ne.symm a1]
  · intro h
    simp [print_tx_response, h, Ne.symm a2, Ne.symm b2]
  · intro h
    simp [print_tx_response, h, Ne.symm a3, Ne.symm b3, Ne.symm c3]
  · intro h
    simp [print_tx_response, h, Ne.symm a4, Ne.symm b4, Ne.symm c4, Ne.symm d4]
  · intro h
    simp [print_tx_response, h, Ne.symm a5, Ne.symm b5, Ne.symm c5, Ne.symm d5, Ne.symm e5]
  · intro h
    simp only [List.mem_cons, List.mem_singleton, List.not_mem_nil, or_false, not_or] at h
    obtain ⟨n1, n2, n3, n4, n5, n6⟩ := h
    simp [print_tx_response, n1, n2, n3, n4, n5, n6]
  · intro p off
    exact ⟨swapint_u32 p off, swapint_u32 p (off + 4)⟩

/-- Witness of C16: the transmit response of the sample packet carries the
code 2 on the wire and is reported as an underrun. -/
theorem tx_response_labels_witness :
    (print_tx_response spec_header
        (tx_response_at sample_response_packet (context_offset spec_header
          sample_response_packet))).head?
      = some (out "Underrun ") :=
  (tx_response_labels spec_header
    (tx_response_at sample_response_packet (context_offset spec_header sample_response_packet))
    (by decide)).2.2.2.2.1 (by decide)

/-! ## The log of packets without the VRLP framing -/

theorem u32_congr (p p' : pbuf) (off : Nat)
    (h : ∀ i, i < 4 → u8 p' (off + i) = u8 p (off + i)) : u32 p' off = u32 p off := by
  unfold u32
  have h0 := h 0 (by decide)
  rw [Nat.add_zero] at h0
  rw [h0, h 1 (by decide), h 2 (by decide), h 3 (by decide)]

/-- C20: in the packet-by-packet log of `vrlp_log` the framing word is tested
before anything else of the packet is looked at.  For a packet whose framing
word is not the VRLP magic the line is the running number, the time since the
start and the framing word, and nothing else: a packet with the same capture
time and the same four framing bytes gives the same line, whatever its other
bytes and whatever the host and device addresses are. -/
theorem foreign_packet_line (D : DumpHeader) (host_addr usrp_addr : Nat) (origin : Int)
    (x : Nat) (p : pbuf) (hforeign : vrlp_start D p ≠ 0x504C5256) :
    log_line D host_addr usrp_addr origin x p
        = [outf "%8d %f NOT VRLP. %x\n"
            [Arg.int x, Arg.elapsed p.tv_sec p.tv_usec origin, Arg.int (vrlp_start D p)]]
      ∧ (∀ (host_addr' usrp_addr' : Nat) (p' : pbuf),
          p'.tv_sec = p.tv_sec → p'.tv_usec = p.tv_usec →
          (∀ i, i < 4 → u8 p' (vrlp_offset D + i) = u8 p (vrlp_offset D + i)) →
          log_line D host_addr' usrp_addr' origin x p'
            = log_line D host_addr usrp_addr origin x p)
      ∧ (∀ rest : List pbuf,
          packet_log D host_addr usrp_addr origin x (p :: rest)
            = outf "%8d %f NOT VRLP. %x\n"
                [Arg.int (x + 1 : Nat), Arg.elapsed p.tv_sec p.tv_usec origin,
                 Arg.int (vrlp_start D p)]
              :: packet_log D host_addr usrp_addr origin (x + 1) rest) := by
  refine ⟨log_line_foreign D host_addr usrp_addr origin x p hforeign, ?_, ?_⟩
  · intro host_addr' usrp_addr' p' hs hu hbytes
    have hstart : vrlp_start D p' = vrlp_start D p := u32_congr p p' (vrlp_offset D) hbytes
    rw [log_line_foreign D host_addr usrp_addr origin x p hforeign,
      log_line_foreign D host_addr' usrp_addr' origin x p' (by rw [hstart]; exact hforeign),
      hstart, hs, hu]
  · intro rest
    show log_line D host_addr usrp_addr origin (x + 1) p ++ _ = _
    rw [log_line_foreign D host_addr usrp_addr origin (x + 1) p hforeign]
    rfl

/-- Witness of C20: two foreign packets that share the capture time and the
framing word, and nothing else, give the same line of the log. -/
theorem foreign_packet_line_witness :
    log_line spec_header 0 0 100000000 3 sample_foreign_packet_other
      = log_line spec_header 0x0100000A 0x0200000A 100000000 3 sample_foreign_packet :=
  (foreign_packet_line spec_header 0x0100000A 0x0200000A 100000000 3 sample_foreign_packet
    (by decide)).2.1 0 0 sample_foreign_packet_other (by decide) (by decide) (by decide)

/-! ## The two ends of the connection -/

/-- C23, evaluated: a packet from the device to the host (source device `2`,
destination device `0`, VRLP framing) does not end the scan of
`get_connection_endpoints`.  Alone in a capture it is reported as malformed,
both addresses stay zero and the program ends with status 2; followed by a
packet from the host to the device, it is reported as malformed and the
addresses are taken from the second packet.  A packet from the host to the
device alone gives host = IP source and device = IP destination. -/
theorem usrp_to_host_packet_is_passed_over :
    vrlp_start spec_header sample_response_packet = 0x504C5256
      ∧ src_device spec_header sample_response_packet = 2
      ∧ dst_device spec_header sample_response_packet = 0
      ∧ get_connection_endpoints spec_header [sample_response_packet]
        = { host_addr := 0, usrp_addr := 0,
            printed :=
              [⟨Stream.stderr,
                 "Malformed CHDR compatable VRT packet, SID is unexpected value: 0x%x",
                 [Arg.int 2]⟩,
               ⟨Stream.stderr,
                 "Could not identify Host/USRP direction in capture analysis, exiting.\n", []⟩],
            exit_status := some 2 }
      ∧ get_connection_endpoints spec_header [sample_response_packet, sample_command_packet]
        = { host_addr := ip_src spec_header sample_command_packet,
            usrp_addr := ip_dst spec_header sample_command_packet,
            printed :=
              [⟨Stream.stderr,
                 "Malformed CHDR compatable VRT packet, SID is unexpected value: 0x%x",
                 [Arg.int 2]⟩],
            exit_status := none }
      ∧ get_connection_endpoints spec_header [sample_command_packet]
        = { host_addr := ip_src spec_header sample_command_packet,
            usrp_addr := ip_dst spec_header sample_command_packet,
            printed := [], exit_status := none }
      ∧ ip_src spec_header sample_response_packet ≠ 0 := by
  refine ⟨by decide, by decide, by decide, by decide, by decide, by decide, by decide⟩

end UhdDump

namespace Ad9361

open Rfnoc

/-! ## Sequence numbers of the transactions -/

theorem seq_after_do_transaction (P : Platform) (A : TransactionHeader)
    (self : ad9361_ctrl_impl) (request : ad9361_transaction_t) :
    (do_transaction P A self request).2._seq = (self._seq + 1) % 2 ^ P.model.size_bits
      ∧ (do_transaction P A self request).2._iface.log
          = self._iface.log ++ [stamped A self request]
      ∧ (do_transaction P A self request).2._iface.transact = self._iface.transact := by
  unfold do_transaction
  simp only
  split
  · exact ⟨rfl, rfl, rfl⟩
  · split_ifs <;> exact ⟨rfl, rfl, rfl⟩

theorem seq_after_requests (P : Platform) (A : TransactionHeader)
    (reqs : List ad9361_transaction_t) :
    ∀ (self : ad9361_ctrl_impl) (n : Nat), self._seq = n % 2 ^ P.model.size_bits →
      (run_requests P A self reqs)._seq = (n + reqs.length) % 2 ^ P.model.size_bits := by
  induction reqs with
  | nil => intro self n h; exact h
  | cons r rs ih =>
    intro self n h
    have hstep : (do_transaction P A self r).2._seq = (n + 1) % 2 ^ P.model.size_bits := by
      rw [(seq_after_do_transaction P A self r).1, h, Nat.add_mod, Nat.mod_mod, ← Nat.add_mod]
    have := ih _ (n + 1) hstep
    simp only [run_requests, List.length_cons]
    rw [this]
    congr 1
    omega

theorem seq_of_fresh (P : Platform) (A : TransactionHeader) (iface : ad9361_ctrl_iface_type)
    (reqs : List ad9361_transaction_t) :
    (run_requests P A (fresh iface) reqs)._seq = reqs.length % 2 ^ P.model.size_bits := by
  have := seq_after_requests P A reqs (fresh iface) 0 (by simp [fresh])
  simpa using this

theorem do_transaction_checks (P : Platform) (A : TransactionHeader)
    (self : ad9361_ctrl_impl) (request out : ad9361_transaction_t)
    (h : (do_transaction P A self request).1 = Except.ok out) :
    self._iface.transact self._iface.log (stamped A self request) = Except.ok out
      ∧ out.version = (stamped A self request).version
      ∧ out.sequence = (stamped A self request).sequence := by
  unfold do_transaction at h
  simp only at h
  cases ht : self._iface.transact self._iface.log (stamped A self request) with
  | error e =>
    rw [ht] at h
    cases h
  | ok o =>
    rw [ht] at h
    simp only at h
    split_ifs at h with h1 h2 h3
    cases h
    exact ⟨rfl, not_not.mp h1, not_not.mp h2⟩

theorem do_transaction_mismatch (P : Platform) (A : TransactionHeader)
    (self : ad9361_ctrl_impl) (request out : ad9361_transaction_t)
    (ht : self._iface.transact self._iface.log (stamped A self request) = Except.ok out)
    (hm : out.version ≠ (stamped A self request).version
      ∨ out.sequence ≠ (stamped A self request).sequence) :
    (do_transaction P A self request).1 = Except.error Exn.assertion_error := by
  unfold do_transaction
  simp only
  rw [ht]
  simp only
  by_cases h1 : out.version ≠ (stamped A self request).version
  · rw [if_pos h1]
  · rw [if_neg h1]
    rcases hm with hm | hm
    · exact absurd hm h1
    · rw [if_pos hm]

/-- C21 (as amended): `do_transaction` stamps the request that follows `k`
earlier ones on a controller with the protocol version and with the sequence
number `k` reduced to the width of the `size_t` counter and then to the width
of the `sequence` field, which is `k` itself while `k` fits both; the stamped
request is what the transport receives, and the counter moves on by one
(modulo the width of `size_t`) whether the call returns or raises.  A reply is
returned only if the transport gave it and its version and sequence equal
those of the stamped request; when the transport gives a reply whose version or
sequence differs, the call raises the assertion error and returns nothing. -/
theorem do_transaction_sequence_numbers (P : Platform) (A : TransactionHeader)
    (iface : ad9361_ctrl_iface_type) (reqs : List ad9361_transaction_t)
    (request : ad9361_transaction_t) :
    (stamped A (run_requests P A (fresh iface) reqs) request).sequence
        = reqs.length % 2 ^ P.model.size_bits % 2 ^ A.sequence_bits
      ∧ (stamped A (run_requests P A (fresh iface) reqs) request).version
        = A.AD9361_TRANSACTION_VERSION
      ∧ (reqs.length < 2 ^ P.model.size_bits → reqs.length < 2 ^ A.sequence_bits →
          (stamped A (run_requests P A (fresh iface) reqs) request).sequence = reqs.length)
      ∧ (do_transaction P A (run_requests P A (fresh iface) reqs) request).2._iface.log
        = (run_requests P A (fresh iface) reqs)._iface.log
            ++ [stamped A (run_requests P A (fresh iface) reqs) request]
      ∧ (do_transaction P A (run_requests P A (fresh iface) reqs) request).2._seq
        = (reqs.length + 1) % 2 ^ P.model.size_bits
      ∧ (∀ out : ad9361_transaction_t,
          (do_transaction P A (run_requests P A (fresh iface) reqs) request).1 = Except.ok out →
            (run_requests P A (fresh iface) reqs)._iface.transact
                (run_requests P A (fresh iface) reqs)._iface.log
                (stamped A (run_requests P A (fresh iface) reqs) request) = Except.ok out
              ∧ out.version = A.AD9361_TRANSACTION_VERSION
              ∧ out.sequence
                  = (stamped A (run_requests P A (fresh iface) reqs) request).sequence)
      ∧ (∀ out : ad9361_transaction_t,
          (run_requests P A (fresh iface) reqs)._iface.transact
              (run_requests P A (fresh iface) reqs)._iface.log
              (stamped A (run_requests P A (fresh iface) reqs) request) = Except.ok out →
          (out.version ≠ A.AD9361_TRANSACTION_VERSION
            ∨ out.sequence
                ≠ (stamped A (run_requests P A (fresh iface) reqs) request).sequence) →
          (do_transaction P A (run_requests P A (fresh iface) reqs) request).1
            = Except.error Exn.assertion_error) := by
  have hseq := seq_of_fresh P A iface reqs
  have hstamp : (stamped A (run_requests P A (fresh iface) reqs) request).sequence
      = reqs.length % 2 ^ P.model.size_bits % 2 ^ A.sequence_bits := by
    simp only [stamped, hseq]
  have hstep := seq_after_do_transaction P A (run_requests P A (fresh iface) reqs) request
  refine ⟨hstamp, rfl, ?_, hstep.2.1, ?_, ?_, ?_⟩
  · intro h1 h2
    rw [hstamp, Nat.mod_eq_of_lt h1, Nat.mod_eq_of_lt h2]
  · rw [hstep.1, hseq, Nat.add_mod, Nat.mod_mod, ← Nat.add_mod]
  · intro out h
    exact do_transaction_checks P A _ request out h
  · intro out ht hm
    exact do_transaction_mismatch P A _ request out ht hm

/-- Witness of C21: after two requests on the echoing transport the next one
is stamped 2, and the stale reply of the other transport makes the first
request raise. -/
theorem do_transaction_sequence_numbers_witness :
    (stamped sample_transaction_header
        (run_requests lp64 sample_transaction_header (fresh echo_iface)
          [sample_request, sample_request]) sample_request).sequence = 2
      ∧ (do_transaction lp64 sample_transaction_header
          (run_requests lp64 sample_transaction_header (fresh stale_iface) []) sample_request).1
        = Except.error Exn.assertion_error :=
  ⟨(do_transaction_sequence_numbers lp64 sample_transaction_header echo_iface
      [sample_request, sample_request] sample_request).2.2.1 (by decide) (by decide),
   (do_transaction_sequence_numbers lp64 sample_transaction_header stale_iface
      [] sample_request).2.2.2.2.2.2 _ rfl (Or.inr (by decide))⟩

/-- C21 as stated fails once the counter wraps: on the host with a 32-bit
`size_t`, the request that follows `2 ^ 32` earlier ones is request number
`2 ^ 32` and is stamped with the sequence number `0`, the stamp of the very
first request. -/
theorem sequence_number_wraps :
    (List.replicate (2 ^ 32) sample_request).length = 2 ^ 32
      ∧ (stamped sample_transaction_header
          (run_requests ilp32 sample_transaction_header (fresh echo_iface)
            (List.replicate (2 ^ 32) sample_request)) sample_request).sequence = 0
      ∧ (stamped sample_transaction_header
          (run_requests ilp32 sample_transaction_header (fresh echo_iface)
            (List.replicate (2 ^ 32) sample_request)) sample_request).sequence ≠ 2 ^ 32
      ∧ (stamped sample_transaction_header
          (run_requests ilp32 sample_transaction_header (fresh echo_iface) [])
            sample_request).sequence = 0 := by
  have hlen : (List.replicate (2 ^ 32) sample_request).length = 2 ^ 32 :=
    List.length_replicate _ _
  have hseq := seq_of_fresh ilp32 sample_transaction_header echo_iface
    (List.replicate (2 ^ 32) sample_request)
  rw [hlen] at hseq
  have h0 : (stamped sample_transaction_header
      (run_requests ilp32 sample_transaction_header (fresh echo_iface)
        (List.replicate (2 ^ 32) sample_request)) sample_request).sequence = 0 := by
    simp only [stamped, hseq]
    decide
  refine ⟨hlen, h0, ?_, rfl⟩
  rw [h0]
  decide

end Ad9361

namespace B200

open Rfnoc

/-! ## The checksum of a record -/

theorem checksum_loop_spec (other : List Char → Nat → Nat) (n : Nat) :
    ∀ (digits pre : List Char) (fuel sum val : Nat), digits.length = 2 * n →
      (∀ c ∈ digits, (hex_digit_value c).isSome = true) →
      pre.length + digits.length < 2 ^ 32 → n < fuel → sum < 256 →
      checksum_loop other (pre ++ digits) fuel pre.length sum val
        = some (decide ((sum + (byte_values digits).sum) % 256 = 0)) := by
  induction n with
  | zero =>
    intro digits pre fuel sum val hlen _ _ hfuel hsum
    have hnil : digits = [] := List.length_eq_zero.mp (by simpa using hlen)
    subst hnil
    obtain ⟨f, rfl⟩ := Nat.exists_eq_succ_of_ne_zero (Nat.ne_of_gt hfuel)
    simp only [checksum_loop, List.append_nil, Nat.lt_irrefl, if_false, byte_values,
      List.sum_nil, Nat.add_zero, Nat.mod_eq_of_lt hsum]
  | succ n ih =>
    intro digits pre fuel sum val hlen hhex hfit hfuel hsum
    match digits, hlen, hhex, hfit with
    | [], hlen, _, _ => simp at hlen
    | [_], hlen, _, _ =>
      simp only [List.length_singleton] at hlen
      omega
    | a :: b :: rest, hlen, hhex, hfit =>
      obtain ⟨f, rfl⟩ := Nat.exists_eq_succ_of_ne_zero (Nat.ne_of_gt (Nat.zero_lt_of_lt hfuel))
      obtain ⟨x, hx⟩ := Option.isSome_iff_exists.mp (hhex a (by simp))
      obtain ⟨y, hy⟩ := Option.isSome_iff_exists.mp (hhex b (by simp))
      have hsub : substr (pre ++ a :: b :: rest) pre.length 2 = [a, b] := by
        simp [substr, List.drop_left]
      have hext : extract_hex other [a, b] val = 16 * x + y := by
        simp only [extract_hex, hx, hy]
      have hlt : pre.length < (pre ++ a :: b :: rest).length := by
        simp
      simp only [List.length_cons] at hlen hfit
      have hnext : (pre.length + 2) % 2 ^ 32 = (pre ++ [a, b]).length := by
        rw [Nat.mod_eq_of_lt (by omega)]
        simp
      have hrec : pre ++ a :: b :: rest = (pre ++ [a, b]) ++ rest := by simp
      have hstep := ih rest (pre ++ [a, b]) f ((sum + (16 * x + y)) % 256) (16 * x + y)
        (by omega) (fun c hc => hhex c (by simp [hc]))
        (by simp only [List.length_append, List.length_cons, List.length_nil]; omega)
        (by omega) (Nat.mod_lt _ (by decide))
      unfold checksum_loop
      rw [if_pos hlt, hsub, hext, hnext, hrec, hstep]
      have key : ((sum + (16 * x + y)) % 256 + (byte_values rest).sum) % 256
          = (sum + (16 * x + y + (byte_values rest).sum)) % 256 := by
        generalize (byte_values rest).sum = s
        omega
      simp only [byte_values, hx, hy, Option.getD_some, List.sum_cons, key]

theorem checksum_loop_diverges (other : List Char → Nat → Nat) (record : List Char)
    (hlen : 2 ^ 32 ≤ record.length) :
    ∀ fuel i sum val : Nat, i < 2 ^ 32 → checksum_loop other record fuel i sum val = none := by
  intro fuel
  induction fuel with
  | zero => intro i sum val _; rfl
  | succ f ih =>
    intro i sum val hi
    unfold checksum_loop
    rw [if_pos (Nat.lt_of_lt_of_le hi hlen)]
    exact ih _ _ _ (Nat.mod_lt _ (by decide))

/-- Where the 32-bit index does not wrap, the loop does what its comment says:
for every record made of `':'` and an even number of hexadecimal digits that is
shorter than `2 ^ 32` characters, `checksum(record)` returns, and it returns
`true` exactly when the sum of the bytes that the successive pairs of digits
write is congruent to 0 modulo 256. -/
theorem checksum_of_record (other : List Char → Nat → Nat) (val0 fuel : Nat)
    (digits : List Char) (hhex : ∀ c ∈ digits, (hex_digit_value c).isSome = true)
    (heven : digits.length % 2 = 0) (hlen : (':' :: digits).length < 2 ^ 32)
    (hfuel : digits.length / 2 < fuel) :
    checksum other val0 fuel (':' :: digits)
      = some (decide ((byte_values digits).sum % 256 = 0)) := by
  have h := checksum_loop_spec other (digits.length / 2) digits [':'] fuel 0 val0
    (by omega) hhex (by simpa [Nat.add_comm] using hlen) hfuel (by decide)
  simpa [checksum] using h

/-- The end-of-file record `:00000001FF` has the bytes `00 00 00 01 FF`, whose
sum is 256, and is accepted. -/
theorem checksum_of_record_witness :
    checksum (fun _ v => v) 0 6 ":00000001FF".toList = some true :=
  (checksum_of_record (fun _ v => v) 0 6 "00000001FF".toList (by decide) (by decide)
    (by decide) (by decide)).trans (by decide)

/-- C24, evaluated: on a host with a 64-bit `size_t`, the record made of `':'`
and `2 ^ 32` digits `0` is a colon followed by an even number of hexadecimal
digits whose bytes sum to 0, so the function documented as returning `true` for
a valid record and `false` otherwise should return `true`; it does not return
at all, however many turns the loop is given, because the index, declared
`unsigned int` while the length is a `size_t`, wraps from `2 ^ 32 - 1` to `1`
and never reaches the length. -/
theorem checksum_loops_on_long_record :
    (':' :: List.replicate (2 ^ 32) '0').length = 2 ^ 32 + 1
      ∧ 2 ^ 32 + 1 < 2 ^ lp64.model.size_bits
      ∧ (2 ^ 32) % 2 = 0
      ∧ hex_digit_value '0' = some 0
      ∧ (∀ fuel : Nat,
          checksum (fun _ v => v) 0 fuel (':' :: List.replicate (2 ^ 32) '0') = none) := by
  have hlen : (':' :: List.replicate (2 ^ 32) '0').length = 2 ^ 32 + 1 := by
    rw [List.length_cons, List.length_replicate]
  refine ⟨hlen, by decide, by decide, by decide, fun fuel => ?_⟩
  exact checksum_loop_diverges _ _ (by rw [hlen]; exact Nat.le_succ _) fuel 1 0 0 (by decide)

end B200
